import Mathlib

/-!
Aikido Zen profiler: IL rewriting engine and instrumentation registry.

A shallow embedding of `Aikido.Zen.Profiler` (`il_codes.h`, `il_instructions.cpp`,
`method_info.h`, `il_rewriter.h`, `instrumentation_filter.h`, `aikido_profiler.h`).

Conventions of the embedding:

* a `BYTE` is a `Nat` below 256, a byte buffer is a `List Nat`;
* `ULONG`, `mdToken` are `Nat` (32-bit arithmetic is reduced modulo `2 ^ 32` where the source
  computes in 32 bits), `int` and `HRESULT` are `Int`;
* a C++ exception is a value of `RewriteError` carrying the message of the `throw`; a function
  that may throw returns an `Outcome`: the exception, if any, and the rewriter object as the
  function left it;
* the answers of the host runtime (profiler info and metadata emit interfaces) are functions of
  the arguments of the call;
* a `memcpy` into `ilBuffer` stores the bytes that land inside the vector; a byte addressed past
  the end of the vector is undefined behaviour in C++ and is recorded in the ghost field
  `outOfBounds` as the pair (offset, byte) instead of being stored;
* an enumeration of the host (`EnumModules`/`Next`, `EnumTypeDefs`, `EnumMethods`) is the list
  of the results of the successive calls on it, each an `HRESULT` and the tokens fetched;
* the calls `profilerInfo->RequestReJIT` a function makes are recorded in order, each as the
  pair (module, method token);
* a signature blob is the list of the bytes behind the pointer `sigBlob`; the parser records
  the offsets it reads in the ghost field `reads`;
* a `MemoryCopy` of one or more bytes to the null pointer writes at address 0: the access
  violation is not a C++ exception, no `catch` handles it, and the function that made the copy
  does not return. The value a function returns is therefore an `Option HRESULT` wherever such
  a copy is on its path, `none` standing for a call that does not return.
-/

namespace AikidoZen

/-! ## `il_codes.h`: `enum IL_OPCODES` -/

def CEE_NOP : Nat := 0x00
def CEE_LDARG_0 : Nat := 0x02
def CEE_LDARG_1 : Nat := 0x03
def CEE_LDARG_2 : Nat := 0x04
def CEE_LDARG_3 : Nat := 0x05
def CEE_LDLOC_0 : Nat := 0x06
def CEE_STLOC_0 : Nat := 0x0A
def CEE_LDARG : Nat := 0xFE09
def CEE_LDLOC : Nat := 0xFE0C
def CEE_STLOC : Nat := 0xFE0E
def CEE_CALL : Nat := 0x28
def CEE_RET : Nat := 0x2A
def CEE_BOX : Nat := 0x8C
def CEE_NEWARR : Nat := 0x8D
def CEE_LDSTR : Nat := 0x72
def CEE_LDC_I4 : Nat := 0x20
def CEE_LDC_I4_0 : Nat := 0x16
def CEE_LDC_I4_8 : Nat := 0x1E
def CEE_STELEM_REF : Nat := 0xA2
def CEE_LOCALS : Nat := 0xF0

/-! ## `corhdr.h` constants used by the rewriter -/

def IMAGE_CEE_CS_CALLCONV_DEFAULT : Nat := 0x00
def IMAGE_CEE_CS_CALLCONV_LOCAL_SIG : Nat := 0x07
def ELEMENT_TYPE_VOID : Nat := 0x01
def ELEMENT_TYPE_STRING : Nat := 0x0E
def ELEMENT_TYPE_OBJECT : Nat := 0x1C
def ELEMENT_TYPE_SZARRAY : Nat := 0x1D

/-! ## Machine integers -/

/-- Conversion of a 32-bit unsigned value (`ULONG`) to `int`. -/
def toInt32 (n : Nat) : Int :=
  if n % 2 ^ 32 < 2 ^ 31 then ((n % 2 ^ 32 : Nat) : Int)
  else ((n % 2 ^ 32 : Nat) : Int) - 2 ^ 32

/-- The byte `(BYTE)((v >> k) & 0xFF)` of an unsigned token `v`. -/
def byteOf (v k : Nat) : Nat := (v >>> k) &&& 0xFF

/-- The byte `(BYTE)((v >> k) & 0xFF)` of an `int` `v` (arithmetic shift, twos complement). -/
def byteOfInt (v : Int) (k : Nat) : Nat := ((v >>> k) % 256).toNat

/-- The cast `(BYTE)(v)` of an `int` `v`: the low eight bits. -/
def toBYTE (v : Int) : Nat := (v % 256).toNat

/-- The four bytes of a 32-bit value as stored by `*reinterpret_cast<T *>(p) = value`
on a little-endian machine. -/
def storedBytes32 (v : Nat) : List Nat :=
  [v % 256, v / 256 % 256, v / 65536 % 256, v / 16777216 % 256]

/-- The type `HRESULT`, a signed 32-bit integer: `FAILED(hr)` is `hr < 0`. -/
abbrev HRESULT := Int

def S_OK : HRESULT := 0
def E_FAIL : HRESULT := -2147467259

def FAILED (hr : HRESULT) : Bool := decide (hr < 0)

/-! ## `il_instructions.cpp`: `struct ILInstructions`

Each helper returns the content of its static buffer; `size` is the length of the list. -/

namespace ILInstructions

def LoadString (_str : String) : List Nat :=
  [CEE_LDSTR, 0, 0, 0, 0]

def CallMethod (methodToken : Nat) : List Nat :=
  [CEE_CALL, byteOf methodToken 0, byteOf methodToken 8, byteOf methodToken 16,
    byteOf methodToken 24]

def LoadArg (argIndex : Int) : List Nat :=
  if argIndex ≤ 3 then
    [toBYTE ((CEE_LDARG_0 : Int) + argIndex)]
  else
    [byteOf CEE_LDARG 0, byteOf CEE_LDARG 8, byteOfInt argIndex 0, byteOfInt argIndex 8]

def StoreLocal (localIndex : Int) : List Nat :=
  if localIndex = 0 then
    [CEE_STLOC_0]
  else
    [byteOf CEE_STLOC 0, byteOf CEE_STLOC 8, byteOfInt localIndex 0, byteOfInt localIndex 8]

def Box (typeRef : Nat) : List Nat :=
  [CEE_BOX, byteOf typeRef 0, byteOf typeRef 8, byteOf typeRef 16, byteOf typeRef 24]

def NewArray (elementTypeRef : Nat) : List Nat :=
  [CEE_NEWARR, byteOf elementTypeRef 0, byteOf elementTypeRef 8, byteOf elementTypeRef 16,
    byteOf elementTypeRef 24]

def LoadConstantI4 (value : Int) : List Nat :=
  if 0 ≤ value ∧ value ≤ 8 then
    [toBYTE ((CEE_LDC_I4_0 : Int) + value)]
  else
    [CEE_LDC_I4, byteOfInt value 0, byteOfInt value 8, byteOfInt value 16, byteOfInt value 24]

def StoreElementRef : List Nat :=
  [CEE_STELEM_REF]

end ILInstructions

/-! ## `method_info.h` -/

structure TypeInfo where
  typeToken : Nat
  isValueType : Bool
  typeName : String
  deriving DecidableEq, Repr

structure MethodInfo where
  moduleId : Nat
  methodToken : Nat
  typeToken : Nat
  methodName : String
  className : String
  assemblyName : String
  attributes : Nat
  isStatic : Bool
  isPublic : Bool
  isPrivate : Bool
  isVirtual : Bool
  isValueType : Bool
  argCount : Nat
  argTypes : List TypeInfo
  ilCode : List Nat
  codeSize : Nat
  deriving DecidableEq, Repr

namespace MethodInfo

def GetFullName (m : MethodInfo) : String :=
  m.assemblyName ++ "!" ++ m.className ++ "." ++ m.methodName

end MethodInfo

/-! ## `il_rewriter.h` -/

def DEFAULT_IL_BUFFER_PADDING : Nat := 512
def MAX_ASSEMBLY_REFS : Nat := 1024

/-- The exceptions thrown inside the rewriter, with the message of the `throw`. -/
inductive RewriteError where
  | invalid_argument (what : String)
  | runtime_error (what : String)
  deriving DecidableEq, Repr

/-- The metadata emit interface of a module (`IMetaDataEmit` and, through `QueryInterface`,
`IMetaDataAssemblyEmit`): each call answers an `HRESULT` and the value of its out parameter. -/
structure MetaDataEmit where
  GetTokenFromSig : List Nat → HRESULT × Nat
  QueryInterface_AssemblyEmit : HRESULT
  DefineAssemblyRef : String → HRESULT × Nat
  DefineTypeRefByName : Nat → String → HRESULT × Nat
  DefineMemberRef : Nat → String → List Nat → HRESULT × Nat

/-- The part of `ICorProfilerInfo7` the rewriter calls. `GetModuleMetaData` answers an
`HRESULT` and the interface (not null when the call succeeds; not looked at when it fails).
`SetILFunctionBody` receives the module, the method token and the memory `ilBuffer.data()`
points to. -/
structure ProfilerInfo where
  GetModuleMetaData : Nat → HRESULT × MetaDataEmit
  SetILFunctionBody : Nat → Nat → List Nat → HRESULT

/-- The function-local statics of `DetectRuntimeStatic`. -/
structure RuntimeCache where
  isNetCoreCache : Bool
  isCacheInitialized : Bool
  deriving DecidableEq, Repr

/-- The statics as initialised at program start. -/
def RuntimeCache.initial : RuntimeCache := ⟨false, false⟩

/-- The data members of `class ILRewriter` (the `profilerInfo` pointer is passed to `Rewrite`
separately). `newIL` is the distance of the write pointer from `ilBuffer.data()`; `newILSize`
is never written or read by the class; `outOfBounds` is the ghost record of the writes past
the end of `ilBuffer`. -/
structure ILRewriter where
  methodInfo : MethodInfo
  ilBuffer : List Nat
  newIL : Nat
  newILSize : Nat
  localVarSig : List Nat
  isNetCore : Bool
  currentILOffset : Nat
  outOfBounds : List (Nat × Nat)
  deriving DecidableEq, Repr

/-- What a member function that may throw leaves behind. -/
structure Outcome where
  thrown : Option RewriteError
  rw : ILRewriter
  deriving DecidableEq, Repr

/-- Sequencing of statements: the second runs only when the first did not throw. -/
def Outcome.andThen (o : Outcome) (f : ILRewriter → Outcome) : Outcome :=
  match o.thrown with
  | some _ => o
  | none => f o.rw

/-- Stores `src` into `buf` from offset `off` on; offsets outside `buf` are not stored. -/
def writeBytes (buf : List Nat) (off : Nat) : List Nat → List Nat
  | [] => buf
  | b :: bs => writeBytes (buf.set off b) (off + 1) bs

/-- The writes of `src` from offset `off` on that fall outside a buffer of length `len`. -/
def overflowBytes (len off : Nat) : List Nat → List (Nat × Nat)
  | [] => []
  | b :: bs =>
    if len ≤ off then (off, b) :: overflowBytes len (off + 1) bs
    else overflowBytes len (off + 1) bs

namespace ILRewriter

/-- The call `memcpy(newIL, src, size)` with `size` the length of `src`. -/
def memcpy (rw : ILRewriter) (src : List Nat) : ILRewriter :=
  { rw with
    ilBuffer := writeBytes rw.ilBuffer rw.newIL src
    outOfBounds := rw.outOfBounds ++ overflowBytes rw.ilBuffer.length rw.newIL src }

def AdvanceIL (rw : ILRewriter) (bytes : Nat) : Outcome :=
  if rw.currentILOffset + bytes > rw.ilBuffer.length then
    ⟨some (.runtime_error "IL buffer overflow"), rw⟩
  else
    ⟨none, { rw with currentILOffset := rw.currentILOffset + bytes, newIL := rw.newIL + bytes }⟩

/-- The template `EmitIL<T>(value)`; `value` is given by its object representation of
`sizeof(T)` bytes. -/
def EmitIL (rw : ILRewriter) (value : List Nat) : Outcome :=
  if rw.currentILOffset + value.length > rw.ilBuffer.length then
    ⟨some (.runtime_error "IL buffer overflow"), rw⟩
  else
    AdvanceIL (rw.memcpy value) value.length

/-- The recurring statement triple `il = ...; memcpy(newIL, il, size); AdvanceIL(size);`. -/
def emit (rw : ILRewriter) (il : List Nat) : Outcome :=
  AdvanceIL (rw.memcpy il) il.length

/-- The loop `for (ULONG i = 0; i < methodInfo.argCount; i++)` of `EmitLoadArguments`, entered
at index `i` with `remaining = argCount - i` iterations to go. -/
def loadArgumentsLoop (remaining i : Nat) (rw : ILRewriter) : Outcome :=
  match remaining with
  | 0 => ⟨none, rw⟩
  | remaining + 1 =>
    match rw.methodInfo.argTypes.get? i with
    | none => ⟨some (.runtime_error "Argument type information missing"), rw⟩
    | some argType =>
      let argIndex : Int := toInt32 (if rw.methodInfo.isStatic then i else (i + 1) % 2 ^ 32)
      ((rw.emit (ILInstructions.LoadArg argIndex)).andThen fun rw =>
        (if argType.isValueType then rw.emit (ILInstructions.Box argType.typeToken)
          else ⟨none, rw⟩).andThen fun rw =>
        rw.emit ILInstructions.StoreElementRef).andThen fun rw =>
      loadArgumentsLoop remaining (i + 1) rw

def EmitLoadArguments (metaEmit : Option MetaDataEmit) (rw : ILRewriter) : Outcome :=
  match metaEmit with
  | none => ⟨some (.invalid_argument "metaEmit is null"), rw⟩
  | some metaEmit =>
    if rw.methodInfo.argCount > 1024 then
      ⟨some (.runtime_error "Too many arguments"), rw⟩
    else
      (rw.emit (ILInstructions.LoadConstantI4 (toInt32 rw.methodInfo.argCount))).andThen fun rw =>
      if FAILED metaEmit.QueryInterface_AssemblyEmit then
        ⟨some (.runtime_error "Failed to get assembly emit interface"), rw⟩
      else
        let r := metaEmit.DefineAssemblyRef (if rw.isNetCore then "System.Runtime" else "mscorlib")
        if FAILED r.1 then
          ⟨some (.runtime_error "Failed to define assembly reference"), rw⟩
        else
          let mscorlibRef := r.2
          let t := metaEmit.DefineTypeRefByName mscorlibRef "System.Object"
          if FAILED t.1 then
            ⟨some (.runtime_error "Failed to define System.Object reference"), rw⟩
          else
            let objectTypeRef := t.2
            (rw.emit (ILInstructions.NewArray objectTypeRef)).andThen fun rw =>
            (rw.emit (ILInstructions.StoreLocal 0)).andThen fun rw =>
            (if !rw.methodInfo.isStatic then
              (rw.emit (ILInstructions.LoadArg 0)).andThen fun rw =>
              (if rw.methodInfo.isValueType then
                rw.emit (ILInstructions.Box rw.methodInfo.typeToken)
                else ⟨none, rw⟩).andThen fun rw =>
              rw.emit ILInstructions.StoreElementRef
             else ⟨none, rw⟩).andThen fun rw =>
            loadArgumentsLoop rw.methodInfo.argCount 0 rw

/-- The signature `static const COR_SIGNATURE bridgeMethodSig[]`. -/
def bridgeMethodSig : List Nat :=
  [IMAGE_CEE_CS_CALLCONV_DEFAULT, 2, ELEMENT_TYPE_VOID, ELEMENT_TYPE_STRING,
    ELEMENT_TYPE_SZARRAY, ELEMENT_TYPE_OBJECT]

def EmitCallToManagedBridge (metaEmit : Option MetaDataEmit) (rw : ILRewriter) : Outcome :=
  match metaEmit with
  | none => ⟨some (.invalid_argument "metaEmit is null"), rw⟩
  | some metaEmit =>
    if FAILED metaEmit.QueryInterface_AssemblyEmit then
      ⟨some (.runtime_error "Failed to get assembly emit interface"), rw⟩
    else
      let r := metaEmit.DefineAssemblyRef "Aikido.Zen.Core"
      if FAILED r.1 then
        ⟨some (.runtime_error "Failed to define assembly reference"), rw⟩
      else
        let aikidoRef := r.2
        let t := metaEmit.DefineTypeRefByName aikidoRef "Aikido.Zen.Core.Bridge"
        if FAILED t.1 then
          ⟨some (.runtime_error "Failed to define Bridge type reference"), rw⟩
        else
          let bridgeTypeRef := t.2
          let m := metaEmit.DefineMemberRef bridgeTypeRef "OnMethodEnter" bridgeMethodSig
          if FAILED m.1 then
            ⟨some (.runtime_error "Failed to define OnMethodEnter reference"), rw⟩
          else
            let bridgeMethodRef := m.2
            let fullName := rw.methodInfo.GetFullName
            (rw.emit (ILInstructions.LoadString fullName)).andThen fun rw =>
            (rw.emit (ILInstructions.LoadArg 0)).andThen fun rw =>
            rw.emit (ILInstructions.CallMethod bridgeMethodRef)

/-- The four `localVarSig.push_back` calls of `InsertProlog`. -/
def pushLocalVarSig (rw : ILRewriter) : ILRewriter :=
  { rw with
    localVarSig := rw.localVarSig ++
      [IMAGE_CEE_CS_CALLCONV_LOCAL_SIG, 1, ELEMENT_TYPE_SZARRAY, ELEMENT_TYPE_OBJECT] }

def InsertProlog (metaEmit : MetaDataEmit) (rw : ILRewriter) : Outcome :=
  let rw := rw.pushLocalVarSig
  let r := metaEmit.GetTokenFromSig rw.localVarSig
  if FAILED r.1 then
    ⟨some (.runtime_error "Failed to get token from signature"), rw⟩
  else
    let localVarSigToken := r.2
    (rw.EmitIL [CEE_LOCALS]).andThen fun rw =>
    (rw.EmitIL (storedBytes32 localVarSigToken)).andThen fun rw =>
    (EmitLoadArguments (some metaEmit) rw).andThen fun rw =>
    EmitCallToManagedBridge (some metaEmit) rw

/-- The call `memcpy(newIL, methodInfo.ilCode, methodInfo.codeSize)` and the two increments. -/
def CopyOriginalIL (rw : ILRewriter) : ILRewriter :=
  let rw := rw.memcpy (rw.methodInfo.ilCode.take rw.methodInfo.codeSize)
  { rw with
    newIL := rw.newIL + rw.methodInfo.codeSize
    currentILOffset := rw.currentILOffset + rw.methodInfo.codeSize }

def InsertEpilog (rw : ILRewriter) : ILRewriter := rw

/-- The function `DetectRuntimeStatic`: the answer and the statics afterwards. -/
def DetectRuntimeStatic (cache : RuntimeCache) : Bool × RuntimeCache :=
  if cache.isCacheInitialized then
    (cache.isNetCoreCache, cache)
  else
    (cache.isNetCoreCache, { cache with isCacheInitialized := true })

/-- The constructor `ILRewriter(info, methodInfo)` for a non-null `info`: the new object and
the statics of `DetectRuntimeStatic` afterwards. The sum `codeSize + DEFAULT_IL_BUFFER_PADDING`
is computed in `ULONG`. -/
def construct (cache : RuntimeCache) (methodInfo : MethodInfo) : ILRewriter × RuntimeCache :=
  let requiredSize := (methodInfo.codeSize + DEFAULT_IL_BUFFER_PADDING) % 2 ^ 32
  let d := DetectRuntimeStatic cache
  ({ methodInfo := methodInfo
     ilBuffer := List.replicate requiredSize 0
     newIL := 0
     newILSize := 0
     localVarSig := []
     isNetCore := d.1
     currentILOffset := 0
     outOfBounds := [] }, d.2)

end ILRewriter

/-- One recorded write past the end of the vector, applied to the memory behind
`ilBuffer.data()` (bytes never written read as 0). -/
def applyWrite (mem : List Nat) (w : Nat × Nat) : List Nat :=
  if w.1 < mem.length then mem.set w.1 w.2
  else mem ++ List.replicate (w.1 - mem.length) 0 ++ [w.2]

/-- The memory from `ilBuffer.data()` on as the writes of the rewriter left it: the content of
the vector, followed by what was written past its end. Equal to `ilBuffer` when nothing was
written out of bounds. -/
def memoryImage (rw : ILRewriter) : List Nat :=
  rw.outOfBounds.foldl applyWrite rw.ilBuffer

/-- What one call of `Rewrite` did: the `HRESULT` returned, `none` when the call does not
return; the rewriter object afterwards; the arguments of the `SetILFunctionBody` call if it was
made (module, method token and the memory the pointer `ilBuffer.data()` designates); and the
byte count of the `MemoryCopy` to the null `finalBuffer` if it was reached. -/
structure RewriteResult where
  hr : Option HRESULT
  rw : ILRewriter
  submitted : Option (Nat × Nat × List Nat)
  copiedToNull : Option Nat
  deriving DecidableEq, Repr

namespace ILRewriter

/-- The member function `Rewrite`. After a `SetILFunctionBody` that did not fail,
`finalBuffer` is still the null pointer it was initialised with when
`MemoryCopy(finalBuffer, ilBuffer.data(), currentILOffset)` runs: with `currentILOffset > 0`
the copy writes at address 0 and `return hr` is not reached. -/
def Rewrite (profilerInfo : ProfilerInfo) (rw : ILRewriter) : RewriteResult :=
  let g := profilerInfo.GetModuleMetaData rw.methodInfo.moduleId
  if FAILED g.1 then
    ⟨some g.1, rw, none, none⟩
  else
    let metaEmit := g.2
    let rw := { rw with currentILOffset := 0 }
    let o := InsertProlog metaEmit rw
    match o.thrown with
    | some _ => ⟨some E_FAIL, o.rw, none, none⟩
    | none =>
      let rw := InsertEpilog (CopyOriginalIL o.rw)
      let hr := profilerInfo.SetILFunctionBody rw.methodInfo.moduleId rw.methodInfo.methodToken
        (memoryImage rw)
      if FAILED hr then
        ⟨some hr, rw, some (rw.methodInfo.moduleId, rw.methodInfo.methodToken, memoryImage rw),
          none⟩
      else
        ⟨if rw.currentILOffset = 0 then some hr else none, rw,
          some (rw.methodInfo.moduleId, rw.methodInfo.methodToken, memoryImage rw),
          some rw.currentILOffset⟩

end ILRewriter

/-! ## Reference sequences

The instruction sequences the specification describes, as lists of `ILInstructions` calls. -/

/-- One call of an `ILInstructions` helper. -/
inductive Instr where
  | LoadString (str : String)
  | CallMethod (methodToken : Nat)
  | LoadArg (argIndex : Int)
  | StoreLocal (localIndex : Int)
  | Box (typeRef : Nat)
  | NewArray (elementTypeRef : Nat)
  | LoadConstantI4 (value : Int)
  | StoreElementRef
  deriving DecidableEq, Repr

/-- The bytes the helper returns. -/
def Instr.encode : Instr → List Nat
  | .LoadString str => ILInstructions.LoadString str
  | .CallMethod methodToken => ILInstructions.CallMethod methodToken
  | .LoadArg argIndex => ILInstructions.LoadArg argIndex
  | .StoreLocal localIndex => ILInstructions.StoreLocal localIndex
  | .Box typeRef => ILInstructions.Box typeRef
  | .NewArray elementTypeRef => ILInstructions.NewArray elementTypeRef
  | .LoadConstantI4 value => ILInstructions.LoadConstantI4 value
  | .StoreElementRef => ILInstructions.StoreElementRef

/-- The bytes of a sequence of helper calls, in order. -/
def encodeAll : List Instr → List Nat
  | [] => []
  | i :: is => i.encode ++ encodeAll is

/-- Staging of one slot: load the argument, box it iff it is declared a value type, store. -/
def slotStaging (argIndex : Nat) (isValueType : Bool) (typeToken : Nat) : List Instr :=
  [.LoadArg argIndex] ++ (if isValueType then [.Box typeToken] else []) ++ [.StoreElementRef]

/-- Staging of the declared arguments `argTypes`, the first of them at position `i`: argument
`i` is loaded from argument slot `i` of a static method and `i + 1` of an instance method. -/
def argumentStaging (isStatic : Bool) : Nat → List TypeInfo → List Instr
  | _, [] => []
  | i, t :: ts =>
    slotStaging (if isStatic then i else i + 1) t.isValueType t.typeToken ++
      argumentStaging isStatic (i + 1) ts

/-- The reference sequence of the argument staging: the receiver of an instance method, then
the `argCount` declared arguments in declaration order. -/
def stagingReference (m : MethodInfo) : List Instr :=
  (if m.isStatic then [] else slotStaging 0 m.isValueType m.typeToken) ++
    argumentStaging m.isStatic 0 (m.argTypes.take m.argCount)

/-- The token `GetTokenFromSig` answers for the local-variable signature `sig`. -/
def localVarSigToken (metaEmit : MetaDataEmit) (sig : List Nat) : Nat :=
  (metaEmit.GetTokenFromSig sig).2

/-- The `System.Object` type reference as `EmitLoadArguments` resolves it. -/
def objectTypeRef (metaEmit : MetaDataEmit) (isNetCore : Bool) : Nat :=
  (metaEmit.DefineTypeRefByName
    (metaEmit.DefineAssemblyRef (if isNetCore then "System.Runtime" else "mscorlib")).2
    "System.Object").2

/-- The `Bridge` type reference as `EmitCallToManagedBridge` resolves it. -/
def bridgeTypeRef (metaEmit : MetaDataEmit) : Nat :=
  (metaEmit.DefineTypeRefByName (metaEmit.DefineAssemblyRef "Aikido.Zen.Core").2
    "Aikido.Zen.Core.Bridge").2

/-- The `OnMethodEnter` member reference as `EmitCallToManagedBridge` resolves it. -/
def bridgeMethodRef (metaEmit : MetaDataEmit) : Nat :=
  (metaEmit.DefineMemberRef (bridgeTypeRef metaEmit) "OnMethodEnter"
    ILRewriter.bridgeMethodSig).2

/-- The helper calls of `EmitLoadArguments`, in order. -/
def loadArgumentsReference (objectTypeRef : Nat) (m : MethodInfo) : List Instr :=
  [.LoadConstantI4 m.argCount, .NewArray objectTypeRef, .StoreLocal 0] ++ stagingReference m

/-- The helper calls of `EmitCallToManagedBridge`, in order. -/
def bridgeCallReference (bridgeMethodRef : Nat) (m : MethodInfo) : List Instr :=
  [.LoadString m.GetFullName, .LoadArg 0, .CallMethod bridgeMethodRef]

/-- The bytes of the whole prolog for the resolved tokens. -/
def prologBytes (sigToken objectTypeRef bridgeMethodRef : Nat) (m : MethodInfo) : List Nat :=
  [CEE_LOCALS] ++ storedBytes32 sigToken ++
    encodeAll (loadArgumentsReference objectTypeRef m) ++
    encodeAll (bridgeCallReference bridgeMethodRef m)

/-- The instruction is an element store (`stelem.ref`). -/
def Instr.isStoreElementRef : Instr → Bool
  | .StoreElementRef => true
  | _ => false

/-- The instruction is a `box`. -/
def Instr.isBox : Instr → Bool
  | .Box _ => true
  | _ => false

/-- The rewriter after `il` was copied to `newIL` and both cursors were advanced by its
length. -/
def ILRewriter.appended (rw : ILRewriter) (il : List Nat) : ILRewriter :=
  { rw with
    ilBuffer := writeBytes rw.ilBuffer rw.newIL il
    outOfBounds := rw.outOfBounds ++ overflowBytes rw.ilBuffer.length rw.newIL il
    currentILOffset := rw.currentILOffset + il.length
    newIL := rw.newIL + il.length }

/-- The statement sequence producing `o` from `rw` emits exactly `il`: it appends `il` when
`il` fits behind the cursor and throws the overflow exception when it does not (the cursor
being inside the buffer beforehand). -/
def Emits (rw : ILRewriter) (o : Outcome) (il : List Nat) : Prop :=
  rw.currentILOffset ≤ rw.ilBuffer.length →
  (rw.currentILOffset + il.length ≤ rw.ilBuffer.length → o = ⟨none, rw.appended il⟩) ∧
  (rw.ilBuffer.length < rw.currentILOffset + il.length →
    o.thrown = some (.runtime_error "IL buffer overflow"))

instance (rw : ILRewriter) (o : Outcome) (il : List Nat) : Decidable (Emits rw o il) := by
  unfold Emits
  exact inferInstance

/-- All collaborator calls of `InsertProlog` on `rw` succeed. -/
def CollaboratorSucceeds (metaEmit : MetaDataEmit) (rw : ILRewriter) : Prop :=
  FAILED (metaEmit.GetTokenFromSig rw.pushLocalVarSig.localVarSig).1 = false ∧
  FAILED metaEmit.QueryInterface_AssemblyEmit = false ∧
  FAILED (metaEmit.DefineAssemblyRef
    (if rw.isNetCore then "System.Runtime" else "mscorlib")).1 = false ∧
  FAILED (metaEmit.DefineTypeRefByName
    (metaEmit.DefineAssemblyRef (if rw.isNetCore then "System.Runtime" else "mscorlib")).2
    "System.Object").1 = false ∧
  FAILED (metaEmit.DefineAssemblyRef "Aikido.Zen.Core").1 = false ∧
  FAILED (metaEmit.DefineTypeRefByName (metaEmit.DefineAssemblyRef "Aikido.Zen.Core").2
    "Aikido.Zen.Core.Bridge").1 = false ∧
  FAILED (metaEmit.DefineMemberRef (bridgeTypeRef metaEmit) "OnMethodEnter"
    ILRewriter.bridgeMethodSig).1 = false

instance (metaEmit : MetaDataEmit) (rw : ILRewriter) :
    Decidable (CollaboratorSucceeds metaEmit rw) := by
  unfold CollaboratorSucceeds
  exact inferInstance

/-- The write pointer and the cursor agree, the cursor is inside the buffer, nothing was
written out of bounds and the buffer from the cursor on still holds the zeros of `resize`. -/
def WellPositioned (rw : ILRewriter) : Prop :=
  rw.newIL = rw.currentILOffset ∧ rw.currentILOffset ≤ rw.ilBuffer.length ∧
  rw.outOfBounds = [] ∧
  rw.ilBuffer.drop rw.currentILOffset =
    List.replicate (rw.ilBuffer.length - rw.currentILOffset) 0

instance (rw : ILRewriter) : Decidable (WellPositioned rw) := by
  unfold WellPositioned
  exact inferInstance

/-- What every emission step leaves alone, throwing or not: the descriptor, the runtime flag,
the signature and the size of the buffer; and when it does not throw it keeps the rewriter
well positioned. -/
def Preserves (rw : ILRewriter) (o : Outcome) : Prop :=
  o.rw.methodInfo = rw.methodInfo ∧ o.rw.isNetCore = rw.isNetCore ∧
  o.rw.localVarSig = rw.localVarSig ∧ o.rw.ilBuffer.length = rw.ilBuffer.length ∧
  (o.thrown = none → WellPositioned rw → WellPositioned o.rw)

instance (rw : ILRewriter) (o : Outcome) : Decidable (Preserves rw o) := by
  unfold Preserves
  exact inferInstance

/-! ## `aikido_profiler.h`: the instrumentation registry -/

/-- The member `methodsToInstrument`, a
`std::unordered_map<std::wstring, std::unordered_set<std::wstring>>`: a finite map from
assembly names to finite sets of qualified method names. -/
abbrev Registry := AList (fun _ : String => Finset String)

namespace AikidoProfiler

def ShouldInstrumentMethod (methodsToInstrument : Registry) (methodInfo : MethodInfo) : Bool :=
  match methodsToInstrument.lookup methodInfo.assemblyName with
  | none => false
  | some methods =>
    let fullMethodName := methodInfo.className ++ "." ++ methodInfo.methodName
    decide (fullMethodName ∈ methods)

/-- The statement `methodsToInstrument[assemblyName].insert(methodName)`: `operator[]` creates
an empty set for a missing key. -/
def AddMethodToInstrument (methodsToInstrument : Registry) (assemblyName methodName : String) :
    Registry :=
  methodsToInstrument.insert assemblyName
    (insert methodName ((methodsToInstrument.lookup assemblyName).getD ∅))

def RemoveMethodToInstrument (methodsToInstrument : Registry)
    (assemblyName methodName : String) : Registry :=
  match methodsToInstrument.lookup assemblyName with
  | none => methodsToInstrument
  | some methods =>
    let methods := methods.erase methodName
    if methods = ∅ then methodsToInstrument.erase assemblyName
    else methodsToInstrument.insert assemblyName methods

end AikidoProfiler

/-! ## `corhdr.h` constants used by the descriptor extractor -/

def ELEMENT_TYPE_END : Nat := 0x00
def ELEMENT_TYPE_VALUETYPE : Nat := 0x11
def mdPrivate : Nat := 0x0001
def mdPublic : Nat := 0x0006
def mdStatic : Nat := 0x0010
def mdVirtual : Nat := 0x0040
def tdClass : Nat := 0x00000000

def SUCCEEDED (hr : HRESULT) : Bool := decide (0 ≤ hr)

/-! ## The host interfaces read by the extractor and the activation -/

/-- What `IMetaDataImport::GetMethodProps` stores through its out parameters: the owning type,
the name, the attributes, the signature pointer (`none` is `nullptr`; otherwise the bytes of
the memory from the pointer on) and the signature length. -/
structure MethodProps where
  typeDef : Nat
  methodName : String
  methodAttr : Nat
  sigBlob : Option (List Nat)
  sigBlobLength : Nat
  deriving DecidableEq, Repr

/-- The metadata of one module as read through `IMetaDataImport` / `IMetaDataImport2`.
An enumeration (`EnumTypeDefs`, `EnumMethods`) is the list of the results of the successive
calls on one enumeration handle: the `HRESULT` and the tokens fetched; a call made after the
last listed one fetches nothing. `GetTypeDefProps` answers the name and the flags. -/
structure MetaDataImport where
  GetScopeProps : HRESULT × String
  EnumTypeDefs : List (HRESULT × List Nat)
  GetTypeDefProps : Nat → HRESULT × String × Nat
  EnumMethods : Nat → List (HRESULT × List Nat)
  GetMethodProps : Nat → HRESULT × MethodProps

/-- The part of `ICorProfilerInfo4` the profiler calls. `GetFunctionInfo` answers the module
and the method token; `GetModuleInfo` the assembly; `GetILFunctionBody` the body pointer (as
the bytes behind it) and its size; `EnumModules` the `HRESULT` and the results of the
successive `Next` calls on the enumerator; `QueryInterface_ICorProfilerInfo7` the upgraded
interface (`none` is a null pointer). -/
structure ICorProfilerInfo4 where
  GetFunctionInfo : Nat → HRESULT × Nat × Nat
  GetModuleMetaData : Nat → HRESULT × MetaDataImport
  GetModuleInfo : Nat → Nat
  GetAssemblyInfo : Nat → HRESULT × String
  GetILFunctionBody : Nat → Nat → HRESULT × List Nat × Nat
  EnumModules : HRESULT × List (HRESULT × List Nat)
  RequestReJIT : Nat → Nat → HRESULT
  QueryInterface_ICorProfilerInfo7 : HRESULT × Option ProfilerInfo
  SetEventMask : HRESULT

/-- The argument `IUnknown *pICorProfilerInfoUnk` of `Initialize`: the answer of its
`QueryInterface(IID_ICorProfilerInfo4, ...)`, an `HRESULT` and the interface stored through the
out parameter when the call succeeds. -/
structure IUnknown where
  QueryInterface_ICorProfilerInfo4 : HRESULT × ICorProfilerInfo4

/-! ## `method_info.h`: `MethodInfo::FromFunctionInfo` -/

/-- The state of the signature parser: the read offset, the entries pushed so far, and the
ghost list of the offsets of `sigBlob` read so far. -/
structure SigParse where
  offset : Nat
  argTypes : List TypeInfo
  reads : List Nat
  deriving DecidableEq, Repr

namespace MethodInfo

/-- The constructor `MethodInfo()`: every numeric member zero, every flag false, the strings
and the vector empty, `ilCode` null. -/
def construct : MethodInfo where
  moduleId := 0
  methodToken := 0
  typeToken := 0
  methodName := ""
  className := ""
  assemblyName := ""
  attributes := 0
  isStatic := false
  isPublic := false
  isPrivate := false
  isVirtual := false
  isValueType := false
  argCount := 0
  argTypes := []
  ilCode := []
  codeSize := 0

/-- The method `IsConstructor`: whether `methodName.find(...)` finds ".ctor" or ".cctor". -/
def IsConstructor (m : MethodInfo) : Bool :=
  decide (List.IsInfix ".ctor".toList m.methodName.toList) ||
    decide (List.IsInfix ".cctor".toList m.methodName.toList)

/-- The byte `sigBlob[offset]`; a byte behind the listed memory reads as 0. -/
def sigByte (sigBlob : List Nat) (offset : Nat) : Nat := sigBlob.getD offset 0

/-- The loop `while (offset < sigBlobLength && sigBlob[offset] != ELEMENT_TYPE_END) offset++;`
run for at most `fuel` iterations. -/
def skipReturnType (sigBlob : List Nat) (sigBlobLength : Nat) : Nat → SigParse → SigParse
  | 0, s => s
  | fuel + 1, s =>
    if s.offset < sigBlobLength then
      if sigByte sigBlob s.offset ≠ ELEMENT_TYPE_END then
        skipReturnType sigBlob sigBlobLength fuel
          { s with offset := s.offset + 1, reads := s.reads ++ [s.offset] }
      else { s with reads := s.reads ++ [s.offset] }
    else s

/-- The loop `for (ULONG i = 0; i < paramCount && offset < sigBlobLength; i++)`, entered with
`remaining = paramCount - i` iterations to go. The token `*(mdToken *)(sigBlob + offset)` is
the little-endian value of four bytes. For an entry that is not a value type the source
leaves `typeToken` uninitialised and `typeName` empty; the token is recorded as 0. The name of
a value type is what `GetTypeDefProps` left in the buffer, whatever its `HRESULT`. -/
def readParameterTypes (metaData : MetaDataImport) (sigBlob : List Nat) (sigBlobLength : Nat) :
    Nat → SigParse → SigParse
  | 0, s => s
  | remaining + 1, s =>
    if s.offset < sigBlobLength then
      let elemType := sigByte sigBlob s.offset
      let offset := s.offset + 1
      if elemType = ELEMENT_TYPE_VALUETYPE then
        let typeToken := sigByte sigBlob offset + 256 * sigByte sigBlob (offset + 1) +
          65536 * sigByte sigBlob (offset + 2) + 16777216 * sigByte sigBlob (offset + 3)
        let typeName := (metaData.GetTypeDefProps typeToken).2.1
        readParameterTypes metaData sigBlob sigBlobLength remaining
          { offset := offset + 4
            argTypes := s.argTypes ++ [⟨typeToken, true, typeName⟩]
            reads := s.reads ++ [s.offset, offset, offset + 1, offset + 2, offset + 3] }
      else
        readParameterTypes metaData sigBlob sigBlobLength remaining
          { offset := offset
            argTypes := s.argTypes ++ [⟨0, false, ""⟩]
            reads := s.reads ++ [s.offset] }
    else s

/-- The block `// Parse method signature for arguments` for a non-null `sigBlob`: the
parameter count read from byte 1 and the parser state at the end. The return-type loop gets
`sigBlobLength` iterations, more than it can use. -/
def parseSignature (metaData : MetaDataImport) (sigBlob : List Nat) (sigBlobLength : Nat) :
    Nat × SigParse :=
  let paramCount := sigByte sigBlob 1
  let s : SigParse := ⟨2, [], [0, 1]⟩
  let s := skipReturnType sigBlob sigBlobLength sigBlobLength s
  let s := { s with offset := s.offset + 1 }
  (paramCount, readParameterTypes metaData sigBlob sigBlobLength paramCount s)

def FromFunctionInfo (profilerInfo : ICorProfilerInfo4) (functionId : Nat) : MethodInfo :=
  let info := MethodInfo.construct
  let f := profilerInfo.GetFunctionInfo functionId
  if FAILED f.1 then info
  else
    let moduleId := f.2.1
    let token := f.2.2
    let info := { info with moduleId := moduleId, methodToken := token }
    let g := profilerInfo.GetModuleMetaData moduleId
    if FAILED g.1 then info
    else
      let metaData := g.2
      let p := metaData.GetMethodProps token
      if SUCCEEDED p.1 then
        let methodAttr := p.2.methodAttr
        let typeDef := p.2.typeDef
        let info := { info with
          methodName := p.2.methodName
          attributes := methodAttr
          isStatic := decide (methodAttr &&& mdStatic ≠ 0)
          isPublic := decide (methodAttr &&& mdPublic ≠ 0)
          isPrivate := decide (methodAttr &&& mdPrivate ≠ 0)
          isVirtual := decide (methodAttr &&& mdVirtual ≠ 0)
          typeToken := typeDef }
        let info :=
          match p.2.sigBlob with
          | none => info
          | some sigBlob =>
            let r := parseSignature metaData sigBlob p.2.sigBlobLength
            { info with argCount := r.1, argTypes := r.2.argTypes }
        let t := metaData.GetTypeDefProps typeDef
        let info :=
          if SUCCEEDED t.1 then
            { info with className := t.2.1, isValueType := decide (t.2.2 &&& tdClass = 0) }
          else info
        let assemblyId := profilerInfo.GetModuleInfo moduleId
        let a := profilerInfo.GetAssemblyInfo assemblyId
        let info := if SUCCEEDED a.1 then { info with assemblyName := a.2 } else info
        let b := profilerInfo.GetILFunctionBody moduleId token
        if SUCCEEDED b.1 then { info with codeSize := b.2.2, ilCode := b.2.1 } else info
      else info

end MethodInfo

/-! ## `instrumentation_filter.h` -/

namespace InstrumentationFilter

def ShouldInstrumentMethod (methodInfo : MethodInfo) : Bool :=
  if List.IsInfix ".ctor".toList methodInfo.methodName.toList then false
  else if List.IsInfix ".cctor".toList methodInfo.methodName.toList then false
  else true

end InstrumentationFilter

/-! ## `aikido_profiler.h`: compile-time path, activation and lifecycle -/

/-- What one call of `InstrumentMethod` did: the `HRESULT` returned, `none` when the call does
not return because `rewriter.Rewrite()` does not; what the call of `rewriter.Rewrite()` did if
it was made; and the statics of `DetectRuntimeStatic` afterwards. -/
structure InstrumentResult where
  hr : Option HRESULT
  rewrite : Option RewriteResult
  cache : RuntimeCache
  deriving DecidableEq, Repr

/-- What a stretch of `RequestReJITForModule` did: the calls `profilerInfo->RequestReJIT` it
made, each as (module, method token), in order, and the value of the `return` statement if it
executed one. -/
structure Scan where
  requests : List (Nat × Nat)
  returned : Option HRESULT
  deriving DecidableEq, Repr

/-- Sequencing: what follows runs only when no `return` was executed. -/
def Scan.andThen (s next : Scan) : Scan :=
  match s.returned with
  | some _ => s
  | none => ⟨s.requests ++ next.requests, next.returned⟩

/-- What one call of `RequestReJITForModule` did. -/
structure ModuleResult where
  hr : HRESULT
  requests : List (Nat × Nat)
  deriving DecidableEq, Repr

/-- What one call of `RequestReJIT` did: the `HRESULT` returned, the registry afterwards and
the recompilation requests made, in order. -/
structure ReJITResult where
  hr : HRESULT
  methodsToInstrument : Registry
  requests : List (Nat × Nat)

/-- The data members `profilerInfo`, `isInitialized` and `isShuttingDown` of
`class AikidoProfiler`. -/
structure Lifecycle where
  profilerInfo : Option ICorProfilerInfo4
  isInitialized : Bool
  isShuttingDown : Bool

namespace AikidoProfiler

def InstrumentMethod (profilerInfo : ICorProfilerInfo4) (methodsToInstrument : Registry)
    (cache : RuntimeCache) (methodInfo : MethodInfo) : InstrumentResult :=
  if !ShouldInstrumentMethod methodsToInstrument methodInfo then ⟨some S_OK, none, cache⟩
  else
    let q := profilerInfo.QueryInterface_ICorProfilerInfo7
    if FAILED q.1 then ⟨some q.1, none, cache⟩
    else
      match q.2 with
      | none => ⟨some E_FAIL, none, cache⟩
      | some info7 =>
        let c := ILRewriter.construct cache methodInfo
        let r := ILRewriter.Rewrite info7 c.1
        ⟨r.hr, some r, c.2⟩

/-- The loop `for (ULONG j = 0; j < methodCount; j++)` over the tokens of one fetch. -/
def methodLoop (profilerInfo : ICorProfilerInfo4) (metaDataImport : MetaDataImport)
    (moduleId : Nat) (typeName methodName : String) : List Nat → Scan
  | [] => ⟨[], none⟩
  | methodDef :: methodDefs =>
    let p := metaDataImport.GetMethodProps methodDef
    if FAILED p.1 then
      methodLoop profilerInfo metaDataImport moduleId typeName methodName methodDefs
    else
      let fullMethodName := typeName ++ "." ++ p.2.methodName
      if fullMethodName = methodName then
        let hr := profilerInfo.RequestReJIT moduleId methodDef
        if FAILED hr then ⟨[(moduleId, methodDef)], some hr⟩
        else
          Scan.andThen ⟨[(moduleId, methodDef)], none⟩
            (methodLoop profilerInfo metaDataImport moduleId typeName methodName methodDefs)
      else methodLoop profilerInfo metaDataImport moduleId typeName methodName methodDefs

/-- The loop `while (SUCCEEDED(metaDataImport->EnumMethods(...)) && methodCount > 0)` over the
results of the successive calls. -/
def methodEnumLoop (profilerInfo : ICorProfilerInfo4) (metaDataImport : MetaDataImport)
    (moduleId : Nat) (typeName methodName : String) : List (HRESULT × List Nat) → Scan
  | [] => ⟨[], none⟩
  | call :: calls =>
    if SUCCEEDED call.1 && decide (call.2.length > 0) then
      (methodLoop profilerInfo metaDataImport moduleId typeName methodName call.2).andThen
        (methodEnumLoop profilerInfo metaDataImport moduleId typeName methodName calls)
    else ⟨[], none⟩

/-- The loop `for (ULONG i = 0; i < typeCount; i++)` over the tokens of one fetch. -/
def typeLoop (profilerInfo : ICorProfilerInfo4) (metaDataImport : MetaDataImport)
    (moduleId : Nat) (methodName : String) : List Nat → Scan
  | [] => ⟨[], none⟩
  | typeDef :: typeDefs =>
    let t := metaDataImport.GetTypeDefProps typeDef
    if FAILED t.1 then typeLoop profilerInfo metaDataImport moduleId methodName typeDefs
    else
      (methodEnumLoop profilerInfo metaDataImport moduleId t.2.1 methodName
        (metaDataImport.EnumMethods typeDef)).andThen
        (typeLoop profilerInfo metaDataImport moduleId methodName typeDefs)

/-- The loop `while (SUCCEEDED(metaDataImport->EnumTypeDefs(...)) && typeCount > 0)` over the
results of the successive calls. -/
def typeEnumLoop (profilerInfo : ICorProfilerInfo4) (metaDataImport : MetaDataImport)
    (moduleId : Nat) (methodName : String) : List (HRESULT × List Nat) → Scan
  | [] => ⟨[], none⟩
  | call :: calls =>
    if SUCCEEDED call.1 && decide (call.2.length > 0) then
      (typeLoop profilerInfo metaDataImport moduleId methodName call.2).andThen
        (typeEnumLoop profilerInfo metaDataImport moduleId methodName calls)
    else ⟨[], none⟩

def RequestReJITForModule (profilerInfo : ICorProfilerInfo4) (moduleId : Nat)
    (assemblyName methodName : String) : ModuleResult :=
  let g := profilerInfo.GetModuleMetaData moduleId
  if FAILED g.1 then ⟨g.1, []⟩
  else
    let metaDataImport := g.2
    let s := metaDataImport.GetScopeProps
    if FAILED s.1 then ⟨s.1, []⟩
    else
      let moduleName := s.2
      if assemblyName ≠ moduleName then ⟨S_OK, []⟩
      else
        let scan := typeEnumLoop profilerInfo metaDataImport moduleId methodName
          metaDataImport.EnumTypeDefs
        match scan.returned with
        | some hr => ⟨hr, scan.requests⟩
        | none => ⟨S_OK, scan.requests⟩

/-- The loop `while (SUCCEEDED(moduleEnum->Next(1024, moduleIds, &fetched)) && fetched > 0)`
filling the vector `modules`. -/
def collectModules : List (HRESULT × List Nat) → List Nat
  | [] => []
  | call :: calls =>
    if SUCCEEDED call.1 && decide (call.2.length > 0) then call.2 ++ collectModules calls
    else []

/-- The loop `for (ModuleID moduleId : modules)` of `RequestReJIT`. -/
def moduleLoop (profilerInfo : ICorProfilerInfo4) (assemblyName methodName : String) :
    List Nat → ModuleResult
  | [] => ⟨S_OK, []⟩
  | moduleId :: modules =>
    let r := RequestReJITForModule profilerInfo moduleId assemblyName methodName
    if FAILED r.hr then r
    else
      let rest := moduleLoop profilerInfo assemblyName methodName modules
      ⟨rest.hr, r.requests ++ rest.requests⟩

/-- The member function `RequestReJIT`; `profilerInfo` is what `GetProfilerInfo()` returns,
`none` for a null pointer. -/
def RequestReJIT (profilerInfo : Option ICorProfilerInfo4) (methodsToInstrument : Registry)
    (assemblyName methodName : String) : ReJITResult :=
  let methodsToInstrument := AddMethodToInstrument methodsToInstrument assemblyName methodName
  match profilerInfo with
  | none => ⟨E_FAIL, methodsToInstrument, []⟩
  | some info =>
    let e := info.EnumModules
    if FAILED e.1 then ⟨e.1, methodsToInstrument, []⟩
    else
      let modules := collectModules e.2
      let r := moduleLoop info assemblyName methodName modules
      ⟨r.hr, methodsToInstrument, r.requests⟩

/-- The constructor: `profilerInfo(nullptr), isInitialized(false), isShuttingDown(false)`. -/
def construct : Lifecycle := ⟨none, false, false⟩

/-- The callback `Initialize`. `QueryInterface` stores the interface in `profilerInfo` when it
succeeds and a null pointer when it fails. -/
def Initialize (pICorProfilerInfoUnk : IUnknown) (s : Lifecycle) : HRESULT × Lifecycle :=
  if s.isInitialized then (E_FAIL, s)
  else
    let q := pICorProfilerInfoUnk.QueryInterface_ICorProfilerInfo4
    if FAILED q.1 then (q.1, { s with profilerInfo := none })
    else
      let s := { s with profilerInfo := some q.2 }
      let hr := q.2.SetEventMask
      if FAILED hr then (hr, s)
      else (S_OK, { s with isInitialized := true })

/-- The callback `Shutdown`. -/
def Shutdown (s : Lifecycle) : HRESULT × Lifecycle :=
  let s := { s with isShuttingDown := true }
  let s := { s with profilerInfo := none }
  (S_OK, { s with isInitialized := false })

end AikidoProfiler

namespace AikidoProfiler

/-- One call of the registry interface: `AddMethodToInstrument(a, m)` or
`RemoveMethodToInstrument(a, m)`. -/
inductive RegistryCall where
  | add (assemblyName methodName : String)
  | remove (assemblyName methodName : String)
  deriving DecidableEq, Repr

/-- The registry after one call. -/
def RegistryCall.apply (methodsToInstrument : Registry) : RegistryCall → Registry
  | .add assemblyName methodName =>
    AddMethodToInstrument methodsToInstrument assemblyName methodName
  | .remove assemblyName methodName =>
    RemoveMethodToInstrument methodsToInstrument assemblyName methodName

/-- The registry after a sequence of calls, first call first. -/
def runRegistryCalls (methodsToInstrument : Registry) (calls : List RegistryCall) : Registry :=
  calls.foldl RegistryCall.apply methodsToInstrument

/-- The specification's eligibility: the registry has an entry whose key is exactly
`assemblyName` and whose set contains exactly the string `qualifiedName`. -/
def ExactlyRegistered (methodsToInstrument : Registry) (assemblyName qualifiedName : String) :
    Prop :=
  ∃ methods : Finset String,
    (⟨assemblyName, methods⟩ : Sigma fun _ : String => Finset String) ∈
      methodsToInstrument.entries ∧ qualifiedName ∈ methods

/-- One call of the lifecycle interface. -/
inductive LifecycleCall where
  | Initialize (pICorProfilerInfoUnk : IUnknown)
  | Shutdown

/-- The members after one lifecycle call. -/
def LifecycleCall.apply (s : Lifecycle) : LifecycleCall → Lifecycle
  | .Initialize pICorProfilerInfoUnk => (AikidoProfiler.Initialize pICorProfilerInfoUnk s).2
  | .Shutdown => (AikidoProfiler.Shutdown s).2

/-- The members after a sequence of lifecycle calls, first call first. -/
def runLifecycleCalls (s : Lifecycle) (calls : List LifecycleCall) : Lifecycle :=
  calls.foldl LifecycleCall.apply s

end AikidoProfiler

/-! ## What the host declares

The declared methods of the loaded modules as the specification speaks of them. -/

/-- Every token the calls of one enumeration fetch. -/
def fetched (calls : List (HRESULT × List Nat)) : List Nat :=
  calls.flatMap Prod.snd

/-- A method declared in a loaded module, with the names the host reports for it. -/
structure DeclaredMethod where
  moduleId : Nat
  scopeName : String
  typeName : String
  methodDef : Nat
  methodName : String
  deriving DecidableEq, Repr

/-- The methods declared in the loaded modules: module by module, type by type, in the order
of the enumerations. -/
def declaredMethods (profilerInfo : ICorProfilerInfo4) : List DeclaredMethod :=
  (fetched profilerInfo.EnumModules.2).flatMap fun moduleId =>
    (fetched (profilerInfo.GetModuleMetaData moduleId).2.EnumTypeDefs).flatMap fun typeDef =>
      (fetched ((profilerInfo.GetModuleMetaData moduleId).2.EnumMethods typeDef)).map
        fun methodDef =>
          { moduleId := moduleId
            scopeName := (profilerInfo.GetModuleMetaData moduleId).2.GetScopeProps.2
            typeName := ((profilerInfo.GetModuleMetaData moduleId).2.GetTypeDefProps typeDef).2.1
            methodDef := methodDef
            methodName :=
              ((profilerInfo.GetModuleMetaData moduleId).2.GetMethodProps methodDef).2.methodName }

/-- The recompilation request for a declared method. -/
def DeclaredMethod.request (d : DeclaredMethod) : Nat × Nat := (d.moduleId, d.methodDef)

/-- The declared methods of the modules whose scope name is `assemblyName` whose
`typeName + "." + methodName` is `qualifiedName`. -/
def matchingMethods (profilerInfo : ICorProfilerInfo4) (assemblyName qualifiedName : String) :
    List DeclaredMethod :=
  (declaredMethods profilerInfo).filter fun d =>
    decide (d.scopeName = assemblyName ∧ d.typeName ++ "." ++ d.methodName = qualifiedName)

/-- Every call of an enumeration succeeds and fetches at least one token. -/
def EnumerationSucceeds (calls : List (HRESULT × List Nat)) : Prop :=
  ∀ call ∈ calls, SUCCEEDED call.1 = true ∧ call.2 ≠ []

instance (calls : List (HRESULT × List Nat)) : Decidable (EnumerationSucceeds calls) := by
  unfold EnumerationSucceeds
  infer_instance

/-- The enumerations of the loaded modules succeed: the module enumeration, and for every
module the metadata and scope-name lookups and the type enumeration, for every type the name
lookup and the method enumeration, for every method the name lookup. -/
def EnumerationsSucceed (profilerInfo : ICorProfilerInfo4) : Prop :=
  FAILED profilerInfo.EnumModules.1 = false ∧
  EnumerationSucceeds profilerInfo.EnumModules.2 ∧
  ∀ moduleId ∈ fetched profilerInfo.EnumModules.2,
    FAILED (profilerInfo.GetModuleMetaData moduleId).1 = false ∧
    FAILED (profilerInfo.GetModuleMetaData moduleId).2.GetScopeProps.1 = false ∧
    EnumerationSucceeds (profilerInfo.GetModuleMetaData moduleId).2.EnumTypeDefs ∧
    ∀ typeDef ∈ fetched (profilerInfo.GetModuleMetaData moduleId).2.EnumTypeDefs,
      FAILED ((profilerInfo.GetModuleMetaData moduleId).2.GetTypeDefProps typeDef).1 = false ∧
      EnumerationSucceeds ((profilerInfo.GetModuleMetaData moduleId).2.EnumMethods typeDef) ∧
      ∀ methodDef ∈ fetched ((profilerInfo.GetModuleMetaData moduleId).2.EnumMethods typeDef),
        FAILED ((profilerInfo.GetModuleMetaData moduleId).2.GetMethodProps methodDef).1 = false

instance (profilerInfo : ICorProfilerInfo4) : Decidable (EnumerationsSucceed profilerInfo) := by
  unfold EnumerationsSucceed
  infer_instance

/-- The requests of `requests` up to and including the first one the host rejects. -/
def upToFirstRejected (RequestReJIT : Nat → Nat → HRESULT) : List (Nat × Nat) → List (Nat × Nat)
  | [] => []
  | r :: rs =>
    if FAILED (RequestReJIT r.1 r.2) then [r] else r :: upToFirstRejected RequestReJIT rs

/-! ## The requests a scan has to make

The lists of requests the loops of `RequestReJITForModule` work through, used to state what the
loops do. The tokens a loop `while (SUCCEEDED(Enum...) && count > 0)` gets to see are those
`collectModules` collects from the results of the calls. -/

/-- The requests of a list issued in order until the host rejects one. -/
def issue (RequestReJIT : Nat → Nat → HRESULT) : List (Nat × Nat) → Scan
  | [] => ⟨[], none⟩
  | r :: rs =>
    if FAILED (RequestReJIT r.1 r.2) then ⟨[r], some (RequestReJIT r.1 r.2)⟩
    else Scan.andThen ⟨[r], none⟩ (issue RequestReJIT rs)

/-- The requests the method loop makes for the tokens `methodDefs` of a type. -/
def methodRequests (metaDataImport : MetaDataImport) (moduleId : Nat)
    (typeName methodName : String) (methodDefs : List Nat) : List (Nat × Nat) :=
  (methodDefs.filter fun methodDef =>
    !FAILED (metaDataImport.GetMethodProps methodDef).1 &&
      decide (typeName ++ "." ++ (metaDataImport.GetMethodProps methodDef).2.methodName =
        methodName)).map fun methodDef => (moduleId, methodDef)

/-- The requests the type loop makes for the tokens `typeDefs` of a module. -/
def typeRequests (md : MetaDataImport) (moduleId : Nat) (q : String) (typeDefs : List Nat) :
    List (Nat × Nat) :=
  typeDefs.flatMap fun typeDef =>
    if FAILED (md.GetTypeDefProps typeDef).1 then []
    else methodRequests md moduleId (md.GetTypeDefProps typeDef).2.1 q
      (AikidoProfiler.collectModules (md.EnumMethods typeDef))

/-- The value `RequestReJITForModule` returns after a scan, with the requests it made. -/
def Scan.toResult (s : Scan) : ModuleResult :=
  match s.returned with
  | some hr => ⟨hr, s.requests⟩
  | none => ⟨S_OK, s.requests⟩

/-- The requests `RequestReJITForModule` has to make for one module. -/
def moduleRequests (info : ICorProfilerInfo4) (a q : String) (moduleId : Nat) :
    List (Nat × Nat) :=
  if a ≠ (info.GetModuleMetaData moduleId).2.GetScopeProps.2 then []
  else typeRequests (info.GetModuleMetaData moduleId).2 moduleId q
    (AikidoProfiler.collectModules (info.GetModuleMetaData moduleId).2.EnumTypeDefs)

/-! ## Concrete inputs -/

/-- A metadata emit interface all of whose calls succeed. -/
def sampleEmit : MetaDataEmit where
  GetTokenFromSig := fun _ => (S_OK, 0x11000001)
  QueryInterface_AssemblyEmit := S_OK
  DefineAssemblyRef := fun _ => (S_OK, 0x23000001)
  DefineTypeRefByName := fun _ _ => (S_OK, 0x01000002)
  DefineMemberRef := fun _ _ _ => (S_OK, 0x0A000003)

/-- A host all of whose calls succeed. -/
def sampleHost : ProfilerInfo where
  GetModuleMetaData := fun _ => (S_OK, sampleEmit)
  SetILFunctionBody := fun _ _ _ => S_OK

/-- The descriptor of a method `A!C.M` with `n` arguments of one kind and body `code`. -/
def sampleMethod (isStatic receiverIsValueType : Bool) (n : Nat) (argsAreValueType : Bool)
    (code : List Nat) : MethodInfo where
  moduleId := 1
  methodToken := 0x06000001
  typeToken := 0x02000002
  methodName := "M"
  className := "C"
  assemblyName := "A"
  attributes := 0
  isStatic := isStatic
  isPublic := true
  isPrivate := false
  isVirtual := false
  isValueType := receiverIsValueType
  argCount := n
  argTypes := List.replicate n ⟨0x02000005, argsAreValueType, "V"⟩
  ilCode := code
  codeSize := code.length

/-- The rewriter as constructed for `m` at program start. -/
def freshRewriter (m : MethodInfo) : ILRewriter :=
  (ILRewriter.construct RuntimeCache.initial m).1

/-- A static method with one reference-type argument and body `ret`. -/
def staticOneReferenceArg : MethodInfo := sampleMethod true false 1 false [0x2A]

/-- An instance method of a value type with two value-type arguments and body `ret`. -/
def instanceTwoValueArgs : MethodInfo := sampleMethod false true 2 true [0x2A]

/-- A static method with 50 value-type arguments and a four-byte body. -/
def static50ValueArgs : MethodInfo := sampleMethod true false 50 true [0, 0, 0, 0x2A]

/-- An instance method of a value type with 49 value-type arguments and a one-byte body. -/
def instance49ValueArgs : MethodInfo := sampleMethod false true 49 true [0x2A]

/-- An instance method of a value type with 49 value-type arguments and a three-byte body. -/
def instance49ValueArgsBody3 : MethodInfo := sampleMethod false true 49 true [0, 0, 0x2A]

/-- A static method with 1024 reference-type arguments and an empty body. -/
def static1024Args : MethodInfo := sampleMethod true false 1024 false []

/-- A static method with 1025 reference-type arguments. -/
def static1025Args : MethodInfo := sampleMethod true false 1025 false [0x2A]

/-! ## Concrete hosts and signatures -/

def ELEMENT_TYPE_I4 : Nat := 0x08

/-- The signature of `static void M(int32)`: default calling convention, one parameter,
return type `void`, parameter type `int32`. -/
def staticVoidOfInt32 : List Nat :=
  [IMAGE_CEE_CS_CALLCONV_DEFAULT, 1, ELEMENT_TYPE_VOID, ELEMENT_TYPE_I4]

/-- The metadata of a module with scope name `scopeName` declaring one type `OrderService`
with the methods `Place` (token 0x06000001), `Place` (an overload, token 0x06000002) and
`Cancel` (token 0x06000003); every call succeeds. -/
def sampleMetaData (scopeName : String) : MetaDataImport where
  GetScopeProps := (S_OK, scopeName)
  EnumTypeDefs := [(S_OK, [0x02000002])]
  GetTypeDefProps := fun _ => (S_OK, "OrderService", 0)
  EnumMethods := fun _ => [(S_OK, [0x06000001, 0x06000002]), (S_OK, [0x06000003])]
  GetMethodProps := fun methodDef =>
    (S_OK, ⟨0x02000002, if methodDef = 0x06000003 then "Cancel" else "Place", mdStatic,
      some staticVoidOfInt32, 4⟩)

/-- A host with the loaded modules `modules`: module 1 is `MyApp.Orders`, module 2 is
`MyApp.Billing`, the metadata of every other module cannot be obtained. The host rejects the
recompilation of the method token `rejected`, if there is one, and accepts every other
request. -/
def sampleInfo4 (modules : List Nat) (rejected : Option Nat) : ICorProfilerInfo4 where
  GetFunctionInfo := fun _ => (S_OK, 1, 0x06000001)
  GetModuleMetaData := fun moduleId =>
    if moduleId = 1 then (S_OK, sampleMetaData "MyApp.Orders")
    else if moduleId = 2 then (S_OK, sampleMetaData "MyApp.Billing")
    else (E_FAIL, sampleMetaData "")
  GetModuleInfo := fun _ => 1
  GetAssemblyInfo := fun _ => (S_OK, "MyApp.Orders")
  GetILFunctionBody := fun _ _ => (S_OK, [0x2A], 1)
  EnumModules := (S_OK, [(S_OK, modules)])
  RequestReJIT := fun _ methodDef => if some methodDef = rejected then E_FAIL else S_OK
  QueryInterface_ICorProfilerInfo7 := (S_OK, some sampleHost)
  SetEventMask := S_OK

/-- A host that cannot identify the function being compiled: `GetFunctionInfo` fails. -/
def unknownFunctionInfo4 : ICorProfilerInfo4 :=
  { sampleInfo4 [1, 2] none with GetFunctionInfo := fun _ => (E_FAIL, 0, 0) }

/-- The scenario of the specification: the methods `Place` of a type `OrderService` declared
in the modules named `MyApp.Orders`. -/
def placeMethods (profilerInfo : ICorProfilerInfo4) : List DeclaredMethod :=
  (declaredMethods profilerInfo).filter fun d =>
    decide (d.scopeName = "MyApp.Orders" ∧ d.typeName = "OrderService" ∧ d.methodName = "Place")

/-- The `IUnknown` of a host whose calls succeed. -/
def sampleUnknown : IUnknown where
  QueryInterface_ICorProfilerInfo4 := (S_OK, sampleInfo4 [1, 2] none)

/-- The descriptor of the instance constructor `A!C..ctor` with no argument and body `ret`. -/
def sampleConstructor : MethodInfo :=
  { sampleMethod false false 0 false [0x2A] with methodName := ".ctor" }

/-- The descriptor of the class initializer `A!C..cctor` with body `ret`. -/
def sampleClassInitializer : MethodInfo :=
  { sampleMethod true false 0 false [0x2A] with methodName := ".cctor" }

/-! ## `il_rewriter.h`: `ILRewriter::DetectRuntime` -/

/-- The metadata of a module as read through `IMetaDataAssemblyImport`: `EnumAssemblyRefs`
answers an `HRESULT` and the references fetched (at most `MAX_ASSEMBLY_REFS`),
`GetAssemblyRefProps` an `HRESULT` and the name of a reference. -/
structure MetaDataAssemblyImport where
  EnumAssemblyRefs : HRESULT × List Nat
  GetAssemblyRefProps : Nat → HRESULT × String

namespace ILRewriter

/-- The loop `for (ULONG i = 0; i < count; i++)` of `DetectRuntime` over the references
fetched. -/
def detectRuntimeLoop (assemblyImport : MetaDataAssemblyImport) : List Nat → Bool
  | [] => false
  | ref :: refs =>
    let p := assemblyImport.GetAssemblyRefProps ref
    if SUCCEEDED p.1 && decide (p.2 = "System.Runtime") then true
    else detectRuntimeLoop assemblyImport refs

/-- The member function `DetectRuntime`; `GetModuleMetaData` is the answer of
`profilerInfo->GetModuleMetaData(moduleId, ofRead, IID_IMetaDataAssemblyImport, ...)`. No
function of the source calls it. -/
def DetectRuntime (GetModuleMetaData : Nat → HRESULT × MetaDataAssemblyImport)
    (rw : ILRewriter) : Bool :=
  let g := GetModuleMetaData rw.methodInfo.moduleId
  if SUCCEEDED g.1 then
    let assemblyImport := g.2
    let e := assemblyImport.EnumAssemblyRefs
    if SUCCEEDED e.1 then detectRuntimeLoop assemblyImport e.2
    else false
  else false

end ILRewriter

/-- The statics of `DetectRuntimeStatic` after rewriters were constructed, since program
start, for the descriptors `ms` in this order. -/
def staticsAfter (ms : List MethodInfo) : RuntimeCache :=
  ms.foldl (fun cache m => (ILRewriter.construct cache m).2) RuntimeCache.initial

/-! ## Decoders

The readings of emitted operands the specification speaks of. -/

/-- The first four bytes of `bytes` read as a little-endian 32-bit unsigned integer. -/
def readLittleEndian32 (bytes : List Nat) : Nat :=
  bytes.getD 0 0 + 256 * bytes.getD 1 0 + 65536 * bytes.getD 2 0 + 16777216 * bytes.getD 3 0

/-- The literal an integer-constant instruction denotes: the compact byte `0x16 + k` denotes
`k` for `k = 0 .. 8`, the general form `0x20 b0 b1 b2 b3` denotes the signed 32-bit integer
with these bytes, least significant first. -/
def decodeLoadConstantI4 : List Nat → Option Int
  | [b] => if CEE_LDC_I4_0 ≤ b ∧ b ≤ CEE_LDC_I4_8 then some ((b - CEE_LDC_I4_0 : Nat) : Int)
    else none
  | [op, b0, b1, b2, b3] =>
    if op = CEE_LDC_I4 then some (toInt32 (readLittleEndian32 [b0, b1, b2, b3])) else none
  | _ => none

/-- The write pointer and the cursor moved by the same amount from `rw` to the result. -/
def MovesTogether (rw : ILRewriter) (o : Outcome) : Prop :=
  o.rw.newIL + rw.currentILOffset = rw.newIL + o.rw.currentILOffset

instance (rw : ILRewriter) (o : Outcome) : Decidable (MovesTogether rw o) := by
  unfold MovesTogether
  exact inferInstance

/-! ## More concrete inputs -/

def ELEMENT_TYPE_CLASS : Nat := 0x12

/-- The signature of `static void M(class C, valuetype V)` where `C` is the type definition
with row 64 (compressed token `81 00`) and `V` the one with row 2 (compressed token `08`). -/
def staticVoidOfClassAndValueType : List Nat :=
  [IMAGE_CEE_CS_CALLCONV_DEFAULT, 2, ELEMENT_TYPE_VOID, ELEMENT_TYPE_CLASS, 0x81, 0x00,
    ELEMENT_TYPE_VALUETYPE, 0x08]

/-- The signature of an instance method `void M()`: calling convention `HASTHIS`, no
parameter, return type `void`. -/
def instanceVoid : List Nat := [0x20, 0, ELEMENT_TYPE_VOID]

/-- A host on which the function being compiled is the public instance method
`OrderService.Place` with signature `instanceVoid`, the flags of its owning type being
`typeDefFlags`; every call succeeds. -/
def instanceMethodInfo4 (typeDefFlags : Nat) : ICorProfilerInfo4 :=
  { sampleInfo4 [1, 2] none with
    GetModuleMetaData := fun _ =>
      (S_OK,
        { sampleMetaData "MyApp.Orders" with
          GetTypeDefProps := fun _ => (S_OK, "OrderService", typeDefFlags)
          GetMethodProps := fun _ => (S_OK, ⟨0x02000002, "Place", mdPublic, some instanceVoid, 3⟩) }) }

/-- The assembly references of a module built for .NET Core: reference 0x23000001 is
`System.Runtime`, reference 0x23000002 is `System.Collections`. -/
def netCoreAssemblyImport : MetaDataAssemblyImport where
  EnumAssemblyRefs := (S_OK, [0x23000002, 0x23000001])
  GetAssemblyRefProps := fun ref =>
    (S_OK, if ref = 0x23000001 then "System.Runtime" else "System.Collections")

/-- A metadata emit interface of a .NET Core module, every call of which succeeds: the
assembly reference `System.Runtime` is row 0x23000001, a reference to `mscorlib` becomes the
new row 0x23000004; the `System.Object` reference scoped to `System.Runtime` is 0x01000001,
one scoped to another assembly reference is 0x01000002. -/
def netCoreEmit : MetaDataEmit where
  GetTokenFromSig := fun _ => (S_OK, 0x11000001)
  QueryInterface_AssemblyEmit := S_OK
  DefineAssemblyRef := fun name =>
    if name = "System.Runtime" then (S_OK, 0x23000001)
    else if name = "mscorlib" then (S_OK, 0x23000004)
    else (S_OK, 0x23000005)
  DefineTypeRefByName := fun scope _ =>
    if scope = 0x23000001 then (S_OK, 0x01000001) else (S_OK, 0x01000002)
  DefineMemberRef := fun _ _ _ => (S_OK, 0x0A000003)

/-! ## The staged slots, byte by byte

The bytes `EmitLoadArguments` has to write for the array creation and for each staged slot,
written out without the `ILInstructions` helpers. -/

/-- The array creation: the array-length literal (`ldc.i4.0` to `ldc.i4.8` in one byte, else
`ldc.i4` with its operand, least significant byte first), `newarr` with the token of
`System.Object`, and `stloc.0`. -/
def arrayCreationBytes (argCount objectTypeRef : Nat) : List Nat :=
  (if argCount ≤ 8 then [0x16 + argCount]
    else [0x20, argCount % 256, argCount / 256 % 256, argCount / 65536 % 256,
      argCount / 16777216 % 256]) ++
  [0x8D, objectTypeRef % 256, objectTypeRef / 256 % 256, objectTypeRef / 65536 % 256,
    objectTypeRef / 16777216 % 256] ++
  [0x0A]

/-- One staged slot: the load of argument `argIndex` (the single byte `0x02 + argIndex` up to
index 3; from index 4 on the four bytes `09 FE lo hi` that `LoadArg` returns), then, exactly
when the slot is declared a value type, `box` (`0x8C`) with the four bytes of the type token,
least significant first, then `stelem.ref` (`0xA2`). -/
def slotBytes (argIndex : Nat) (isValueType : Bool) (typeToken : Nat) : List Nat :=
  (if argIndex ≤ 3 then [0x02 + argIndex]
    else [0x09, 0xFE, argIndex % 256, argIndex / 256 % 256]) ++
  (if isValueType then
    [0x8C, typeToken % 256, typeToken / 256 % 256, typeToken / 65536 % 256,
      typeToken / 16777216 % 256]
    else []) ++
  [0xA2]

/-- The slots of the declared arguments `ts`, the first of them being argument number `i`:
argument `i` is loaded from index `i` in a static method and from index `i + 1` otherwise. -/
def argumentSlots (isStatic : Bool) : Nat → List TypeInfo → List (List Nat)
  | _, [] => []
  | i, t :: ts =>
    slotBytes (if isStatic then i else i + 1) t.isValueType t.typeToken ::
      argumentSlots isStatic (i + 1) ts

/-- The slots staged for a descriptor, in order: for an instance method the receiver, loaded
from index 0, then the first `argCount` declared arguments in declaration order. -/
def stagedSlots (m : MethodInfo) : List (List Nat) :=
  (if m.isStatic then [] else [slotBytes 0 m.isValueType m.typeToken]) ++
    argumentSlots m.isStatic 0 (m.argTypes.take m.argCount)

/-! ## Concrete inputs for the byte-level statements -/

/-- The instance method `A!C.M` of a reference type with five arguments, the first, third and
fifth of value types, and body `ret`. -/
def instanceFiveMixedArgs : MethodInfo :=
  { sampleMethod false false 5 false [0x2A] with
    argTypes := [⟨0x02000005, true, "V"⟩, ⟨0x02000006, false, "R"⟩, ⟨0x02000007, true, "W"⟩,
      ⟨0x02000008, false, "S"⟩, ⟨0x02000009, true, "X"⟩] }

/-- A host that hands out the metadata interface and rejects every new method body. -/
def rejectingHost : ProfilerInfo where
  GetModuleMetaData := fun _ => (S_OK, sampleEmit)
  SetILFunctionBody := fun _ _ _ => E_FAIL

/-- A host whose only module, `MyApp.Orders`, declares the type 0x02000001, whose name cannot
be looked up, and the type `OrderService`, of whose two methods the first, 0x06000001, cannot
be looked up and the second, 0x06000002, is `Place`. The host accepts every request. -/
def unnamedInfo4 : ICorProfilerInfo4 :=
  { sampleInfo4 [1] none with
    GetModuleMetaData := fun _ => (S_OK,
      { sampleMetaData "MyApp.Orders" with
        EnumTypeDefs := [(S_OK, [0x02000001, 0x02000002])]
        GetTypeDefProps := fun typeDef =>
          if typeDef = 0x02000001 then (E_FAIL, "", 0) else (S_OK, "OrderService", 0)
        EnumMethods := fun _ => [(S_OK, [0x06000001, 0x06000002])]
        GetMethodProps := fun methodDef =>
          if methodDef = 0x06000001 then (E_FAIL, ⟨0, "", 0, none, 0⟩)
          else (S_OK, ⟨0x02000002, "Place", mdStatic, some staticVoidOfInt32, 4⟩) }) }

/-! ## Basic facts about buffer writes -/

theorem length_writeBytes (src : List Nat) : ∀ (buf : List Nat) (off : Nat),
    (writeBytes buf off src).length = buf.length := by
  induction src with
  | nil => intro buf off; rfl
  | cons b bs ih => intro buf off; simp [writeBytes, ih]

theorem writeBytes_append (a b : List Nat) : ∀ (buf : List Nat) (off : Nat),
    writeBytes buf off (a ++ b) = writeBytes (writeBytes buf off a) (off + a.length) b := by
  induction a with
  | nil => intro buf off; simp [writeBytes]
  | cons x xs ih =>
    intro buf off
    have h : off + (xs.length + 1) = off + 1 + xs.length := by omega
    rw [List.cons_append, writeBytes, writeBytes, ih, List.length_cons, h]

theorem overflowBytes_append (len : Nat) (a b : List Nat) : ∀ off : Nat,
    overflowBytes len off (a ++ b) =
      overflowBytes len off a ++ overflowBytes len (off + a.length) b := by
  induction a with
  | nil => intro off; simp [overflowBytes]
  | cons x xs ih =>
    intro off
    have h : off + (xs.length + 1) = off + 1 + xs.length := by omega
    by_cases hl : len ≤ off <;> simp [overflowBytes, hl, ih, h]

theorem overflowBytes_eq_nil (len : Nat) (src : List Nat) : ∀ off : Nat,
    off + src.length ≤ len → overflowBytes len off src = [] := by
  induction src with
  | nil => intro off _; rfl
  | cons b bs ih =>
    intro off h
    simp only [List.length_cons] at h
    have hl : ¬ len ≤ off := by omega
    simp only [overflowBytes, hl, if_false]
    exact ih (off + 1) (by omega)

theorem writeBytes_mid (src : List Nat) : ∀ (pre mid post : List Nat),
    mid.length = src.length →
    writeBytes (pre ++ mid ++ post) pre.length src = pre ++ src ++ post := by
  induction src with
  | nil =>
    intro pre mid post h
    have : mid = [] := List.length_eq_zero.mp h
    simp [writeBytes, this]
  | cons b bs ih =>
    intro pre mid post h
    cases mid with
    | nil => simp at h
    | cons m ms =>
      simp only [List.length_cons, Nat.add_right_cancel_iff] at h
      have hset : (pre ++ m :: ms ++ post).set pre.length b = (pre ++ [b]) ++ ms ++ post := by
        simp
      have hlen : pre.length + 1 = (pre ++ [b]).length := by simp
      rw [writeBytes, hset, hlen, ih (pre ++ [b]) ms post h]
      simp

theorem writeBytes_eq (src buf : List Nat) (off : Nat) (h : off + src.length ≤ buf.length) :
    writeBytes buf off src = buf.take off ++ src ++ buf.drop (off + src.length) := by
  have hsplit : buf = buf.take off ++ (buf.drop off).take src.length ++
      buf.drop (off + src.length) := by
    rw [List.append_assoc, ← List.drop_drop, List.take_append_drop, List.take_append_drop]
  have hlen : (buf.take off).length = off := by simp; omega
  have hmid : ((buf.drop off).take src.length).length = src.length := by simp; omega
  have := writeBytes_mid src (buf.take off) ((buf.drop off).take src.length)
    (buf.drop (off + src.length)) hmid
  rw [← hsplit, hlen] at this
  exact this

/-! ## The emission steps append their bytes or throw -/

theorem toInt32_of_lt {n : Nat} (h : n < 2 ^ 31) : toInt32 n = (n : Int) := by
  have h1 : n % 2 ^ 32 = n := Nat.mod_eq_of_lt (by omega)
  unfold toInt32
  rw [h1, if_pos h]

namespace ILRewriter

@[simp] theorem appended_methodInfo (rw : ILRewriter) (il : List Nat) :
    (rw.appended il).methodInfo = rw.methodInfo := rfl

@[simp] theorem appended_isNetCore (rw : ILRewriter) (il : List Nat) :
    (rw.appended il).isNetCore = rw.isNetCore := rfl

@[simp] theorem appended_localVarSig (rw : ILRewriter) (il : List Nat) :
    (rw.appended il).localVarSig = rw.localVarSig := rfl

@[simp] theorem appended_currentILOffset (rw : ILRewriter) (il : List Nat) :
    (rw.appended il).currentILOffset = rw.currentILOffset + il.length := rfl

@[simp] theorem appended_newIL (rw : ILRewriter) (il : List Nat) :
    (rw.appended il).newIL = rw.newIL + il.length := rfl

@[simp] theorem appended_length (rw : ILRewriter) (il : List Nat) :
    (rw.appended il).ilBuffer.length = rw.ilBuffer.length := by
  simp [appended, length_writeBytes]

theorem appended_nil (rw : ILRewriter) : rw.appended [] = rw := by
  cases rw
  simp [appended, writeBytes, overflowBytes]

theorem appended_appended (rw : ILRewriter) (a b : List Nat) :
    (rw.appended a).appended b = rw.appended (a ++ b) := by
  simp [appended, writeBytes_append, overflowBytes_append, length_writeBytes, Nat.add_assoc]

end ILRewriter

theorem emits_nil (rw : ILRewriter) : Emits rw ⟨none, rw⟩ [] := by
  intro hinv
  refine ⟨fun _ => by rw [ILRewriter.appended_nil], fun h => ?_⟩
  simp only [List.length_nil, Nat.add_zero] at h
  omega

theorem emits_emit (rw : ILRewriter) (il : List Nat) : Emits rw (rw.emit il) il := by
  intro _
  constructor
  · intro h
    simp [ILRewriter.emit, ILRewriter.AdvanceIL, ILRewriter.memcpy, length_writeBytes,
      ILRewriter.appended, Nat.not_lt.mpr h]
  · intro h
    simp [ILRewriter.emit, ILRewriter.AdvanceIL, ILRewriter.memcpy, length_writeBytes, h]

theorem emits_EmitIL (rw : ILRewriter) (value : List Nat) :
    Emits rw (rw.EmitIL value) value := by
  intro _
  constructor
  · intro h
    simp [ILRewriter.EmitIL, ILRewriter.AdvanceIL, ILRewriter.memcpy, length_writeBytes,
      ILRewriter.appended, Nat.not_lt.mpr h]
  · intro h
    simp [ILRewriter.EmitIL, h]

theorem emits_andThen {rw : ILRewriter} {o : Outcome} {f : ILRewriter → Outcome}
    {a b : List Nat} (ha : Emits rw o a) (hb : Emits (rw.appended a) (f (rw.appended a)) b) :
    Emits rw (o.andThen f) (a ++ b) := by
  intro hinv
  simp only [List.length_append]
  constructor
  · intro h
    have h1 := (ha hinv).1 (by omega)
    have h2 := (hb (by simp; omega)).1 (by simp; omega)
    rw [h1]
    simp only [Outcome.andThen]
    rw [h2, ILRewriter.appended_appended]
  · intro h
    by_cases hfit : rw.currentILOffset + a.length ≤ rw.ilBuffer.length
    · have h1 := (ha hinv).1 hfit
      have h2 := (hb (by simp; omega)).2 (by simp; omega)
      rw [h1]
      simpa only [Outcome.andThen] using h2
    · have h1 := (ha hinv).2 (by omega)
      simp only [Outcome.andThen, h1]

theorem emits_ite {rw : ILRewriter} {c : Prop} [Decidable c] {o₁ o₂ : Outcome}
    {a b : List Nat} (h₁ : c → Emits rw o₁ a) (h₂ : ¬ c → Emits rw o₂ b) :
    Emits rw (if c then o₁ else o₂) (if c then a else b) := by
  by_cases hc : c
  · simpa only [hc, if_true] using h₁ hc
  · simpa only [hc, if_false] using h₂ hc

theorem encodeAll_append (a b : List Instr) :
    encodeAll (a ++ b) = encodeAll a ++ encodeAll b := by
  induction a with
  | nil => rfl
  | cons x xs ih => simp [encodeAll, ih]

theorem encodeAll_slotStaging (argIndex : Nat) (isValueType : Bool) (typeToken : Nat) :
    encodeAll (slotStaging argIndex isValueType typeToken) =
      ILInstructions.LoadArg argIndex ++
        ((if isValueType = true then ILInstructions.Box typeToken else []) ++
          ILInstructions.StoreElementRef) := by
  cases isValueType <;> simp [slotStaging, encodeAll, Instr.encode]

theorem emits_slot (rw : ILRewriter) (argIndex : Nat) (isValueType : Bool) (typeToken : Nat) :
    Emits rw
      ((rw.emit (ILInstructions.LoadArg argIndex)).andThen fun rw =>
        (if isValueType = true then rw.emit (ILInstructions.Box typeToken)
          else ⟨none, rw⟩).andThen fun rw =>
        rw.emit ILInstructions.StoreElementRef)
      (encodeAll (slotStaging argIndex isValueType typeToken)) := by
  rw [encodeAll_slotStaging]
  exact emits_andThen (emits_emit _ _)
    (emits_andThen (emits_ite (fun _ => emits_emit _ _) (fun _ => emits_nil _))
      (emits_emit _ _))

theorem emits_loadArgumentsLoop : ∀ (n i : Nat) (rw : ILRewriter),
    i + n ≤ rw.methodInfo.argTypes.length → i + n < 2 ^ 31 →
    Emits rw (ILRewriter.loadArgumentsLoop n i rw)
      (encodeAll (argumentStaging rw.methodInfo.isStatic i
        ((rw.methodInfo.argTypes.drop i).take n)))
  | 0, i, rw, _, _ => by
    simpa [ILRewriter.loadArgumentsLoop, argumentStaging, encodeAll] using emits_nil rw
  | n + 1, i, rw, h1, h2 => by
    have hi : i < rw.methodInfo.argTypes.length := by omega
    have hget : rw.methodInfo.argTypes.get? i = some (rw.methodInfo.argTypes[i]) := by
      simp [List.getElem?_eq_getElem hi]
    have hdrop : (rw.methodInfo.argTypes.drop i).take (n + 1) =
        rw.methodInfo.argTypes[i] :: (rw.methodInfo.argTypes.drop (i + 1)).take n := by
      rw [List.drop_eq_getElem_cons hi, List.take_succ_cons]
    have hidx : toInt32 (if rw.methodInfo.isStatic = true then i else (i + 1) % 2 ^ 32) =
        (((if rw.methodInfo.isStatic = true then i else i + 1 : Nat)) : Int) := by
      have hm : (i + 1) % 2 ^ 32 = i + 1 := Nat.mod_eq_of_lt (by omega)
      rw [hm]
      apply toInt32_of_lt
      split <;> omega
    unfold ILRewriter.loadArgumentsLoop
    simp only [hget, hdrop, argumentStaging, encodeAll_append, hidx]
    refine emits_andThen (emits_slot rw _ _ _) ?_
    have ih := emits_loadArgumentsLoop n (i + 1)
      (rw.appended (encodeAll (slotStaging (if rw.methodInfo.isStatic = true then i else i + 1)
        rw.methodInfo.argTypes[i].isValueType rw.methodInfo.argTypes[i].typeToken)))
      (by simp; omega) (by omega)
    simpa using ih

theorem emits_receiver (rw : ILRewriter) :
    Emits rw
      ((rw.emit (ILInstructions.LoadArg 0)).andThen fun rw =>
        (if rw.methodInfo.isValueType = true then
          rw.emit (ILInstructions.Box rw.methodInfo.typeToken)
          else ⟨none, rw⟩).andThen fun rw =>
        rw.emit ILInstructions.StoreElementRef)
      (encodeAll (slotStaging 0 rw.methodInfo.isValueType rw.methodInfo.typeToken)) := by
  rw [encodeAll_slotStaging, Nat.cast_zero]
  refine emits_andThen (emits_emit _ _) ?_
  simp only [ILRewriter.appended_methodInfo]
  exact emits_andThen (emits_ite (fun _ => emits_emit _ _) (fun _ => emits_nil _))
    (emits_emit _ _)

theorem encodeAll_loadArgumentsReference (t : Nat) (m : MethodInfo) :
    encodeAll (loadArgumentsReference t m) =
      ILInstructions.LoadConstantI4 m.argCount ++ (ILInstructions.NewArray t ++
        (ILInstructions.StoreLocal 0 ++
          ((if (!m.isStatic) = true then encodeAll (slotStaging 0 m.isValueType m.typeToken)
              else []) ++
            encodeAll (argumentStaging m.isStatic 0 (m.argTypes.take m.argCount))))) := by
  cases hs : m.isStatic <;>
    simp [loadArgumentsReference, stagingReference, encodeAll, Instr.encode, encodeAll_append, hs]

theorem emits_loadArgumentsLoop_all (rw : ILRewriter) (m : MethodInfo)
    (hm : rw.methodInfo = m) (hcount : m.argCount ≤ 1024)
    (hlen : m.argCount ≤ m.argTypes.length) :
    Emits rw (ILRewriter.loadArgumentsLoop rw.methodInfo.argCount 0 rw)
      (encodeAll (argumentStaging m.isStatic 0 (m.argTypes.take m.argCount))) := by
  have h := emits_loadArgumentsLoop rw.methodInfo.argCount 0 rw
    (by rw [hm]; omega) (by rw [hm]; omega)
  rw [List.drop_zero, hm] at h
  rw [hm]
  exact h

theorem emits_EmitLoadArguments (metaEmit : MetaDataEmit) (rw : ILRewriter)
    (hcount : rw.methodInfo.argCount ≤ 1024)
    (hlen : rw.methodInfo.argCount ≤ rw.methodInfo.argTypes.length)
    (hqi : FAILED metaEmit.QueryInterface_AssemblyEmit = false)
    (hasm : FAILED (metaEmit.DefineAssemblyRef
      (if rw.isNetCore then "System.Runtime" else "mscorlib")).1 = false)
    (htype : FAILED (metaEmit.DefineTypeRefByName
      (metaEmit.DefineAssemblyRef (if rw.isNetCore then "System.Runtime" else "mscorlib")).2
      "System.Object").1 = false) :
    Emits rw (ILRewriter.EmitLoadArguments (some metaEmit) rw)
      (encodeAll (loadArgumentsReference (objectTypeRef metaEmit rw.isNetCore)
        rw.methodInfo)) := by
  rw [encodeAll_loadArgumentsReference]
  unfold ILRewriter.EmitLoadArguments
  simp only [Nat.not_lt.mpr hcount, if_false, toInt32_of_lt (show rw.methodInfo.argCount < 2 ^ 31 by omega)]
  refine emits_andThen (emits_emit _ _) ?_
  simp only [ILRewriter.appended_isNetCore, hqi, hasm, htype, Bool.false_eq_true, if_false]
  refine emits_andThen (emits_emit _ _) ?_
  refine emits_andThen (emits_emit _ _) ?_
  refine emits_andThen ?_ ?_
  · simp only [ILRewriter.appended_methodInfo]
    refine emits_ite (fun _ => ?_) (fun _ => emits_nil _)
    have h := emits_receiver (((rw.appended (ILInstructions.LoadConstantI4 rw.methodInfo.argCount)).appended
      (ILInstructions.NewArray (objectTypeRef metaEmit rw.isNetCore))).appended
      (ILInstructions.StoreLocal 0))
    simp only [ILRewriter.appended_methodInfo] at h
    exact h
  · exact emits_loadArgumentsLoop_all _ rw.methodInfo (by simp) hcount hlen

theorem encodeAll_bridgeCallReference (t : Nat) (m : MethodInfo) :
    encodeAll (bridgeCallReference t m) =
      ILInstructions.LoadString m.GetFullName ++
        (ILInstructions.LoadArg 0 ++ ILInstructions.CallMethod t) := by
  simp [bridgeCallReference, encodeAll, Instr.encode]

theorem emits_EmitCallToManagedBridge (metaEmit : MetaDataEmit) (rw : ILRewriter)
    (hqi : FAILED metaEmit.QueryInterface_AssemblyEmit = false)
    (hasm : FAILED (metaEmit.DefineAssemblyRef "Aikido.Zen.Core").1 = false)
    (htype : FAILED (metaEmit.DefineTypeRefByName
      (metaEmit.DefineAssemblyRef "Aikido.Zen.Core").2 "Aikido.Zen.Core.Bridge").1 = false)
    (hmem : FAILED (metaEmit.DefineMemberRef (bridgeTypeRef metaEmit) "OnMethodEnter"
      ILRewriter.bridgeMethodSig).1 = false) :
    Emits rw (ILRewriter.EmitCallToManagedBridge (some metaEmit) rw)
      (encodeAll (bridgeCallReference (bridgeMethodRef metaEmit) rw.methodInfo)) := by
  rw [encodeAll_bridgeCallReference]
  unfold ILRewriter.EmitCallToManagedBridge
  unfold bridgeTypeRef at hmem
  simp only [hqi, hasm, htype, hmem, Bool.false_eq_true, if_false]
  exact emits_andThen (emits_emit _ _) (emits_andThen (emits_emit _ _) (emits_emit _ _))

theorem emits_InsertProlog (metaEmit : MetaDataEmit) (rw : ILRewriter)
    (hc : CollaboratorSucceeds metaEmit rw)
    (hcount : rw.methodInfo.argCount ≤ 1024)
    (hlen : rw.methodInfo.argCount ≤ rw.methodInfo.argTypes.length) :
    Emits rw.pushLocalVarSig (ILRewriter.InsertProlog metaEmit rw)
      (prologBytes (localVarSigToken metaEmit rw.pushLocalVarSig.localVarSig)
        (objectTypeRef metaEmit rw.isNetCore) (bridgeMethodRef metaEmit) rw.methodInfo) := by
  obtain ⟨hsig, hqi, hasm, htype, hasm2, htype2, hmem⟩ := hc
  unfold ILRewriter.InsertProlog prologBytes
  simp only [hsig, Bool.false_eq_true, if_false, List.append_assoc]
  refine emits_andThen (emits_EmitIL _ _) ?_
  refine emits_andThen (emits_EmitIL _ _) ?_
  refine emits_andThen ?_ ?_
  · exact emits_EmitLoadArguments metaEmit _ hcount hlen hqi hasm htype
  · exact emits_EmitCallToManagedBridge metaEmit _ hqi hasm2 htype2 hmem

/-! ## What every emission step preserves -/

theorem preserves_leaf (rw : ILRewriter) (e : Option RewriteError) : Preserves rw ⟨e, rw⟩ :=
  ⟨rfl, rfl, rfl, rfl, fun _ h => h⟩

theorem wellPositioned_appended {rw : ILRewriter} {il : List Nat} (h : WellPositioned rw)
    (hfit : rw.currentILOffset + il.length ≤ rw.ilBuffer.length) :
    WellPositioned (rw.appended il) := by
  obtain ⟨h1, h2, h3, h4⟩ := h
  have hov : overflowBytes rw.ilBuffer.length rw.newIL il = [] :=
    overflowBytes_eq_nil _ _ _ (by rw [h1]; exact hfit)
  refine ⟨by simp [h1], by simpa using hfit, by simp [ILRewriter.appended, h3, hov], ?_⟩
  have hw : (rw.appended il).ilBuffer = rw.ilBuffer.take rw.currentILOffset ++ il ++
      rw.ilBuffer.drop (rw.currentILOffset + il.length) := by
    simp only [ILRewriter.appended, h1]
    exact writeBytes_eq il rw.ilBuffer rw.currentILOffset hfit
  have hl : (rw.ilBuffer.take rw.currentILOffset ++ il).length =
      rw.currentILOffset + il.length := by simp; omega
  rw [ILRewriter.appended_currentILOffset, ILRewriter.appended_length, hw,
    List.drop_left' hl, ← List.drop_drop, h4, List.drop_replicate]
  congr 1
  omega

theorem preserves_emit (rw : ILRewriter) (il : List Nat) : Preserves rw (rw.emit il) := by
  by_cases hfit : rw.currentILOffset + il.length ≤ rw.ilBuffer.length
  · have h : rw.emit il = ⟨none, rw.appended il⟩ := by
      simp [ILRewriter.emit, ILRewriter.AdvanceIL, ILRewriter.memcpy, length_writeBytes,
        ILRewriter.appended, Nat.not_lt.mpr hfit]
    rw [h]
    exact ⟨rfl, rfl, rfl, by simp, fun _ hw => wellPositioned_appended hw hfit⟩
  · have h : rw.emit il = ⟨some (.runtime_error "IL buffer overflow"), rw.memcpy il⟩ := by
      simp [ILRewriter.emit, ILRewriter.AdvanceIL, ILRewriter.memcpy, length_writeBytes,
        Nat.lt_of_not_le hfit]
    rw [h]
    exact ⟨rfl, rfl, rfl, by simp [ILRewriter.memcpy, length_writeBytes], fun h => by simp at h⟩

theorem preserves_EmitIL (rw : ILRewriter) (value : List Nat) :
    Preserves rw (rw.EmitIL value) := by
  by_cases hfit : rw.currentILOffset + value.length ≤ rw.ilBuffer.length
  · have h : rw.EmitIL value = ⟨none, rw.appended value⟩ := by
      simp [ILRewriter.EmitIL, ILRewriter.AdvanceIL, ILRewriter.memcpy, length_writeBytes,
        ILRewriter.appended, Nat.not_lt.mpr hfit]
    rw [h]
    exact ⟨rfl, rfl, rfl, by simp, fun _ hw => wellPositioned_appended hw hfit⟩
  · have h : rw.EmitIL value = ⟨some (.runtime_error "IL buffer overflow"), rw⟩ := by
      simp [ILRewriter.EmitIL, Nat.lt_of_not_le hfit]
    rw [h]
    exact preserves_leaf _ _

theorem preserves_andThen {rw : ILRewriter} {o : Outcome} {f : ILRewriter → Outcome}
    (h₁ : Preserves rw o) (h₂ : ∀ rw', Preserves rw' (f rw')) :
    Preserves rw (o.andThen f) := by
  unfold Outcome.andThen
  cases ht : o.thrown with
  | some e => exact h₁
  | none =>
    obtain ⟨a1, a2, a3, a4, a5⟩ := h₁
    obtain ⟨b1, b2, b3, b4, b5⟩ := h₂ o.rw
    exact ⟨b1.trans a1, b2.trans a2, b3.trans a3, b4.trans a4,
      fun hn hw => b5 hn (a5 ht hw)⟩

theorem preserves_ite {rw : ILRewriter} {c : Prop} [Decidable c] {o₁ o₂ : Outcome}
    (h₁ : Preserves rw o₁) (h₂ : Preserves rw o₂) :
    Preserves rw (if c then o₁ else o₂) := by
  split
  · exact h₁
  · exact h₂

theorem preserves_loadArgumentsLoop : ∀ (n i : Nat) (rw : ILRewriter),
    Preserves rw (ILRewriter.loadArgumentsLoop n i rw)
  | 0, _, rw => preserves_leaf rw none
  | n + 1, i, rw => by
    unfold ILRewriter.loadArgumentsLoop
    cases rw.methodInfo.argTypes.get? i with
    | none => exact preserves_leaf _ _
    | some t =>
      exact preserves_andThen
        (preserves_andThen (preserves_emit _ _) fun _ =>
          preserves_andThen (preserves_ite (preserves_emit _ _) (preserves_leaf _ _)) fun _ =>
            preserves_emit _ _)
        fun rw' => preserves_loadArgumentsLoop n (i + 1) rw'

theorem preserves_EmitLoadArguments (metaEmit : Option MetaDataEmit) (rw : ILRewriter) :
    Preserves rw (ILRewriter.EmitLoadArguments metaEmit rw) := by
  unfold ILRewriter.EmitLoadArguments
  cases metaEmit with
  | none => exact preserves_leaf _ _
  | some me =>
    refine preserves_ite (preserves_leaf _ _) ?_
    refine preserves_andThen (preserves_emit _ _) fun rw1 => ?_
    refine preserves_ite (preserves_leaf _ _) ?_
    refine preserves_ite (preserves_leaf _ _) ?_
    refine preserves_ite (preserves_leaf _ _) ?_
    refine preserves_andThen (preserves_emit _ _) fun rw2 => ?_
    refine preserves_andThen (preserves_emit _ _) fun rw3 => ?_
    refine preserves_andThen ?_ fun rw4 => preserves_loadArgumentsLoop _ _ _
    refine preserves_ite ?_ (preserves_leaf _ _)
    exact preserves_andThen (preserves_emit _ _) fun _ =>
      preserves_andThen (preserves_ite (preserves_emit _ _) (preserves_leaf _ _)) fun _ =>
        preserves_emit _ _

theorem preserves_EmitCallToManagedBridge (metaEmit : Option MetaDataEmit) (rw : ILRewriter) :
    Preserves rw (ILRewriter.EmitCallToManagedBridge metaEmit rw) := by
  unfold ILRewriter.EmitCallToManagedBridge
  cases metaEmit with
  | none => exact preserves_leaf _ _
  | some me =>
    refine preserves_ite (preserves_leaf _ _) ?_
    refine preserves_ite (preserves_leaf _ _) ?_
    refine preserves_ite (preserves_leaf _ _) ?_
    refine preserves_ite (preserves_leaf _ _) ?_
    exact preserves_andThen (preserves_emit _ _) fun _ =>
      preserves_andThen (preserves_emit _ _) fun _ => preserves_emit _ _

theorem preserves_InsertProlog (metaEmit : MetaDataEmit) (rw : ILRewriter) :
    Preserves rw.pushLocalVarSig (ILRewriter.InsertProlog metaEmit rw) := by
  unfold ILRewriter.InsertProlog
  refine preserves_ite (preserves_leaf _ _) ?_
  exact preserves_andThen (preserves_EmitIL _ _) fun _ =>
    preserves_andThen (preserves_EmitIL _ _) fun _ =>
      preserves_andThen (preserves_EmitLoadArguments _ _) fun _ =>
        preserves_EmitCallToManagedBridge _ _

/-! ## The memory image after a copy -/

theorem writeBytes_of_le (src : List Nat) : ∀ (buf : List Nat) (off : Nat),
    buf.length ≤ off → writeBytes buf off src = buf := by
  induction src with
  | nil => intro buf off _; rfl
  | cons b bs ih =>
    intro buf off h
    rw [writeBytes, List.set_eq_of_length_le h]
    exact ih buf (off + 1) (by omega)

theorem foldl_applyWrite_tail (len : Nat) (src : List Nat) : ∀ mem : List Nat,
    len ≤ mem.length →
    (overflowBytes len mem.length src).foldl applyWrite mem = mem ++ src := by
  induction src with
  | nil => intro mem _; simp [overflowBytes]
  | cons b bs ih =>
    intro mem h
    have hstep : applyWrite mem (mem.length, b) = mem ++ [b] := by
      simp [applyWrite]
    have hlen : mem.length + 1 = (mem ++ [b]).length := by simp
    rw [overflowBytes, if_pos h, List.foldl_cons, hstep, hlen, ih (mem ++ [b]) (by simp; omega)]
    simp

theorem memoryImage_copy (src : List Nat) : ∀ (buf : List Nat) (off : Nat),
    off ≤ buf.length →
    (overflowBytes buf.length off src).foldl applyWrite (writeBytes buf off src) =
      buf.take off ++ src ++ buf.drop (off + src.length) := by
  induction src with
  | nil => intro buf off _; simp [overflowBytes, writeBytes]
  | cons b bs ih =>
    intro buf off h
    by_cases hlt : off < buf.length
    · have hnle : ¬ buf.length ≤ off := by omega
      have hset : (buf.set off b).take (off + 1) = buf.take off ++ [b] := by
        rw [List.set_eq_take_append_cons_drop, if_pos hlt]
        have hl : (buf.take off ++ [b]).length = off + 1 := by simp; omega
        have happ : buf.take off ++ b :: buf.drop (off + 1) =
            (buf.take off ++ [b]) ++ buf.drop (off + 1) := by simp
        rw [happ]
        exact List.take_left' hl
      have hdrop : (buf.set off b).drop (off + 1 + bs.length) =
          buf.drop (off + 1 + bs.length) := List.drop_set_of_lt b buf (by omega)
      have hih := ih (buf.set off b) (off + 1) (by simp; omega)
      rw [List.length_set, hset, hdrop] at hih
      rw [overflowBytes, if_neg hnle, writeBytes, List.length_cons,
        show off + (bs.length + 1) = off + 1 + bs.length by omega, hih]
      simp
    · have heq : off = buf.length := by omega
      subst heq
      rw [overflowBytes, if_pos (Nat.le_refl _), writeBytes_of_le _ _ _ (Nat.le_refl _),
        List.foldl_cons]
      have hstep : applyWrite buf (buf.length, b) = buf ++ [b] := by simp [applyWrite]
      have hlen : buf.length + 1 = (buf ++ [b]).length := by simp
      rw [hstep, hlen, foldl_applyWrite_tail buf.length bs (buf ++ [b]) (by simp)]
      simp

/-! ## What a completed emission implies -/

theorem andThen_none {o : Outcome} {f : ILRewriter → Outcome}
    (h : (o.andThen f).thrown = none) : o.thrown = none ∧ (f o.rw).thrown = none := by
  unfold Outcome.andThen at h
  cases ht : o.thrown with
  | some e => rw [ht] at h; simp [ht] at h
  | none => rw [ht] at h; exact ⟨rfl, h⟩

theorem emit_none {rw : ILRewriter} {il : List Nat} (h : (rw.emit il).thrown = none) :
    rw.currentILOffset + il.length ≤ rw.ilBuffer.length := by
  by_contra hc
  have : (rw.emit il).thrown = some (.runtime_error "IL buffer overflow") := by
    simp [ILRewriter.emit, ILRewriter.AdvanceIL, ILRewriter.memcpy, length_writeBytes,
      Nat.lt_of_not_le hc]
  rw [this] at h
  exact absurd h (by simp)

theorem EmitIL_none {rw : ILRewriter} {il : List Nat} (h : (rw.EmitIL il).thrown = none) :
    rw.currentILOffset + il.length ≤ rw.ilBuffer.length := by
  by_contra hc
  have : (rw.EmitIL il).thrown = some (.runtime_error "IL buffer overflow") := by
    simp [ILRewriter.EmitIL, Nat.lt_of_not_le hc]
  rw [this] at h
  exact absurd h (by simp)

theorem loadArgumentsLoop_none : ∀ (n i : Nat) (rw : ILRewriter),
    (ILRewriter.loadArgumentsLoop n i rw).thrown = none →
    n ≤ rw.methodInfo.argTypes.length - i
  | 0, _, _, _ => Nat.zero_le _
  | n + 1, i, rw, h => by
    unfold ILRewriter.loadArgumentsLoop at h
    cases hg : rw.methodInfo.argTypes.get? i with
    | none => rw [hg] at h; simp at h
    | some t =>
      rw [hg] at h
      simp only at h
      have hi : i < rw.methodInfo.argTypes.length := by
        by_contra hc
        have : rw.methodInfo.argTypes.get? i = none := by simp; omega
        rw [this] at hg
        exact absurd hg (by simp)
      obtain ⟨_, h2⟩ := andThen_none h
      have hp : Preserves rw
          ((rw.emit (ILInstructions.LoadArg
            (toInt32 (if rw.methodInfo.isStatic = true then i else (i + 1) % 2 ^ 32)))).andThen
            fun rw => (if t.isValueType = true then rw.emit (ILInstructions.Box t.typeToken)
              else ⟨none, rw⟩).andThen fun rw => rw.emit ILInstructions.StoreElementRef) :=
        preserves_andThen (preserves_emit _ _) fun _ =>
          preserves_andThen (preserves_ite (preserves_emit _ _) (preserves_leaf _ _)) fun _ =>
            preserves_emit _ _
      have ih := loadArgumentsLoop_none n (i + 1) _ h2
      rw [hp.1] at ih
      omega

theorem EmitLoadArguments_none {metaEmit : MetaDataEmit} {rw : ILRewriter}
    (h : (ILRewriter.EmitLoadArguments (some metaEmit) rw).thrown = none) :
    rw.methodInfo.argCount ≤ 1024 ∧
    rw.methodInfo.argCount ≤ rw.methodInfo.argTypes.length ∧
    rw.currentILOffset ≤ rw.ilBuffer.length ∧
    FAILED metaEmit.QueryInterface_AssemblyEmit = false ∧
    FAILED (metaEmit.DefineAssemblyRef
      (if rw.isNetCore then "System.Runtime" else "mscorlib")).1 = false ∧
    FAILED (metaEmit.DefineTypeRefByName
      (metaEmit.DefineAssemblyRef (if rw.isNetCore then "System.Runtime" else "mscorlib")).2
      "System.Object").1 = false := by
  unfold ILRewriter.EmitLoadArguments at h
  simp only at h
  by_cases hc : rw.methodInfo.argCount > 1024
  · simp [hc] at h
  rw [if_neg hc] at h
  obtain ⟨h1, h2⟩ := andThen_none h
  have hfit := emit_none h1
  obtain ⟨pm1, pn1, -, -, -⟩ :=
    preserves_emit rw (ILInstructions.LoadConstantI4 (toInt32 rw.methodInfo.argCount))
  generalize (rw.emit (ILInstructions.LoadConstantI4 (toInt32 rw.methodInfo.argCount))).rw = s1
    at h2 pm1 pn1
  rw [pn1] at h2
  by_cases hqi : FAILED metaEmit.QueryInterface_AssemblyEmit = true
  · simp [hqi] at h2
  rw [if_neg hqi] at h2
  by_cases hasm : FAILED (metaEmit.DefineAssemblyRef
      (if rw.isNetCore then "System.Runtime" else "mscorlib")).1 = true
  · simp [hasm] at h2
  simp only [hasm] at h2
  by_cases htype : FAILED (metaEmit.DefineTypeRefByName
      (metaEmit.DefineAssemblyRef (if rw.isNetCore then "System.Runtime" else "mscorlib")).2
      "System.Object").1 = true
  · simp [htype] at h2
  simp only [htype] at h2
  obtain ⟨-, h3⟩ := andThen_none h2
  obtain ⟨pm2, -⟩ := preserves_emit s1 (ILInstructions.NewArray (metaEmit.DefineTypeRefByName
      (metaEmit.DefineAssemblyRef (if rw.isNetCore then "System.Runtime" else "mscorlib")).2
      "System.Object").2)
  generalize (s1.emit (ILInstructions.NewArray (metaEmit.DefineTypeRefByName
      (metaEmit.DefineAssemblyRef (if rw.isNetCore then "System.Runtime" else "mscorlib")).2
      "System.Object").2)).rw = s2 at h3 pm2
  obtain ⟨-, h4⟩ := andThen_none h3
  obtain ⟨pm3, -⟩ := preserves_emit s2 (ILInstructions.StoreLocal 0)
  generalize (s2.emit (ILInstructions.StoreLocal 0)).rw = s3 at h4 pm3
  obtain ⟨-, h5⟩ := andThen_none h4
  have p4 : Preserves s3 (if (!s3.methodInfo.isStatic) = true then
      (s3.emit (ILInstructions.LoadArg 0)).andThen fun rw =>
        (if rw.methodInfo.isValueType = true then
          rw.emit (ILInstructions.Box rw.methodInfo.typeToken)
          else ⟨none, rw⟩).andThen fun rw => rw.emit ILInstructions.StoreElementRef
      else ⟨none, s3⟩) :=
    preserves_ite (preserves_andThen (preserves_emit _ _) fun _ =>
      preserves_andThen (preserves_ite (preserves_emit _ _) (preserves_leaf _ _)) fun _ =>
        preserves_emit _ _) (preserves_leaf _ _)
  have h6 := loadArgumentsLoop_none _ _ _ h5
  rw [p4.1, pm3, pm2, pm1] at h6
  refine ⟨by omega, by omega, by omega, by simpa using hqi, by simpa using hasm,
    by simpa using htype⟩

theorem EmitCallToManagedBridge_none {metaEmit : MetaDataEmit} {rw : ILRewriter}
    (h : (ILRewriter.EmitCallToManagedBridge (some metaEmit) rw).thrown = none) :
    FAILED (metaEmit.DefineAssemblyRef "Aikido.Zen.Core").1 = false ∧
    FAILED (metaEmit.DefineTypeRefByName (metaEmit.DefineAssemblyRef "Aikido.Zen.Core").2
      "Aikido.Zen.Core.Bridge").1 = false ∧
    FAILED (metaEmit.DefineMemberRef (bridgeTypeRef metaEmit) "OnMethodEnter"
      ILRewriter.bridgeMethodSig).1 = false := by
  unfold ILRewriter.EmitCallToManagedBridge at h
  simp only at h
  by_cases hqi : FAILED metaEmit.QueryInterface_AssemblyEmit = true
  · simp [hqi] at h
  rw [if_neg hqi] at h
  by_cases hasm : FAILED (metaEmit.DefineAssemblyRef "Aikido.Zen.Core").1 = true
  · simp [hasm] at h
  rw [if_neg hasm] at h
  by_cases htype : FAILED (metaEmit.DefineTypeRefByName
      (metaEmit.DefineAssemblyRef "Aikido.Zen.Core").2 "Aikido.Zen.Core.Bridge").1 = true
  · simp [htype] at h
  rw [if_neg htype] at h
  by_cases hmem : FAILED (metaEmit.DefineMemberRef (bridgeTypeRef metaEmit) "OnMethodEnter"
      ILRewriter.bridgeMethodSig).1 = true
  · unfold bridgeTypeRef at hmem
    simp [hmem] at h
  exact ⟨by simpa using hasm, by simpa using htype, by simpa using hmem⟩

theorem InsertProlog_none {metaEmit : MetaDataEmit} {rw : ILRewriter}
    (h : (ILRewriter.InsertProlog metaEmit rw).thrown = none) :
    CollaboratorSucceeds metaEmit rw ∧ rw.methodInfo.argCount ≤ 1024 ∧
    rw.methodInfo.argCount ≤ rw.methodInfo.argTypes.length ∧
    rw.currentILOffset ≤ rw.ilBuffer.length := by
  unfold ILRewriter.InsertProlog at h
  simp only at h
  by_cases hsig : FAILED (metaEmit.GetTokenFromSig rw.pushLocalVarSig.localVarSig).1 = true
  · simp [hsig] at h
  rw [if_neg hsig] at h
  obtain ⟨h1, h2⟩ := andThen_none h
  have hfit := EmitIL_none h1
  obtain ⟨pm1, pn1, -, -, -⟩ := preserves_EmitIL rw.pushLocalVarSig [CEE_LOCALS]
  generalize (rw.pushLocalVarSig.EmitIL [CEE_LOCALS]).rw = s1 at h2 pm1 pn1
  obtain ⟨-, h3⟩ := andThen_none h2
  obtain ⟨pm2, pn2, -, -, -⟩ := preserves_EmitIL s1
    (storedBytes32 (metaEmit.GetTokenFromSig rw.pushLocalVarSig.localVarSig).2)
  generalize (s1.EmitIL
    (storedBytes32 (metaEmit.GetTokenFromSig rw.pushLocalVarSig.localVarSig).2)).rw = s2
    at h3 pm2 pn2
  obtain ⟨h4, h5⟩ := andThen_none h3
  obtain ⟨c1, c2, -, c4, c5, c6⟩ := EmitLoadArguments_none h4
  obtain ⟨d1, d2, d3⟩ := EmitCallToManagedBridge_none h5
  have hm : s2.methodInfo = rw.methodInfo := pm2.trans pm1
  have hn : s2.isNetCore = rw.isNetCore := pn2.trans pn1
  rw [hm] at c1 c2
  rw [hn] at c5 c6
  have hcur : rw.pushLocalVarSig.currentILOffset = rw.currentILOffset := rfl
  have hbuf : rw.pushLocalVarSig.ilBuffer = rw.ilBuffer := rfl
  rw [hcur, hbuf] at hfit
  exact ⟨⟨by simpa using hsig, c4, c5, c6, d1, d2, d3⟩, c1, c2, by omega⟩

theorem InsertProlog_eq_of_none {metaEmit : MetaDataEmit} {rw : ILRewriter}
    (h : (ILRewriter.InsertProlog metaEmit rw).thrown = none) :
    ILRewriter.InsertProlog metaEmit rw = ⟨none, rw.pushLocalVarSig.appended
      (prologBytes (localVarSigToken metaEmit rw.pushLocalVarSig.localVarSig)
        (objectTypeRef metaEmit rw.isNetCore) (bridgeMethodRef metaEmit) rw.methodInfo)⟩ ∧
    rw.currentILOffset + (prologBytes (localVarSigToken metaEmit rw.pushLocalVarSig.localVarSig)
        (objectTypeRef metaEmit rw.isNetCore) (bridgeMethodRef metaEmit)
        rw.methodInfo).length ≤ rw.ilBuffer.length := by
  obtain ⟨hc, h1, h2, h3⟩ := InsertProlog_none h
  have he := emits_InsertProlog metaEmit rw hc h1 h2 h3
  by_cases hfit : rw.currentILOffset + (prologBytes
      (localVarSigToken metaEmit rw.pushLocalVarSig.localVarSig)
      (objectTypeRef metaEmit rw.isNetCore) (bridgeMethodRef metaEmit)
      rw.methodInfo).length ≤ rw.ilBuffer.length
  · exact ⟨he.1 hfit, hfit⟩
  · have := he.2 (Nat.lt_of_not_le hfit)
    rw [this] at h
    exact absurd h (by simp)

theorem wellPositioned_construct (cache : RuntimeCache) (m : MethodInfo) :
    WellPositioned (ILRewriter.construct cache m).1 := by
  simp [WellPositioned, ILRewriter.construct]

theorem wellPositioned_pushLocalVarSig {rw : ILRewriter} (h : WellPositioned rw) :
    WellPositioned rw.pushLocalVarSig := h

/-! ## Sizes of the emitted instructions -/

theorem length_LoadArg_le (i : Int) :
    1 ≤ (ILInstructions.LoadArg i).length ∧ (ILInstructions.LoadArg i).length ≤ 4 := by
  unfold ILInstructions.LoadArg
  split <;> simp

theorem length_LoadArg_small {i : Int} (h : i ≤ 3) : (ILInstructions.LoadArg i).length = 1 := by
  simp [ILInstructions.LoadArg, h]

theorem length_LoadConstantI4_le (v : Int) :
    1 ≤ (ILInstructions.LoadConstantI4 v).length ∧
    (ILInstructions.LoadConstantI4 v).length ≤ 5 := by
  unfold ILInstructions.LoadConstantI4
  split <;> simp

theorem length_slotStaging (argIndex : Nat) (isValueType : Bool) (typeToken : Nat) :
    2 ≤ (encodeAll (slotStaging argIndex isValueType typeToken)).length ∧
    (encodeAll (slotStaging argIndex isValueType typeToken)).length ≤ 10 ∧
    (argIndex ≤ 3 → (encodeAll (slotStaging argIndex isValueType typeToken)).length ≤ 7) := by
  rw [encodeAll_slotStaging]
  have h1 := length_LoadArg_le (argIndex : Int)
  have hb : (if isValueType = true then ILInstructions.Box typeToken else []).length ≤ 5 := by
    split
    · simp [ILInstructions.Box]
    · simp
  have hs : ILInstructions.StoreElementRef.length = 1 := rfl
  simp only [List.length_append, hs]
  refine ⟨by omega, by omega, fun h => ?_⟩
  have h2 : (ILInstructions.LoadArg (argIndex : Int)).length = 1 :=
    length_LoadArg_small (by omega)
  omega

theorem length_argumentStaging (isStatic : Bool) : ∀ (ts : List TypeInfo) (i : Nat),
    2 * ts.length ≤ (encodeAll (argumentStaging isStatic i ts)).length ∧
    (encodeAll (argumentStaging isStatic i ts)).length ≤ 10 * ts.length
  | [], _ => by simp [argumentStaging, encodeAll]
  | t :: ts, i => by
    have h := length_slotStaging (if isStatic = true then i else i + 1) t.isValueType t.typeToken
    have ih := length_argumentStaging isStatic ts (i + 1)
    simp only [argumentStaging, encodeAll_append, List.length_append, List.length_cons]
    omega

theorem length_argumentStaging_small (isStatic : Bool) : ∀ (ts : List TypeInfo) (i k : Nat),
    i + k ≤ 3 → k ≤ ts.length →
    (encodeAll (argumentStaging isStatic i ts)).length + 3 * k ≤ 10 * ts.length
  | [], _, k, _, hk => by
    simp only [List.length_nil, Nat.le_zero] at hk
    simp [argumentStaging, encodeAll, hk]
  | t :: ts, i, 0, _, _ => by
    have h := (length_argumentStaging isStatic (t :: ts) i).2
    omega
  | t :: ts, i, k + 1, hi, hk => by
    have h := (length_slotStaging (if isStatic = true then i else i + 1) t.isValueType
      t.typeToken).2.2 (by split <;> omega)
    have ih := length_argumentStaging_small isStatic ts (i + 1) k (by omega)
      (by simpa using hk)
    rw [argumentStaging, encodeAll_append, List.length_append, List.length_cons]
    omega

theorem length_argumentStaging_le_48 (isStatic : Bool) (ts : List TypeInfo)
    (h : ts.length ≤ 48) : (encodeAll (argumentStaging isStatic 0 ts)).length ≤ 471 := by
  by_cases h3 : 3 ≤ ts.length
  · have := length_argumentStaging_small isStatic ts 0 3 (by omega) h3
    omega
  · have := length_argumentStaging_small isStatic ts 0 ts.length (by omega) (Nat.le_refl _)
    omega

theorem length_prologBytes (sigToken objectTypeRef bridgeMethodRef : Nat) (m : MethodInfo) :
    (prologBytes sigToken objectTypeRef bridgeMethodRef m).length =
      22 + (ILInstructions.LoadConstantI4 m.argCount).length +
        (if m.isStatic = true then 0
          else (encodeAll (slotStaging 0 m.isValueType m.typeToken)).length) +
        (encodeAll (argumentStaging m.isStatic 0 (m.argTypes.take m.argCount))).length := by
  unfold prologBytes
  rw [encodeAll_loadArgumentsReference, encodeAll_bridgeCallReference]
  have h1 := length_LoadArg_small (show (0 : Int) ≤ 3 by omega)
  cases hs : m.isStatic <;>
    simp [storedBytes32, ILInstructions.NewArray, ILInstructions.StoreLocal,
      ILInstructions.LoadString, ILInstructions.CallMethod, h1] <;> omega

theorem length_prologBytes_le_512 (sigToken objectTypeRef bridgeMethodRef : Nat)
    (m : MethodInfo) (h : m.argCount ≤ 48) :
    (prologBytes sigToken objectTypeRef bridgeMethodRef m).length ≤ 512 := by
  rw [length_prologBytes]
  have h1 := (length_LoadConstantI4_le (m.argCount : Int)).2
  have h2 := (length_slotStaging 0 m.isValueType m.typeToken).2.1
  have h3 := length_argumentStaging_le_48 m.isStatic (m.argTypes.take m.argCount)
    (by simp; omega)
  split <;> omega

theorem length_prologBytes_ge (sigToken objectTypeRef bridgeMethodRef : Nat)
    (m : MethodInfo) (h : m.argCount ≤ m.argTypes.length) :
    23 + 2 * m.argCount ≤ (prologBytes sigToken objectTypeRef bridgeMethodRef m).length := by
  rw [length_prologBytes]
  have h1 := (length_LoadConstantI4_le (m.argCount : Int)).1
  have h3 := (length_argumentStaging m.isStatic (m.argTypes.take m.argCount) 0).1
  have h4 : (m.argTypes.take m.argCount).length = m.argCount := by simp; omega
  rw [h4] at h3
  omega

theorem length_prologBytes_ge_23 (sigToken objectTypeRef bridgeMethodRef : Nat)
    (m : MethodInfo) :
    23 ≤ (prologBytes sigToken objectTypeRef bridgeMethodRef m).length := by
  rw [length_prologBytes]
  have h1 := (length_LoadConstantI4_le (m.argCount : Int)).1
  omega

/-! ## `Rewrite` by cases -/

theorem FAILED_E_FAIL : FAILED E_FAIL = true := by decide

theorem Rewrite_of_failed {profilerInfo : ProfilerInfo} {rw : ILRewriter}
    (hg : FAILED (profilerInfo.GetModuleMetaData rw.methodInfo.moduleId).1 = true) :
    ILRewriter.Rewrite profilerInfo rw =
      ⟨some (profilerInfo.GetModuleMetaData rw.methodInfo.moduleId).1, rw, none, none⟩ := by
  simp only [ILRewriter.Rewrite, hg, if_true]

theorem Rewrite_of_thrown {profilerInfo : ProfilerInfo} {rw : ILRewriter} {e : RewriteError}
    (hg : FAILED (profilerInfo.GetModuleMetaData rw.methodInfo.moduleId).1 = false)
    (ht : (ILRewriter.InsertProlog (profilerInfo.GetModuleMetaData rw.methodInfo.moduleId).2
      { rw with currentILOffset := 0 }).thrown = some e) :
    ILRewriter.Rewrite profilerInfo rw =
      ⟨some E_FAIL,
        (ILRewriter.InsertProlog (profilerInfo.GetModuleMetaData rw.methodInfo.moduleId).2
          { rw with currentILOffset := 0 }).rw, none, none⟩ := by
  simp only [ILRewriter.Rewrite, hg, Bool.false_eq_true, if_false, ht]

theorem Rewrite_of_none {profilerInfo : ProfilerInfo} {rw : ILRewriter}
    (hg : FAILED (profilerInfo.GetModuleMetaData rw.methodInfo.moduleId).1 = false)
    (ht : (ILRewriter.InsertProlog (profilerInfo.GetModuleMetaData rw.methodInfo.moduleId).2
      { rw with currentILOffset := 0 }).thrown = none) :
    (ILRewriter.Rewrite profilerInfo rw).rw =
      ILRewriter.CopyOriginalIL (ILRewriter.InsertProlog
        (profilerInfo.GetModuleMetaData rw.methodInfo.moduleId).2
        { rw with currentILOffset := 0 }).rw ∧
    (ILRewriter.Rewrite profilerInfo rw).submitted =
      some ((ILRewriter.Rewrite profilerInfo rw).rw.methodInfo.moduleId,
        (ILRewriter.Rewrite profilerInfo rw).rw.methodInfo.methodToken,
        memoryImage (ILRewriter.Rewrite profilerInfo rw).rw) ∧
    (ILRewriter.Rewrite profilerInfo rw).hr =
      (if FAILED (profilerInfo.SetILFunctionBody
            (ILRewriter.Rewrite profilerInfo rw).rw.methodInfo.moduleId
            (ILRewriter.Rewrite profilerInfo rw).rw.methodInfo.methodToken
            (memoryImage (ILRewriter.Rewrite profilerInfo rw).rw)) = true ∨
          (ILRewriter.Rewrite profilerInfo rw).rw.currentILOffset = 0 then
        some (profilerInfo.SetILFunctionBody
          (ILRewriter.Rewrite profilerInfo rw).rw.methodInfo.moduleId
          (ILRewriter.Rewrite profilerInfo rw).rw.methodInfo.methodToken
          (memoryImage (ILRewriter.Rewrite profilerInfo rw).rw))
      else none) ∧
    (ILRewriter.Rewrite profilerInfo rw).copiedToNull =
      (if FAILED (profilerInfo.SetILFunctionBody
            (ILRewriter.Rewrite profilerInfo rw).rw.methodInfo.moduleId
            (ILRewriter.Rewrite profilerInfo rw).rw.methodInfo.methodToken
            (memoryImage (ILRewriter.Rewrite profilerInfo rw).rw)) = true then none
      else some (ILRewriter.Rewrite profilerInfo rw).rw.currentILOffset) := by
  simp only [ILRewriter.Rewrite, hg, Bool.false_eq_true, if_false, ht, ILRewriter.InsertEpilog]
  split
  · rename_i hf
    simp [hf]
  · rename_i hf
    simp only [hf, Bool.false_eq_true, false_or, if_false, true_and]

theorem memoryImage_CopyOriginalIL {s : ILRewriter} (hw : WellPositioned s)
    (hB : s.methodInfo.ilCode.length = s.methodInfo.codeSize) :
    memoryImage (ILRewriter.CopyOriginalIL s) =
      s.ilBuffer.take s.currentILOffset ++ s.methodInfo.ilCode ++
        List.replicate (s.ilBuffer.length - s.currentILOffset - s.methodInfo.codeSize) 0 := by
  obtain ⟨h1, h2, h3, h4⟩ := hw
  have htake : s.methodInfo.ilCode.take s.methodInfo.codeSize = s.methodInfo.ilCode :=
    List.take_of_length_le (by omega)
  have himg : memoryImage (ILRewriter.CopyOriginalIL s) =
      (overflowBytes s.ilBuffer.length s.currentILOffset s.methodInfo.ilCode).foldl applyWrite
        (writeBytes s.ilBuffer s.currentILOffset s.methodInfo.ilCode) := by
    simp [memoryImage, ILRewriter.CopyOriginalIL, ILRewriter.memcpy, htake, h1, h3]
  rw [himg, memoryImage_copy _ _ _ h2, hB, ← List.drop_drop, h4, List.drop_replicate]

theorem reset_cursor_eq {rw : ILRewriter} (h : rw.currentILOffset = 0) :
    ({ rw with currentILOffset := 0 } : ILRewriter) = rw := by
  cases rw
  simp only at h
  simp [h]

theorem construct_currentILOffset (cache : RuntimeCache) (m : MethodInfo) :
    (ILRewriter.construct cache m).1.currentILOffset = 0 := by
  simp [ILRewriter.construct]

theorem construct_methodInfo (cache : RuntimeCache) (m : MethodInfo) :
    (ILRewriter.construct cache m).1.methodInfo = m := by
  simp [ILRewriter.construct]

theorem construct_length (cache : RuntimeCache) (m : MethodInfo) :
    (ILRewriter.construct cache m).1.ilBuffer.length =
      (m.codeSize + DEFAULT_IL_BUFFER_PADDING) % 2 ^ 32 := by
  simp [ILRewriter.construct]

theorem countP_slotStaging (argIndex : Nat) (isValueType : Bool) (typeToken : Nat) :
    (slotStaging argIndex isValueType typeToken).countP Instr.isStoreElementRef = 1 ∧
    (slotStaging argIndex isValueType typeToken).countP Instr.isBox =
      (if isValueType = true then 1 else 0) := by
  cases isValueType <;> simp [slotStaging, Instr.isStoreElementRef, Instr.isBox]

theorem countP_argumentStaging (isStatic : Bool) : ∀ (ts : List TypeInfo) (i : Nat),
    (argumentStaging isStatic i ts).countP Instr.isStoreElementRef = ts.length ∧
    (argumentStaging isStatic i ts).countP Instr.isBox = ts.countP (fun t => t.isValueType)
  | [], _ => by simp [argumentStaging]
  | t :: ts, i => by
    have h := countP_slotStaging (if isStatic = true then i else i + 1) t.isValueType t.typeToken
    have ih := countP_argumentStaging isStatic ts (i + 1)
    rw [argumentStaging, List.countP_append, List.countP_append, h.1, h.2, ih.1, ih.2,
      List.countP_cons, List.length_cons]
    constructor <;> omega

/-! ## A well-positioned rewriter on a host whose calls succeed -/

theorem collaboratorSucceeds_sampleEmit (rw : ILRewriter) :
    CollaboratorSucceeds sampleEmit rw :=
  ⟨rfl, rfl, rfl, rfl, rfl, rfl, rfl⟩

theorem Rewrite_of_fits (profilerInfo : ProfilerInfo) (rw : ILRewriter) (P : List Nat)
    (hw : WellPositioned rw) (h0 : rw.currentILOffset = 0)
    (hg : FAILED (profilerInfo.GetModuleMetaData rw.methodInfo.moduleId).1 = false)
    (hP : ILRewriter.InsertProlog (profilerInfo.GetModuleMetaData rw.methodInfo.moduleId).2 rw =
      ⟨none, rw.pushLocalVarSig.appended P⟩)
    (hfit : P.length ≤ rw.ilBuffer.length) :
    (ILRewriter.Rewrite profilerInfo rw).rw.currentILOffset =
      P.length + rw.methodInfo.codeSize ∧
    (ILRewriter.Rewrite profilerInfo rw).rw.ilBuffer.length = rw.ilBuffer.length ∧
    (ILRewriter.Rewrite profilerInfo rw).rw.outOfBounds =
      overflowBytes rw.ilBuffer.length P.length
        (rw.methodInfo.ilCode.take rw.methodInfo.codeSize) ∧
    (ILRewriter.Rewrite profilerInfo rw).hr =
      (if FAILED (profilerInfo.SetILFunctionBody rw.methodInfo.moduleId
            rw.methodInfo.methodToken (memoryImage (ILRewriter.Rewrite profilerInfo rw).rw)) =
            true ∨ P.length + rw.methodInfo.codeSize = 0 then
        some (profilerInfo.SetILFunctionBody rw.methodInfo.moduleId rw.methodInfo.methodToken
          (memoryImage (ILRewriter.Rewrite profilerInfo rw).rw))
      else none) ∧
    (ILRewriter.Rewrite profilerInfo rw).submitted ≠ none := by
  have hreset : ({ rw with currentILOffset := 0 } : ILRewriter) = rw := reset_cursor_eq h0
  have hw' := @wellPositioned_appended rw.pushLocalVarSig P (wellPositioned_pushLocalVarSig hw)
    (by
      show rw.currentILOffset + P.length ≤ rw.ilBuffer.length
      omega)
  obtain ⟨hrw, hsub, hhr, -⟩ := @Rewrite_of_none profilerInfo rw hg
    (by rw [hreset, hP])
  rw [hreset, hP] at hrw
  obtain ⟨w1, -, w3, -⟩ := hw'
  have a1 : (rw.pushLocalVarSig.appended P).currentILOffset = P.length := by
    rw [ILRewriter.appended_currentILOffset]
    show rw.currentILOffset + P.length = P.length
    omega
  have a2 : (rw.pushLocalVarSig.appended P).ilBuffer.length = rw.ilBuffer.length := by
    rw [ILRewriter.appended_length]
    rfl
  have a3 : (rw.pushLocalVarSig.appended P).methodInfo = rw.methodInfo := rfl
  have b3 : (ILRewriter.Rewrite profilerInfo rw).rw.methodInfo = rw.methodInfo := by
    rw [hrw]
    exact a3
  have hcursor : (ILRewriter.Rewrite profilerInfo rw).rw.currentILOffset =
      P.length + rw.methodInfo.codeSize := by
    rw [hrw]
    simp only [ILRewriter.CopyOriginalIL, ILRewriter.memcpy, a1, a3]
  refine ⟨hcursor, ?_, ?_, ?_, ?_⟩
  · rw [hrw]
    simp only [ILRewriter.CopyOriginalIL, ILRewriter.memcpy, length_writeBytes, a2]
  · rw [hrw]
    simp only [ILRewriter.CopyOriginalIL, ILRewriter.memcpy, w3, List.nil_append, a2, a3, w1, a1]
  · rw [hhr, b3, hcursor]
  · rw [hsub]
    simp

theorem freshRewriter_facts (m : MethodInfo) :
    WellPositioned (freshRewriter m) ∧ (freshRewriter m).currentILOffset = 0 ∧
    (freshRewriter m).methodInfo = m ∧
    (freshRewriter m).ilBuffer.length = (m.codeSize + DEFAULT_IL_BUFFER_PADDING) % 2 ^ 32 ∧
    (freshRewriter m).isNetCore = false ∧ (freshRewriter m).pushLocalVarSig.localVarSig =
      [IMAGE_CEE_CS_CALLCONV_LOCAL_SIG, 1, ELEMENT_TYPE_SZARRAY, ELEMENT_TYPE_OBJECT] :=
  ⟨wellPositioned_construct _ m, construct_currentILOffset _ m, construct_methodInfo _ m,
    construct_length _ m, by simp [freshRewriter, ILRewriter.construct,
      ILRewriter.DetectRuntimeStatic, RuntimeCache.initial],
    by simp [freshRewriter, ILRewriter.construct, ILRewriter.pushLocalVarSig]⟩

theorem InsertProlog_sample (m : MethodInfo) (h1 : m.argCount ≤ 1024)
    (h2 : m.argCount ≤ m.argTypes.length) :
    Emits (freshRewriter m).pushLocalVarSig
      (ILRewriter.InsertProlog sampleEmit (freshRewriter m))
      (prologBytes 0x11000001 0x01000002 0x0A000003 m) := by
  obtain ⟨-, -, hmi, -, -, -⟩ := freshRewriter_facts m
  have he := emits_InsertProlog sampleEmit (freshRewriter m)
    (collaboratorSucceeds_sampleEmit _) (by rw [hmi]; exact h1) (by rw [hmi]; exact h2)
  rw [hmi] at he
  exact he

theorem Rewrite_sample_of_fits (m : MethodInfo) (h1 : m.argCount ≤ 1024)
    (h2 : m.argCount ≤ m.argTypes.length)
    (hsize : m.codeSize + DEFAULT_IL_BUFFER_PADDING < 2 ^ 32)
    (hfit : (prologBytes 0x11000001 0x01000002 0x0A000003 m).length ≤
      m.codeSize + DEFAULT_IL_BUFFER_PADDING) :
    (ILRewriter.InsertProlog sampleEmit (freshRewriter m)).thrown = none ∧
    (ILRewriter.InsertProlog sampleEmit (freshRewriter m)).rw.currentILOffset =
      (prologBytes 0x11000001 0x01000002 0x0A000003 m).length ∧
    (ILRewriter.Rewrite sampleHost (freshRewriter m)).rw.currentILOffset =
      (prologBytes 0x11000001 0x01000002 0x0A000003 m).length + m.codeSize ∧
    (ILRewriter.Rewrite sampleHost (freshRewriter m)).rw.ilBuffer.length =
      m.codeSize + DEFAULT_IL_BUFFER_PADDING ∧
    (ILRewriter.Rewrite sampleHost (freshRewriter m)).rw.outOfBounds =
      overflowBytes (m.codeSize + DEFAULT_IL_BUFFER_PADDING)
        (prologBytes 0x11000001 0x01000002 0x0A000003 m).length (m.ilCode.take m.codeSize) ∧
    (ILRewriter.Rewrite sampleHost (freshRewriter m)).hr = none ∧
    (ILRewriter.Rewrite sampleHost (freshRewriter m)).submitted ≠ none := by
  obtain ⟨hw, h0, hmi, hlen, -, -⟩ := freshRewriter_facts m
  rw [Nat.mod_eq_of_lt hsize] at hlen
  have he := InsertProlog_sample m h1 h2
  generalize freshRewriter m = rw0 at hw h0 hmi hlen he ⊢
  have hcur : rw0.pushLocalVarSig.currentILOffset = 0 := h0
  have hlen' : rw0.pushLocalVarSig.ilBuffer.length =
      m.codeSize + DEFAULT_IL_BUFFER_PADDING := hlen
  have hP := (he (by rw [hcur]; exact Nat.zero_le _)).1
    (by rw [hcur, hlen', Nat.zero_add]; exact hfit)
  have hr := Rewrite_of_fits sampleHost rw0 _ hw h0 rfl hP
    (by rw [hlen]; exact hfit)
  rw [hmi, hlen] at hr
  obtain ⟨r1, r2, r3, r4, r5⟩ := hr
  have h23 := length_prologBytes_ge_23 0x11000001 0x01000002 0x0A000003 m
  refine ⟨by rw [hP], ?_, r1, r2, r3, ?_, r5⟩
  · rw [hP, ILRewriter.appended_currentILOffset, hcur, Nat.zero_add]
  · rw [r4, if_neg]
    rintro (h | h)
    · have hS : FAILED S_OK = false := by decide
      exact absurd (show FAILED S_OK = true from h) (by rw [hS]; simp)
    · omega

theorem EmitLoadArguments_too_many (metaEmit : MetaDataEmit) (rw : ILRewriter)
    (hmany : 1024 < rw.methodInfo.argCount) :
    ILRewriter.EmitLoadArguments (some metaEmit) rw =
      ⟨some (.runtime_error "Too many arguments"), rw⟩ := by
  unfold ILRewriter.EmitLoadArguments
  exact if_pos hmany

theorem InsertProlog_too_many (metaEmit : MetaDataEmit) (rw : ILRewriter)
    (hsig : FAILED (metaEmit.GetTokenFromSig rw.pushLocalVarSig.localVarSig).1 = false)
    (hroom : rw.currentILOffset + 5 ≤ rw.ilBuffer.length)
    (hmany : 1024 < rw.methodInfo.argCount) :
    (ILRewriter.InsertProlog metaEmit rw).thrown =
      some (.runtime_error "Too many arguments") := by
  have hcur : rw.pushLocalVarSig.currentILOffset = rw.currentILOffset := rfl
  have hbuf : rw.pushLocalVarSig.ilBuffer = rw.ilBuffer := rfl
  have e1 := (emits_EmitIL rw.pushLocalVarSig [CEE_LOCALS] (by rw [hcur, hbuf]; omega)).1
    (by rw [hcur, hbuf]; simp only [List.length_singleton]; omega)
  have e2 := (emits_EmitIL (rw.pushLocalVarSig.appended [CEE_LOCALS])
    (storedBytes32 (metaEmit.GetTokenFromSig rw.pushLocalVarSig.localVarSig).2)
    (by rw [ILRewriter.appended_currentILOffset, ILRewriter.appended_length, hcur, hbuf]
        simp only [List.length_singleton]; omega)).1
    (by rw [ILRewriter.appended_currentILOffset, ILRewriter.appended_length, hcur, hbuf]
        simp only [List.length_singleton, storedBytes32, List.length_cons, List.length_nil]
        omega)
  have hm : ((rw.pushLocalVarSig.appended [CEE_LOCALS]).appended
      (storedBytes32 (metaEmit.GetTokenFromSig rw.pushLocalVarSig.localVarSig).2)).methodInfo =
      rw.methodInfo := rfl
  unfold ILRewriter.InsertProlog
  simp only [hsig, Bool.false_eq_true, if_false]
  rw [e1]
  simp only [Outcome.andThen]
  rw [e2]
  simp only [Outcome.andThen]
  rw [EmitLoadArguments_too_many _ _ (by rw [hm]; exact hmany)]

theorem emit_of_not_fits {rw : ILRewriter} {il : List Nat}
    (h : rw.ilBuffer.length < rw.currentILOffset + il.length) :
    rw.emit il = ⟨some (.runtime_error "IL buffer overflow"), rw.memcpy il⟩ := by
  simp [ILRewriter.emit, ILRewriter.AdvanceIL, ILRewriter.memcpy, length_writeBytes, h]

theorem emit_of_fits {rw : ILRewriter} {il : List Nat}
    (h : rw.currentILOffset + il.length ≤ rw.ilBuffer.length) :
    rw.emit il = ⟨none, rw.appended il⟩ := by
  simp [ILRewriter.emit, ILRewriter.AdvanceIL, ILRewriter.memcpy, length_writeBytes,
    ILRewriter.appended, Nat.not_lt.mpr h]

/-- When the prolog without its last instruction `Q` fits the buffer and the final call of the
bridge does not, `InsertProlog` throws in the emission step of the call, after `memcpy` has
copied the bytes of the call. -/
theorem InsertProlog_overflow_in_call (metaEmit : MetaDataEmit) (rw : ILRewriter) (Q : List Nat)
    (hc : CollaboratorSucceeds metaEmit rw)
    (h1 : rw.methodInfo.argCount ≤ 1024)
    (h2 : rw.methodInfo.argCount ≤ rw.methodInfo.argTypes.length)
    (hw : WellPositioned rw)
    (hQ : Q = [CEE_LOCALS] ++ (storedBytes32
        (localVarSigToken metaEmit rw.pushLocalVarSig.localVarSig) ++
      (encodeAll (loadArgumentsReference (objectTypeRef metaEmit rw.isNetCore) rw.methodInfo) ++
      (ILInstructions.LoadString rw.methodInfo.GetFullName ++ ILInstructions.LoadArg 0))))
    (hfit : rw.currentILOffset + Q.length ≤ rw.ilBuffer.length)
    (hover : rw.ilBuffer.length < rw.currentILOffset + Q.length + 5) :
    ILRewriter.InsertProlog metaEmit rw =
      ⟨some (.runtime_error "IL buffer overflow"),
        (rw.pushLocalVarSig.appended Q).memcpy
          (ILInstructions.CallMethod (bridgeMethodRef metaEmit))⟩ := by
  obtain ⟨hsig, hqi, hasm, htype, hasm2, htype2, hmem⟩ := hc
  have hcur : rw.pushLocalVarSig.currentILOffset = rw.currentILOffset := rfl
  have hbuf : rw.pushLocalVarSig.ilBuffer = rw.ilBuffer := rfl
  have hmi : rw.pushLocalVarSig.methodInfo = rw.methodInfo := rfl
  have hnc : rw.pushLocalVarSig.isNetCore = rw.isNetCore := rfl
  generalize hs0 : rw.pushLocalVarSig = s0 at hcur hbuf hmi hnc hQ ⊢
  have hsig' : FAILED (metaEmit.GetTokenFromSig s0.localVarSig).1 = false := by
    rw [← hs0]; exact hsig
  have hlenQ : Q.length = 1 + (4 + ((encodeAll (loadArgumentsReference
      (objectTypeRef metaEmit rw.isNetCore) rw.methodInfo)).length + (5 + 1))) := by
    rw [hQ]
    simp [storedBytes32, ILInstructions.LoadString, ILInstructions.LoadArg]
    omega
  generalize hA : encodeAll (loadArgumentsReference (objectTypeRef metaEmit rw.isNetCore)
    rw.methodInfo) = A at hQ hlenQ
  have hlen0 : s0.ilBuffer.length = rw.ilBuffer.length := by rw [hbuf]
  have e1 : s0.EmitIL [CEE_LOCALS] = ⟨none, s0.appended [CEE_LOCALS]⟩ :=
    (emits_EmitIL s0 [CEE_LOCALS] (by rw [hcur, hlen0]; exact hw.2.1)).1
      (by rw [hcur, hlen0]; simp only [List.length_singleton]; omega)
  have e2 : (s0.appended [CEE_LOCALS]).EmitIL
      (storedBytes32 (metaEmit.GetTokenFromSig s0.localVarSig).2) =
      ⟨none, (s0.appended [CEE_LOCALS]).appended
        (storedBytes32 (metaEmit.GetTokenFromSig s0.localVarSig).2)⟩ :=
    (emits_EmitIL _ _ (by simp [hcur, hlen0]; omega)).1
      (by simp [hcur, hlen0, storedBytes32]; omega)
  have e3 := (emits_EmitLoadArguments metaEmit ((s0.appended [CEE_LOCALS]).appended
      (storedBytes32 (metaEmit.GetTokenFromSig s0.localVarSig).2))
      (by simpa [hmi] using h1) (by simpa [hmi] using h2) hqi
      (by simpa [hnc] using hasm) (by simpa [hnc] using htype)
      (by simp [hcur, hlen0, storedBytes32]; omega)).1
      (by
        simp only [ILRewriter.appended_currentILOffset, ILRewriter.appended_length,
          ILRewriter.appended_isNetCore, ILRewriter.appended_methodInfo, hcur, hlen0, hnc, hmi,
          hA, storedBytes32, List.length_cons, List.length_nil]
        omega)
  simp only [ILRewriter.appended_isNetCore, ILRewriter.appended_methodInfo, hnc, hmi, hA] at e3
  unfold ILRewriter.InsertProlog
  simp only [hs0, hsig', Bool.false_eq_true, if_false]
  rw [e1]
  simp only [Outcome.andThen]
  rw [e2]
  simp only [Outcome.andThen]
  rw [e3]
  simp only [Outcome.andThen]
  unfold ILRewriter.EmitCallToManagedBridge
  unfold bridgeTypeRef at hmem
  simp only [hqi, hasm2, htype2, hmem, Bool.false_eq_true, if_false,
    ILRewriter.appended_methodInfo, hmi]
  rw [emit_of_fits (by
    simp only [ILRewriter.appended_currentILOffset, ILRewriter.appended_length, hcur, hlen0,
      storedBytes32, List.length_cons, List.length_nil, ILInstructions.LoadString]
    omega)]
  simp only [Outcome.andThen]
  rw [emit_of_fits (by
    simp only [ILRewriter.appended_currentILOffset, ILRewriter.appended_length, hcur, hlen0,
      storedBytes32, List.length_cons, List.length_nil, ILInstructions.LoadString,
      ILInstructions.LoadArg]
    simp
    omega)]
  simp only [Outcome.andThen]
  rw [emit_of_not_fits (by
    simp only [ILRewriter.appended_currentILOffset, ILRewriter.appended_length, hcur, hlen0,
      storedBytes32, List.length_cons, List.length_nil, ILInstructions.LoadString,
      ILInstructions.LoadArg, ILInstructions.CallMethod]
    simp
    omega)]
  simp only [ILRewriter.appended_appended, hQ, bridgeMethodRef, bridgeTypeRef,
    localVarSigToken, List.append_assoc]

theorem CopyOriginalIL_of_fits {s : ILRewriter} (hw : WellPositioned s)
    (hB : s.methodInfo.ilCode.length = s.methodInfo.codeSize)
    (hfit : s.currentILOffset + s.methodInfo.codeSize ≤ s.ilBuffer.length) :
    (ILRewriter.CopyOriginalIL s).outOfBounds = [] ∧
    (ILRewriter.CopyOriginalIL s).ilBuffer =
      s.ilBuffer.take s.currentILOffset ++ s.methodInfo.ilCode ++
        List.replicate (s.ilBuffer.length - s.currentILOffset - s.methodInfo.codeSize) 0 := by
  obtain ⟨h1, h2, h3, h4⟩ := hw
  have htake : s.methodInfo.ilCode.take s.methodInfo.codeSize = s.methodInfo.ilCode :=
    List.take_of_length_le (by omega)
  have hov : overflowBytes s.ilBuffer.length s.currentILOffset s.methodInfo.ilCode = [] :=
    overflowBytes_eq_nil _ _ _ (by rw [hB]; exact hfit)
  constructor
  · simp [ILRewriter.CopyOriginalIL, ILRewriter.memcpy, htake, h1, h3, hov]
  · have hb : (ILRewriter.CopyOriginalIL s).ilBuffer =
        writeBytes s.ilBuffer s.currentILOffset s.methodInfo.ilCode := by
      simp [ILRewriter.CopyOriginalIL, ILRewriter.memcpy, htake, h1]
    rw [hb, writeBytes_eq _ _ _ (by rw [hB]; exact hfit), hB, ← List.drop_drop, h4,
      List.drop_replicate]

/-! ## The activation, the registry, the signature parser and the lifecycle -/

section Activation

open AikidoProfiler

theorem scan_nil_andThen (s : Scan) : Scan.andThen ⟨[], none⟩ s = s := by
  cases s; simp [Scan.andThen]

theorem scan_andThen_nil (s : Scan) : s.andThen ⟨[], none⟩ = s := by
  rcases s with ⟨rs, _ | hr⟩ <;> simp [Scan.andThen]

theorem scan_andThen_assoc (s t u : Scan) :
    (s.andThen t).andThen u = s.andThen (t.andThen u) := by
  rcases s with ⟨rs, _ | hr⟩
  · rcases t with ⟨ts, _ | hr⟩ <;> simp [Scan.andThen]
  · simp [Scan.andThen]

theorem issue_append (f : Nat → Nat → HRESULT) (l₁ l₂ : List (Nat × Nat)) :
    issue f (l₁ ++ l₂) = (issue f l₁).andThen (issue f l₂) := by
  induction l₁ with
  | nil => simp [issue, scan_nil_andThen]
  | cons r rs ih =>
    simp only [List.cons_append, issue]
    by_cases h : FAILED (f r.1 r.2) = true
    · simp [h, Scan.andThen]
    · simp only [h, Bool.false_eq_true, if_false, List.append_eq, ih, scan_andThen_assoc]

theorem issue_requests (f : Nat → Nat → HRESULT) (l : List (Nat × Nat)) :
    (issue f l).requests = upToFirstRejected f l := by
  induction l with
  | nil => rfl
  | cons r rs ih =>
    simp only [issue, upToFirstRejected]
    by_cases h : FAILED (f r.1 r.2) = true
    · simp [h]
    · simp [h, Scan.andThen, ih]

theorem issue_returned (f : Nat → Nat → HRESULT) (l : List (Nat × Nat)) (hr : HRESULT)
    (h : (issue f l).returned = some hr) : FAILED hr = true := by
  induction l with
  | nil => simp [issue] at h
  | cons r rs ih =>
    simp only [issue] at h
    by_cases hf : FAILED (f r.1 r.2) = true
    · simp [hf] at h
      rw [← h]; exact hf
    · simp [hf, Scan.andThen] at h
      exact ih h

theorem issue_of_accepted (f : Nat → Nat → HRESULT) (l : List (Nat × Nat))
    (h : ∀ r ∈ l, FAILED (f r.1 r.2) = false) : issue f l = ⟨l, none⟩ := by
  induction l with
  | nil => rfl
  | cons r rs ih =>
    have h1 := h r (List.mem_cons_self _ _)
    simp only [issue, h1, Bool.false_eq_true, if_false,
      ih (fun x hx => h x (List.mem_cons_of_mem _ hx))]
    simp [Scan.andThen]

theorem upToFirstRejected_of_accepted (f : Nat → Nat → HRESULT) (l : List (Nat × Nat))
    (h : ∀ r ∈ l, FAILED (f r.1 r.2) = false) : upToFirstRejected f l = l := by
  rw [← issue_requests, issue_of_accepted f l h]

theorem collectModules_eq_fetched (calls : List (HRESULT × List Nat))
    (h : EnumerationSucceeds calls) : collectModules calls = fetched calls := by
  induction calls with
  | nil => rfl
  | cons c cs ih =>
    have hc := h c (List.mem_cons_self _ _)
    have hlen : c.2.length > 0 := List.length_pos.mpr hc.2
    simp only [collectModules, hc.1, hlen, decide_True, Bool.and_self, if_true, fetched,
      List.flatMap_cons]
    rw [ih (fun x hx => h x (List.mem_cons_of_mem _ hx))]
    rfl

theorem methodLoop_eq (info : ICorProfilerInfo4) (md : MetaDataImport) (moduleId : Nat)
    (typeName q : String) (methodDefs : List Nat) :
    methodLoop info md moduleId typeName q methodDefs =
      issue info.RequestReJIT (methodRequests md moduleId typeName q methodDefs) := by
  induction methodDefs with
  | nil => rfl
  | cons d ds ih =>
    simp only [methodLoop, methodRequests, List.filter_cons]
    by_cases hp : FAILED (md.GetMethodProps d).1 = true
    · simp only [hp, if_true, Bool.not_true, Bool.false_and, Bool.false_eq_true, if_false]
      exact ih
    · by_cases hn : typeName ++ "." ++ (md.GetMethodProps d).2.methodName = q
      · simp only [hp, hn, Bool.false_eq_true, if_false, if_true, Bool.not_false, decide_True,
          Bool.and_self, List.map_cons, issue, ih]
        rfl
      · simp only [hp, hn, Bool.false_eq_true, if_false, Bool.not_false, decide_False,
          Bool.and_false]
        exact ih

theorem methodRequests_append (md : MetaDataImport) (moduleId : Nat) (typeName q : String)
    (l₁ l₂ : List Nat) :
    methodRequests md moduleId typeName q (l₁ ++ l₂) =
      methodRequests md moduleId typeName q l₁ ++ methodRequests md moduleId typeName q l₂ := by
  simp [methodRequests]

theorem methodEnumLoop_eq (info : ICorProfilerInfo4) (md : MetaDataImport) (moduleId : Nat)
    (typeName q : String) (calls : List (HRESULT × List Nat)) :
    methodEnumLoop info md moduleId typeName q calls =
      issue info.RequestReJIT (methodRequests md moduleId typeName q (collectModules calls)) := by
  induction calls with
  | nil => rfl
  | cons c cs ih =>
    simp only [methodEnumLoop, collectModules]
    by_cases h : (SUCCEEDED c.1 && decide (c.2.length > 0)) = true
    · simp only [h, if_true, methodRequests_append, issue_append, methodLoop_eq, ih]
    · simp only [h, Bool.false_eq_true, if_false]
      rfl

theorem typeLoop_eq (info : ICorProfilerInfo4) (md : MetaDataImport) (moduleId : Nat)
    (q : String) (typeDefs : List Nat) :
    typeLoop info md moduleId q typeDefs =
      issue info.RequestReJIT (typeRequests md moduleId q typeDefs) := by
  induction typeDefs with
  | nil => rfl
  | cons t ts ih =>
    simp only [typeLoop, typeRequests, List.flatMap_cons]
    by_cases h : FAILED (md.GetTypeDefProps t).1 = true
    · simp only [h, if_true, List.nil_append]
      exact ih
    · simp only [h, Bool.false_eq_true, if_false, issue_append, methodEnumLoop_eq, ih]
      rfl

theorem typeRequests_append (md : MetaDataImport) (moduleId : Nat) (q : String)
    (l₁ l₂ : List Nat) :
    typeRequests md moduleId q (l₁ ++ l₂) =
      typeRequests md moduleId q l₁ ++ typeRequests md moduleId q l₂ := by
  simp [typeRequests]

theorem typeEnumLoop_eq (info : ICorProfilerInfo4) (md : MetaDataImport) (moduleId : Nat)
    (q : String) (calls : List (HRESULT × List Nat)) :
    typeEnumLoop info md moduleId q calls =
      issue info.RequestReJIT (typeRequests md moduleId q (collectModules calls)) := by
  induction calls with
  | nil => rfl
  | cons c cs ih =>
    simp only [typeEnumLoop, collectModules]
    by_cases h : (SUCCEEDED c.1 && decide (c.2.length > 0)) = true
    · simp only [h, if_true, typeRequests_append, issue_append, typeLoop_eq, ih]
    · simp only [h, Bool.false_eq_true, if_false]
      rfl

theorem FAILED_S_OK : FAILED S_OK = false := by decide

theorem RequestReJITForModule_eq (info : ICorProfilerInfo4) (moduleId : Nat) (a q : String)
    (hg : FAILED (info.GetModuleMetaData moduleId).1 = false)
    (hs : FAILED (info.GetModuleMetaData moduleId).2.GetScopeProps.1 = false) :
    RequestReJITForModule info moduleId a q =
      (issue info.RequestReJIT (moduleRequests info a q moduleId)).toResult := by
  unfold RequestReJITForModule moduleRequests
  simp only [hg, hs, Bool.false_eq_true, if_false]
  by_cases hn : a ≠ (info.GetModuleMetaData moduleId).2.GetScopeProps.2
  · rw [if_pos hn, if_pos hn]
    rfl
  · rw [if_neg hn, if_neg hn, typeEnumLoop_eq]
    rfl

theorem RequestReJITForModule_of_failed (info : ICorProfilerInfo4) (moduleId : Nat)
    (a q : String)
    (h : FAILED (info.GetModuleMetaData moduleId).1 = true ∨
      FAILED (info.GetModuleMetaData moduleId).2.GetScopeProps.1 = true) :
    FAILED (RequestReJITForModule info moduleId a q).hr = true ∧
      (RequestReJITForModule info moduleId a q).requests = [] := by
  unfold RequestReJITForModule
  by_cases hg : FAILED (info.GetModuleMetaData moduleId).1 = true
  · simp [hg]
  · rcases h with h | h
    · exact absurd h hg
    · simp [hg, h]

theorem toResult_andThen (s t : Scan) (h : ∀ hr, s.returned = some hr → FAILED hr = true) :
    (s.andThen t).toResult =
      if FAILED s.toResult.hr then s.toResult
      else ⟨t.toResult.hr, s.toResult.requests ++ t.toResult.requests⟩ := by
  rcases s with ⟨rs, _ | hr⟩
  · rcases t with ⟨ts, _ | hr2⟩ <;> simp [Scan.andThen, Scan.toResult, FAILED_S_OK]
  · have := h hr rfl
    simp [Scan.andThen, Scan.toResult, this]

theorem moduleLoop_eq (info : ICorProfilerInfo4) (a q : String) (modules : List Nat)
    (h : ∀ moduleId ∈ modules, FAILED (info.GetModuleMetaData moduleId).1 = false ∧
      FAILED (info.GetModuleMetaData moduleId).2.GetScopeProps.1 = false) :
    moduleLoop info a q modules =
      (issue info.RequestReJIT (modules.flatMap (moduleRequests info a q))).toResult := by
  induction modules with
  | nil => rfl
  | cons m ms ih =>
    have hm := h m (List.mem_cons_self _ _)
    rw [List.flatMap_cons, issue_append,
      toResult_andThen _ _ (issue_returned info.RequestReJIT _), moduleLoop,
      RequestReJITForModule_eq info m a q hm.1 hm.2,
      ih (fun x hx => h x (List.mem_cons_of_mem _ hx))]

/-- Every request of a module scan names that module. -/
theorem methodRequests_fst (md : MetaDataImport) (moduleId : Nat) (typeName q : String)
    (l : List Nat) : ∀ r ∈ methodRequests md moduleId typeName q l, r.1 = moduleId := by
  intro r hr
  simp only [methodRequests, List.mem_map] at hr
  obtain ⟨d, -, rfl⟩ := hr
  rfl

theorem typeRequests_fst (md : MetaDataImport) (moduleId : Nat) (q : String) (l : List Nat) :
    ∀ r ∈ typeRequests md moduleId q l, r.1 = moduleId := by
  intro r hr
  simp only [typeRequests, List.mem_flatMap] at hr
  obtain ⟨t, -, ht⟩ := hr
  by_cases hf : FAILED (md.GetTypeDefProps t).1 = true
  · simp [hf] at ht
  · simp only [hf, Bool.false_eq_true, if_false] at ht
    exact methodRequests_fst _ _ _ _ _ r ht

theorem mem_upToFirstRejected (f : Nat → Nat → HRESULT) (l : List (Nat × Nat)) :
    ∀ r ∈ upToFirstRejected f l, r ∈ l := by
  induction l with
  | nil => intro r hr; simp [upToFirstRejected] at hr
  | cons x xs ih =>
    intro r hr
    simp only [upToFirstRejected] at hr
    by_cases hf : FAILED (f x.1 x.2) = true
    · simp [hf] at hr
      simp [hr]
    · simp only [hf, Bool.false_eq_true, if_false, List.mem_cons] at hr
      rcases hr with hr | hr
      · simp [hr]
      · exact List.mem_cons_of_mem _ (ih r hr)

theorem RequestReJITForModule_fst (info : ICorProfilerInfo4) (moduleId : Nat) (a q : String) :
    ∀ r ∈ (RequestReJITForModule info moduleId a q).requests, r.1 = moduleId := by
  intro r hr
  by_cases hg : FAILED (info.GetModuleMetaData moduleId).1 = true
  · rw [(RequestReJITForModule_of_failed info moduleId a q (Or.inl hg)).2] at hr
    simp at hr
  · by_cases hs : FAILED (info.GetModuleMetaData moduleId).2.GetScopeProps.1 = true
    · rw [(RequestReJITForModule_of_failed info moduleId a q (Or.inr hs)).2] at hr
      simp at hr
    · rw [RequestReJITForModule_eq info moduleId a q (by simpa using hg) (by simpa using hs)]
        at hr
      have hreq : ∀ s : Scan, s.toResult.requests = s.requests := by
        intro s
        rcases s with ⟨rs, _ | hr⟩ <;> rfl
      rw [hreq, issue_requests] at hr
      have := mem_upToFirstRejected _ _ r hr
      unfold moduleRequests at this
      by_cases hn : a ≠ (info.GetModuleMetaData moduleId).2.GetScopeProps.2
      · simp [hn] at this
      · simp only [hn, if_false] at this
        exact typeRequests_fst _ _ _ _ r this

/-- A module whose metadata or scope name cannot be obtained ends the module loop: the loop
returns a failure and has made requests only for the modules in front of it. -/
theorem moduleLoop_of_failed (info : ICorProfilerInfo4) (a q : String) (moduleId : Nat)
    (post : List Nat)
    (h : FAILED (info.GetModuleMetaData moduleId).1 = true ∨
      FAILED (info.GetModuleMetaData moduleId).2.GetScopeProps.1 = true) :
    ∀ pre : List Nat,
      FAILED (moduleLoop info a q (pre ++ moduleId :: post)).hr = true ∧
      ∀ r ∈ (moduleLoop info a q (pre ++ moduleId :: post)).requests, r.1 ∈ pre := by
  intro pre
  induction pre with
  | nil =>
    obtain ⟨h1, h2⟩ := RequestReJITForModule_of_failed info moduleId a q h
    simp only [List.nil_append, moduleLoop, h1, if_true, h2]
    simp
  | cons m ms ih =>
    simp only [List.cons_append, moduleLoop]
    by_cases hf : FAILED (RequestReJITForModule info m a q).hr = true
    · simp only [hf, if_true, true_and]
      intro r hr
      rw [RequestReJITForModule_fst info m a q r hr]
      exact List.mem_cons_self _ _
    · simp only [hf, Bool.false_eq_true, if_false, List.append_eq]
      refine ⟨ih.1, ?_⟩
      intro r hr
      rcases List.mem_append.mp hr with hr | hr
      · rw [RequestReJITForModule_fst info m a q r hr]
        exact List.mem_cons_self _ _
      · exact List.mem_cons_of_mem _ (ih.2 r hr)

/-- Under successful enumerations the requests to make are those of the matching declared
methods. -/
theorem flatMap_moduleRequests (info : ICorProfilerInfo4) (a q : String)
    (h : EnumerationsSucceed info) :
    (collectModules info.EnumModules.2).flatMap (moduleRequests info a q) =
      (matchingMethods info a q).map DeclaredMethod.request := by
  obtain ⟨-, hm, hmod⟩ := h
  rw [collectModules_eq_fetched _ hm]
  unfold matchingMethods declaredMethods
  rw [List.filter_flatMap, List.map_flatMap]
  apply List.flatMap_congr
  intro m hmem
  obtain ⟨-, -, ht, htyp⟩ := hmod m hmem
  unfold moduleRequests
  rw [collectModules_eq_fetched _ ht, List.filter_flatMap, List.map_flatMap]
  by_cases hn : a ≠ (info.GetModuleMetaData m).2.GetScopeProps.2
  · rw [if_pos hn]
    symm
    rw [List.flatMap_eq_nil_iff]
    intro t _
    rw [List.map_eq_nil_iff, List.filter_eq_nil_iff]
    intro d hd
    simp only [List.mem_map] at hd
    obtain ⟨x, -, rfl⟩ := hd
    simp only [decide_eq_true_eq, not_and]
    intro hc
    exact absurd hc.symm hn
  · rw [if_neg hn]
    unfold typeRequests
    apply List.flatMap_congr
    intro t htmem
    obtain ⟨hp, hme, hmeth⟩ := htyp t htmem
    rw [hp, collectModules_eq_fetched _ hme]
    simp only [Bool.false_eq_true, if_false, methodRequests, List.filter_map, List.map_map]
    have hn1 : (info.GetModuleMetaData m).2.GetScopeProps.2 = a := by
      by_contra hc
      exact hn (fun e => hc e.symm)
    congr 1
    apply List.filter_congr
    intro d hdmem
    simp [hmeth d hdmem, hn1]

theorem toResult_requests (s : Scan) : s.toResult.requests = s.requests := by
  rcases s with ⟨rs, _ | hr⟩ <;> rfl

theorem RequestReJIT_of_enumerated (info : ICorProfilerInfo4) (reg : Registry) (a q : String)
    (h : EnumerationsSucceed info) :
    (RequestReJIT (some info) reg a q).methodsToInstrument = AddMethodToInstrument reg a q ∧
    (RequestReJIT (some info) reg a q).requests =
      upToFirstRejected info.RequestReJIT
        ((matchingMethods info a q).map DeclaredMethod.request) ∧
    ((∀ d ∈ matchingMethods info a q,
        FAILED (info.RequestReJIT d.moduleId d.methodDef) = false) →
      (RequestReJIT (some info) reg a q).requests =
        (matchingMethods info a q).map DeclaredMethod.request ∧
      (RequestReJIT (some info) reg a q).hr = S_OK) := by
  have he := h.1
  have hmods : ∀ moduleId ∈ collectModules info.EnumModules.2,
      FAILED (info.GetModuleMetaData moduleId).1 = false ∧
      FAILED (info.GetModuleMetaData moduleId).2.GetScopeProps.1 = false := by
    intro m hm
    rw [collectModules_eq_fetched _ h.2.1] at hm
    exact ⟨(h.2.2 m hm).1, (h.2.2 m hm).2.1⟩
  have hrun : RequestReJIT (some info) reg a q =
      ⟨(moduleLoop info a q (collectModules info.EnumModules.2)).hr,
        AddMethodToInstrument reg a q,
        (moduleLoop info a q (collectModules info.EnumModules.2)).requests⟩ := by
    unfold RequestReJIT
    simp only [he, Bool.false_eq_true, if_false]
  rw [hrun, moduleLoop_eq info a q _ hmods, flatMap_moduleRequests info a q h]
  refine ⟨rfl, ?_, ?_⟩
  · rw [toResult_requests, issue_requests]
  · intro hacc
    have haccs1 : ∀ r ∈ (matchingMethods info a q).map DeclaredMethod.request,
        FAILED (info.RequestReJIT r.1 r.2) = false := by
      intro r hr
      obtain ⟨d, hd, rfl⟩ := List.mem_map.mp hr
      exact hacc d hd
    rw [issue_of_accepted _ _ haccs1]
    exact ⟨rfl, rfl⟩

theorem RequestReJIT_of_failed_module (info : ICorProfilerInfo4) (reg : Registry)
    (a q : String) (pre : List Nat) (moduleId : Nat) (post : List Nat)
    (he : FAILED info.EnumModules.1 = false)
    (hmods : collectModules info.EnumModules.2 = pre ++ moduleId :: post)
    (hfail : FAILED (info.GetModuleMetaData moduleId).1 = true ∨
      FAILED (info.GetModuleMetaData moduleId).2.GetScopeProps.1 = true) :
    FAILED (RequestReJIT (some info) reg a q).hr = true ∧
      ∀ r ∈ (RequestReJIT (some info) reg a q).requests, r.1 ∈ pre := by
  have hrun : RequestReJIT (some info) reg a q =
      ⟨(moduleLoop info a q (collectModules info.EnumModules.2)).hr,
        AddMethodToInstrument reg a q,
        (moduleLoop info a q (collectModules info.EnumModules.2)).requests⟩ := by
    unfold RequestReJIT
    simp only [he, Bool.false_eq_true, if_false]
  rw [hrun, hmods]
  exact moduleLoop_of_failed info a q moduleId post hfail pre

/-- A string `x ++ "." ++ y` equals a string with a single dot only when the parts agree. -/
theorem split_at_single (c : Char) (xs ys us vs : List Char) (hu : c ∉ us) (hv : c ∉ vs)
    (h : xs ++ c :: ys = us ++ c :: vs) : xs = us ∧ ys = vs := by
  rcases List.append_eq_append_iff.mp h with ⟨as1, h1, h2⟩ | ⟨cs1, h1, h2⟩
  · cases as1 with
    | nil => simp at h1 h2; exact ⟨h1.symm, h2⟩
    | cons x as2 =>
      simp at h2
      exfalso
      apply hu
      rw [h1, h2.1]
      simp
  · cases cs1 with
    | nil => simp at h1 h2; exact ⟨h1, h2.symm⟩
    | cons x cs2 =>
      simp at h2
      exfalso
      apply hv
      rw [h2.2]
      simp

theorem orderService_place_iff (typeName methodName : String) :
    typeName ++ "." ++ methodName = "OrderService.Place" ↔
      typeName = "OrderService" ∧ methodName = "Place" := by
  constructor
  · intro h
    have hd := congrArg String.data h
    simp only [String.data_append, List.append_assoc] at hd
    have hd1 : typeName.data ++ '.' :: methodName.data =
        "OrderService".data ++ '.' :: "Place".data := hd
    obtain ⟨h1, h2⟩ := split_at_single '.' _ _ _ _ (by decide) (by decide) hd1
    exact ⟨String.ext h1, String.ext h2⟩
  · rintro ⟨rfl, rfl⟩
    decide

theorem FromFunctionInfo_names_of_failed (info : ICorProfilerInfo4) (functionId : Nat)
    (h : FAILED (info.GetFunctionInfo functionId).1 = true ∨
      FAILED (info.GetModuleMetaData (info.GetFunctionInfo functionId).2.1).1 = true ∨
      SUCCEEDED ((info.GetModuleMetaData (info.GetFunctionInfo functionId).2.1).2.GetMethodProps
        (info.GetFunctionInfo functionId).2.2).1 = false) :
    (MethodInfo.FromFunctionInfo info functionId).assemblyName = "" ∧
    (MethodInfo.FromFunctionInfo info functionId).className = "" ∧
    (MethodInfo.FromFunctionInfo info functionId).methodName = "" := by
  unfold MethodInfo.FromFunctionInfo
  by_cases h1 : FAILED (info.GetFunctionInfo functionId).1 = true
  · simp [h1, MethodInfo.construct]
  · by_cases h2 : FAILED (info.GetModuleMetaData (info.GetFunctionInfo functionId).2.1).1 = true
    · simp [h1, h2, MethodInfo.construct]
    · rcases h with h | h | h
      · exact absurd h h1
      · exact absurd h h2
      · simp [h1, h2, h, MethodInfo.construct]

/-! ## The registry -/

theorem exactlyRegistered_iff (reg : Registry) (a q : String) :
    ExactlyRegistered reg a q ↔ ∃ s, reg.lookup a = some s ∧ q ∈ s := by
  unfold ExactlyRegistered
  constructor
  · rintro ⟨s, hs, hq⟩
    exact ⟨s, AList.mem_lookup_iff.mpr hs, hq⟩
  · rintro ⟨s, hs, hq⟩
    exact ⟨s, AList.mem_lookup_iff.mp hs, hq⟩

theorem ShouldInstrumentMethod_iff (reg : Registry) (mi : MethodInfo) :
    ShouldInstrumentMethod reg mi = true ↔
      ∃ s, reg.lookup mi.assemblyName = some s ∧
        mi.className ++ "." ++ mi.methodName ∈ s := by
  unfold ShouldInstrumentMethod
  cases h : reg.lookup mi.assemblyName with
  | none => simp
  | some s => simp

theorem lookup_AddMethodToInstrument (reg : Registry) (a m b : String) :
    (AddMethodToInstrument reg a m).lookup b =
      if b = a then some (insert m ((reg.lookup a).getD ∅)) else reg.lookup b := by
  unfold AddMethodToInstrument
  by_cases h : b = a
  · subst h; simp
  · simp [h, AList.lookup_insert_ne h]

theorem lookup_RemoveMethodToInstrument (reg : Registry) (a m b : String) :
    (RemoveMethodToInstrument reg a m).lookup b =
      if b = a then
        (match reg.lookup a with
          | none => none
          | some s => if s.erase m = ∅ then none else some (s.erase m))
      else reg.lookup b := by
  unfold RemoveMethodToInstrument
  by_cases h : b = a
  · subst h
    cases hl : reg.lookup b with
    | none => simp [hl]
    | some s =>
      by_cases he : s.erase m = ∅
      · simp [he]
      · simp [he]
  · cases hl : reg.lookup a with
    | none => simp [h]
    | some s =>
      by_cases he : s.erase m = ∅
      · simp [he, h, AList.lookup_erase_ne h]
      · simp [he, h, AList.lookup_insert_ne h]

theorem registered_Add (reg : Registry) (a m b n : String) :
    (∃ s, (AddMethodToInstrument reg a m).lookup b = some s ∧ n ∈ s) ↔
      ((b = a ∧ n = m) ∨ ∃ s, reg.lookup b = some s ∧ n ∈ s) := by
  rw [lookup_AddMethodToInstrument]
  by_cases h : b = a
  · subst h
    cases hl : reg.lookup b with
    | none => simp
    | some s => simp
  · simp [h]

theorem registered_Remove (reg : Registry) (a m b n : String) :
    (∃ s, (RemoveMethodToInstrument reg a m).lookup b = some s ∧ n ∈ s) ↔
      ((∃ s, reg.lookup b = some s ∧ n ∈ s) ∧ ¬ (b = a ∧ n = m)) := by
  rw [lookup_RemoveMethodToInstrument]
  by_cases h : b = a
  · subst h
    cases hl : reg.lookup b with
    | none => simp
    | some s =>
      by_cases he : s.erase m = ∅
      · have : n ∈ s → n = m := by
          intro hn
          by_contra hne
          have : n ∈ s.erase m := Finset.mem_erase.mpr ⟨hne, hn⟩
          rw [he] at this
          simp at this
        simp [he]
        exact this
      · simp [he]
        tauto
  · simp [h]

theorem ShouldInstrumentMethod_Add (reg : Registry) (a q : String) (mi : MethodInfo) :
    ShouldInstrumentMethod (AddMethodToInstrument reg a q) mi =
      (decide (mi.assemblyName = a ∧ mi.className ++ "." ++ mi.methodName = q) ||
        ShouldInstrumentMethod reg mi) := by
  rw [Bool.eq_iff_iff, ShouldInstrumentMethod_iff, registered_Add, Bool.or_eq_true,
    ShouldInstrumentMethod_iff, decide_eq_true_eq]

theorem ShouldInstrumentMethod_Remove (reg : Registry) (a m : String) (mi : MethodInfo) :
    ShouldInstrumentMethod (RemoveMethodToInstrument reg a m) mi =
      if mi.assemblyName = a ∧ mi.className ++ "." ++ mi.methodName = m then false
      else ShouldInstrumentMethod reg mi := by
  rw [Bool.eq_iff_iff, ShouldInstrumentMethod_iff, registered_Remove]
  by_cases h : mi.assemblyName = a ∧ mi.className ++ "." ++ mi.methodName = m
  · simp [h]
  · rw [if_neg h, ShouldInstrumentMethod_iff]
    simp [h]

theorem ShouldInstrumentMethod_empty (mi : MethodInfo) :
    ShouldInstrumentMethod ∅ mi = false := by
  simp [ShouldInstrumentMethod]

theorem no_empty_entry_run (calls : List RegistryCall) : ∀ (reg : Registry),
    (∀ a, reg.lookup a ≠ some ∅) →
    ∀ a, (runRegistryCalls reg calls).lookup a ≠ some ∅ := by
  induction calls with
  | nil => intro reg h; exact h
  | cons c cs ih =>
    intro reg h
    apply ih
    intro b
    cases c with
    | add a m =>
      show (AddMethodToInstrument reg a m).lookup b ≠ some ∅
      rw [lookup_AddMethodToInstrument]
      by_cases hb : b = a
      · simp [hb]
      · simp [hb, h b]
    | remove a m =>
      show (RemoveMethodToInstrument reg a m).lookup b ≠ some ∅
      rw [lookup_RemoveMethodToInstrument]
      by_cases hb : b = a
      · rw [if_pos hb]
        cases hl : reg.lookup a with
        | none => simp
        | some s =>
          by_cases he : s.erase m = ∅
          · simp [he]
          · simp [he]
      · simp [hb, h b]

/-- A qualified name nobody adds stays out of the registry. -/
theorem not_eligible_run (mi : MethodInfo) (calls : List RegistryCall) : ∀ (reg : Registry),
    ShouldInstrumentMethod reg mi = false →
    RegistryCall.add mi.assemblyName (mi.className ++ "." ++ mi.methodName) ∉ calls →
    ShouldInstrumentMethod (runRegistryCalls reg calls) mi = false := by
  induction calls with
  | nil => intro reg h _; exact h
  | cons c cs ih =>
    intro reg h hc
    have hc1 : c ≠ RegistryCall.add mi.assemblyName (mi.className ++ "." ++ mi.methodName) :=
      fun e => hc (e ▸ List.mem_cons_self _ _)
    apply ih _ _ (fun hm => hc (List.mem_cons_of_mem _ hm))
    cases c with
    | add a m =>
      show ShouldInstrumentMethod (AddMethodToInstrument reg a m) mi = false
      rw [ShouldInstrumentMethod_Add, h, Bool.or_false, decide_eq_false_iff_not]
      rintro ⟨rfl, rfl⟩
      exact hc1 rfl
    | remove a m =>
      show ShouldInstrumentMethod (RemoveMethodToInstrument reg a m) mi = false
      rw [ShouldInstrumentMethod_Remove, h]
      simp

/-! ## The signature parser -/

theorem skipReturnType_argTypes (sigBlob : List Nat) (len : Nat) : ∀ (fuel : Nat) (s : SigParse),
    (MethodInfo.skipReturnType sigBlob len fuel s).argTypes = s.argTypes := by
  intro fuel
  induction fuel with
  | zero => intro s; rfl
  | succ n ih =>
    intro s
    unfold MethodInfo.skipReturnType
    split
    · split
      · rw [ih]
      · rfl
    · rfl

/-- The return-type loop ends where its condition fails, with the iterations it was given. -/
theorem skipReturnType_exit (sigBlob : List Nat) (len : Nat) : ∀ (fuel : Nat) (s : SigParse),
    len ≤ s.offset + fuel →
    ¬ ((MethodInfo.skipReturnType sigBlob len fuel s).offset < len ∧
      MethodInfo.sigByte sigBlob (MethodInfo.skipReturnType sigBlob len fuel s).offset ≠
        ELEMENT_TYPE_END) := by
  intro fuel
  induction fuel with
  | zero =>
    intro s h
    simp only [MethodInfo.skipReturnType]
    omega
  | succ n ih =>
    intro s h
    unfold MethodInfo.skipReturnType
    split
    · split
      · apply ih
        show len ≤ s.offset + 1 + n
        omega
      · rename_i h1 h2
        intro hc
        exact h2 hc.2
    · rename_i h1
      intro hc
      exact h1 hc.1

/-- Without a byte `ELEMENT_TYPE_END` the return-type loop runs to the end of the blob. -/
theorem skipReturnType_no_terminator (sigBlob : List Nat) (len : Nat) :
    ∀ (fuel : Nat) (s : SigParse),
    (∀ i, i < len → s.offset ≤ i → MethodInfo.sigByte sigBlob i ≠ ELEMENT_TYPE_END) →
    len ≤ s.offset + fuel →
    len ≤ (MethodInfo.skipReturnType sigBlob len fuel s).offset := by
  intro fuel
  induction fuel with
  | zero =>
    intro s _ h
    simp only [MethodInfo.skipReturnType]
    omega
  | succ n ih =>
    intro s hz h
    unfold MethodInfo.skipReturnType
    split
    · rename_i h1
      rw [if_pos (hz _ h1 (Nat.le_refl _))]
      apply ih
      · intro i hi hle
        exact hz i hi (by
          have : s.offset + 1 ≤ i := hle
          omega)
      · show len ≤ s.offset + 1 + n
        omega
    · omega

theorem readParameterTypes_of_le (metaData : MetaDataImport) (sigBlob : List Nat) (len : Nat)
    (remaining : Nat) (s : SigParse) (h : len ≤ s.offset) :
    MethodInfo.readParameterTypes metaData sigBlob len remaining s = s := by
  cases remaining with
  | zero => rfl
  | succ n =>
    unfold MethodInfo.readParameterTypes
    rw [if_neg (by omega)]

theorem parseSignature_no_terminator (metaData : MetaDataImport) (sigBlob : List Nat) (len : Nat)
    (hz : ∀ i, i < len → 2 ≤ i → MethodInfo.sigByte sigBlob i ≠ ELEMENT_TYPE_END) :
    (MethodInfo.parseSignature metaData sigBlob len).1 = MethodInfo.sigByte sigBlob 1 ∧
    (MethodInfo.parseSignature metaData sigBlob len).2.argTypes = [] := by
  unfold MethodInfo.parseSignature
  refine ⟨rfl, ?_⟩
  have h1 := skipReturnType_no_terminator sigBlob len len ⟨2, [], [0, 1]⟩ hz
    (by show len ≤ 2 + len; omega)
  simp only
  rw [readParameterTypes_of_le]
  · exact skipReturnType_argTypes sigBlob len len _
  · show len ≤ (MethodInfo.skipReturnType sigBlob len len ⟨2, [], [0, 1]⟩).offset + 1
    omega

theorem FromFunctionInfo_signature (info : ICorProfilerInfo4) (functionId : Nat)
    (sigBlob : List Nat)
    (h1 : FAILED (info.GetFunctionInfo functionId).1 = false)
    (h2 : FAILED (info.GetModuleMetaData (info.GetFunctionInfo functionId).2.1).1 = false)
    (h3 : SUCCEEDED ((info.GetModuleMetaData (info.GetFunctionInfo functionId).2.1).2.GetMethodProps
        (info.GetFunctionInfo functionId).2.2).1 = true)
    (h4 : ((info.GetModuleMetaData (info.GetFunctionInfo functionId).2.1).2.GetMethodProps
        (info.GetFunctionInfo functionId).2.2).2.sigBlob = some sigBlob) :
    (MethodInfo.FromFunctionInfo info functionId).argCount =
      (MethodInfo.parseSignature (info.GetModuleMetaData (info.GetFunctionInfo functionId).2.1).2
        sigBlob ((info.GetModuleMetaData (info.GetFunctionInfo functionId).2.1).2.GetMethodProps
          (info.GetFunctionInfo functionId).2.2).2.sigBlobLength).1 ∧
    (MethodInfo.FromFunctionInfo info functionId).argTypes =
      (MethodInfo.parseSignature (info.GetModuleMetaData (info.GetFunctionInfo functionId).2.1).2
        sigBlob ((info.GetModuleMetaData (info.GetFunctionInfo functionId).2.1).2.GetMethodProps
          (info.GetFunctionInfo functionId).2.2).2.sigBlobLength).2.argTypes := by
  unfold MethodInfo.FromFunctionInfo
  simp only [h1, h2, h3, h4, Bool.false_eq_true, if_false, if_true]
  constructor <;> split <;> split <;> split <;> rfl

/-! ## The lifecycle -/

theorem isShuttingDown_Initialize (unk : IUnknown) (s : Lifecycle) :
    (Initialize unk s).2.isShuttingDown = s.isShuttingDown := by
  unfold Initialize
  by_cases h1 : s.isInitialized = true
  · simp [h1]
  · by_cases h2 : FAILED unk.QueryInterface_ICorProfilerInfo4.1 = true
    · simp [h1, h2]
    · by_cases h3 : FAILED unk.QueryInterface_ICorProfilerInfo4.2.SetEventMask = true
      · simp [h1, h2, h3]
      · simp [h1, h2, h3]

theorem isShuttingDown_run (calls : List LifecycleCall) : ∀ s : Lifecycle,
    s.isShuttingDown = true → (runLifecycleCalls s calls).isShuttingDown = true := by
  induction calls with
  | nil => intro s h; exact h
  | cons c cs ih =>
    intro s h
    apply ih
    cases c with
    | Initialize unk =>
      show (AikidoProfiler.Initialize unk s).2.isShuttingDown = true
      rw [isShuttingDown_Initialize, h]
    | Shutdown => rfl

/-! ## The compile-time path -/

/-- When `Rewrite` submits a body, its prolog was written in full, so the cursor it leaves is
at least the 23 bytes of the shortest prolog. -/
theorem Rewrite_cursor_of_submitted (profilerInfo : ProfilerInfo) (rw : ILRewriter)
    (hg : FAILED (profilerInfo.GetModuleMetaData rw.methodInfo.moduleId).1 = false)
    (hsub : (ILRewriter.Rewrite profilerInfo rw).submitted ≠ none) :
    23 ≤ (ILRewriter.Rewrite profilerInfo rw).rw.currentILOffset := by
  cases ht : (ILRewriter.InsertProlog (profilerInfo.GetModuleMetaData rw.methodInfo.moduleId).2
      { rw with currentILOffset := 0 }).thrown with
  | some e =>
    rw [Rewrite_of_thrown hg ht] at hsub
    exact absurd rfl hsub
  | none =>
    obtain ⟨hrw, -, -⟩ := Rewrite_of_none hg ht
    obtain ⟨hP, -⟩ := InsertProlog_eq_of_none ht
    rw [hrw, hP]
    have hlen := length_prologBytes
      (localVarSigToken (profilerInfo.GetModuleMetaData rw.methodInfo.moduleId).2
        (ILRewriter.pushLocalVarSig { rw with currentILOffset := 0 }).localVarSig)
      (objectTypeRef (profilerInfo.GetModuleMetaData rw.methodInfo.moduleId).2 rw.isNetCore)
      (bridgeMethodRef (profilerInfo.GetModuleMetaData rw.methodInfo.moduleId).2) rw.methodInfo
    have h1 := (length_LoadConstantI4_le (rw.methodInfo.argCount : Int)).1
    simp only [ILRewriter.CopyOriginalIL, ILRewriter.memcpy, ILRewriter.appended,
      ILRewriter.pushLocalVarSig] at hlen ⊢
    omega

/-- What `Rewrite` returns once it has submitted a body: the failure of `SetILFunctionBody` if
it failed, and otherwise nothing, because the copy to the null `finalBuffer` has the whole
body, at least 23 bytes, to write. -/
theorem Rewrite_hr_of_submitted (profilerInfo : ProfilerInfo) (rw : ILRewriter)
    (hsub : (ILRewriter.Rewrite profilerInfo rw).submitted ≠ none) :
    (ILRewriter.Rewrite profilerInfo rw).hr =
      (if FAILED (profilerInfo.SetILFunctionBody
            (ILRewriter.Rewrite profilerInfo rw).rw.methodInfo.moduleId
            (ILRewriter.Rewrite profilerInfo rw).rw.methodInfo.methodToken
            (memoryImage (ILRewriter.Rewrite profilerInfo rw).rw)) = true then
        some (profilerInfo.SetILFunctionBody
          (ILRewriter.Rewrite profilerInfo rw).rw.methodInfo.moduleId
          (ILRewriter.Rewrite profilerInfo rw).rw.methodInfo.methodToken
          (memoryImage (ILRewriter.Rewrite profilerInfo rw).rw))
      else none) ∧
    (ILRewriter.Rewrite profilerInfo rw).copiedToNull =
      (if FAILED (profilerInfo.SetILFunctionBody
            (ILRewriter.Rewrite profilerInfo rw).rw.methodInfo.moduleId
            (ILRewriter.Rewrite profilerInfo rw).rw.methodInfo.methodToken
            (memoryImage (ILRewriter.Rewrite profilerInfo rw).rw)) = true then none
      else some (ILRewriter.Rewrite profilerInfo rw).rw.currentILOffset) := by
  have hg : FAILED (profilerInfo.GetModuleMetaData rw.methodInfo.moduleId).1 = false := by
    by_contra hc
    rw [Rewrite_of_failed (by simpa using hc)] at hsub
    exact hsub rfl
  have hcur := Rewrite_cursor_of_submitted profilerInfo rw hg hsub
  cases ht : (ILRewriter.InsertProlog (profilerInfo.GetModuleMetaData rw.methodInfo.moduleId).2
      { rw with currentILOffset := 0 }).thrown with
  | some e =>
    rw [Rewrite_of_thrown hg ht] at hsub
    exact absurd rfl hsub
  | none =>
    obtain ⟨-, -, hhr, hcopy⟩ := Rewrite_of_none hg ht
    refine ⟨?_, hcopy⟩
    rw [hhr]
    have hne : (ILRewriter.Rewrite profilerInfo rw).rw.currentILOffset ≠ 0 := by omega
    simp only [hne, or_false]

/-- No call of `Rewrite` returns a value that is not a failure. -/
theorem Rewrite_never_succeeds (profilerInfo : ProfilerInfo) (rw : ILRewriter) (hr : HRESULT)
    (h : (ILRewriter.Rewrite profilerInfo rw).hr = some hr) : FAILED hr = true := by
  by_cases hsub : (ILRewriter.Rewrite profilerInfo rw).submitted = none
  · by_cases hg : FAILED (profilerInfo.GetModuleMetaData rw.methodInfo.moduleId).1 = true
    · rw [Rewrite_of_failed hg] at h
      simp only [Option.some.injEq] at h
      rw [← h]
      exact hg
    · have hg2 : FAILED (profilerInfo.GetModuleMetaData rw.methodInfo.moduleId).1 = false := by
        simpa using hg
      cases ht : (ILRewriter.InsertProlog
          (profilerInfo.GetModuleMetaData rw.methodInfo.moduleId).2
          { rw with currentILOffset := 0 }).thrown with
      | some e =>
        rw [Rewrite_of_thrown hg2 ht] at h
        simp only [Option.some.injEq] at h
        rw [← h]
        exact FAILED_E_FAIL
      | none =>
        obtain ⟨-, hs, -, -⟩ := Rewrite_of_none hg2 ht
        rw [hs] at hsub
        exact absurd hsub (by simp)
  · rw [(Rewrite_hr_of_submitted profilerInfo rw hsub).1] at h
    split at h
    · rename_i hf
      simp only [Option.some.injEq] at h
      rw [← h]
      exact hf
    · exact absurd h (by simp)

end Activation

/-! ## The encoders -/

theorem byteOf_eq (v k : Nat) : byteOf v k = v / 2 ^ k % 256 := by
  unfold byteOf
  rw [Nat.shiftRight_eq_div_pow]
  exact Nat.and_pow_two_sub_one_eq_mod _ 8

theorem readLittleEndian32_bytes (t : Nat) (h : t < 2 ^ 32) :
    readLittleEndian32 [byteOf t 0, byteOf t 8, byteOf t 16, byteOf t 24] = t := by
  simp only [readLittleEndian32, byteOf_eq, List.getD_cons_zero, List.getD_cons_succ]
  norm_num
  omega

theorem byteOfInt_eq (v : Int) (k : Nat) : (byteOfInt v k : Int) = v / 2 ^ k % 256 := by
  unfold byteOfInt
  rw [Int.shiftRight_eq_div_pow]
  have hc : ((2 ^ k : Nat) : Int) = 2 ^ k := by push_cast; rfl
  rw [hc]
  exact Int.toNat_of_nonneg (Int.emod_nonneg (v / 2 ^ k) (show (256 : Int) ≠ 0 by decide))

theorem toInt32_bytesOfInt (v : Int) (h1 : -2 ^ 31 ≤ v) (h2 : v < 2 ^ 31) :
    toInt32 (readLittleEndian32
      [byteOfInt v 0, byteOfInt v 8, byteOfInt v 16, byteOfInt v 24]) = v := by
  have e0 := byteOfInt_eq v 0
  have e1 := byteOfInt_eq v 8
  have e2 := byteOfInt_eq v 16
  have e3 := byteOfInt_eq v 24
  norm_num at e0 e1 e2 e3
  simp only [readLittleEndian32, List.getD_cons_zero, List.getD_cons_succ]
  generalize byteOfInt v 0 = b0 at *
  generalize byteOfInt v 8 = b1 at *
  generalize byteOfInt v 16 = b2 at *
  generalize byteOfInt v 24 = b3 at *
  unfold toInt32
  norm_num at h1 h2 ⊢
  split <;> omega

theorem byteOfInt_natCast (i k : Nat) : byteOfInt (i : Int) k = i / 2 ^ k % 256 := by
  have h := byteOfInt_eq (i : Int) k
  have h2 : ((i / 2 ^ k % 256 : Nat) : Int) = (i : Int) / 2 ^ k % 256 := by push_cast; rfl
  rw [← h2] at h
  exact_mod_cast h

theorem decode_general_form (v : Int) (h1 : -2 ^ 31 ≤ v) (h2 : v < 2 ^ 31) :
    decodeLoadConstantI4
      [CEE_LDC_I4, byteOfInt v 0, byteOfInt v 8, byteOfInt v 16, byteOfInt v 24] = some v := by
  simp only [decodeLoadConstantI4, if_true, toInt32_bytesOfInt v h1 h2]

theorem LoadConstantI4_compact (v : Int) (hv : 0 ≤ v ∧ v ≤ 8) :
    ILInstructions.LoadConstantI4 v = [0x16 + v.toNat] := by
  have hcompact : toBYTE ((CEE_LDC_I4_0 : Int) + v) = 0x16 + v.toNat := by
    unfold toBYTE CEE_LDC_I4_0
    omega
  simp only [ILInstructions.LoadConstantI4, hv, and_self, if_true, hcompact]

theorem decode_LoadConstantI4 (v : Int) (h1 : -2 ^ 31 ≤ v) (h2 : v < 2 ^ 31) :
    decodeLoadConstantI4 (ILInstructions.LoadConstantI4 v) = some v := by
  by_cases hv : 0 ≤ v ∧ v ≤ 8
  · rw [LoadConstantI4_compact v hv]
    simp only [decodeLoadConstantI4, CEE_LDC_I4_0, CEE_LDC_I4_8]
    rw [if_pos (by omega)]
    congr 1
    omega
  · simp only [ILInstructions.LoadConstantI4, hv, if_false]
    exact decode_general_form v h1 h2

/-! ## The write pointer and the cursor move together -/

theorem movesTogether_leaf (rw : ILRewriter) (e : Option RewriteError) :
    MovesTogether rw ⟨e, rw⟩ := rfl

theorem movesTogether_emit (rw : ILRewriter) (il : List Nat) :
    MovesTogether rw (rw.emit il) := by
  by_cases hfit : rw.currentILOffset + il.length ≤ rw.ilBuffer.length
  · have h : rw.emit il = ⟨none, rw.appended il⟩ := by
      simp [ILRewriter.emit, ILRewriter.AdvanceIL, ILRewriter.memcpy, length_writeBytes,
        ILRewriter.appended, Nat.not_lt.mpr hfit]
    rw [h]
    simp only [MovesTogether, ILRewriter.appended]
    omega
  · have h : rw.emit il = ⟨some (.runtime_error "IL buffer overflow"), rw.memcpy il⟩ := by
      simp [ILRewriter.emit, ILRewriter.AdvanceIL, ILRewriter.memcpy, length_writeBytes,
        Nat.lt_of_not_le hfit]
    rw [h]
    simp [MovesTogether, ILRewriter.memcpy]

theorem movesTogether_EmitIL (rw : ILRewriter) (value : List Nat) :
    MovesTogether rw (rw.EmitIL value) := by
  by_cases hfit : rw.currentILOffset + value.length ≤ rw.ilBuffer.length
  · have h : rw.EmitIL value = ⟨none, rw.appended value⟩ := by
      simp [ILRewriter.EmitIL, ILRewriter.AdvanceIL, ILRewriter.memcpy, length_writeBytes,
        ILRewriter.appended, Nat.not_lt.mpr hfit]
    rw [h]
    simp only [MovesTogether, ILRewriter.appended]
    omega
  · have h : rw.EmitIL value = ⟨some (.runtime_error "IL buffer overflow"), rw⟩ := by
      simp [ILRewriter.EmitIL, Nat.lt_of_not_le hfit]
    rw [h]
    exact movesTogether_leaf _ _

theorem movesTogether_AdvanceIL (rw : ILRewriter) (bytes : Nat) :
    MovesTogether rw (rw.AdvanceIL bytes) := by
  unfold ILRewriter.AdvanceIL
  split
  · exact movesTogether_leaf _ _
  · simp only [MovesTogether]
    omega

theorem movesTogether_andThen {rw : ILRewriter} {o : Outcome} {f : ILRewriter → Outcome}
    (h₁ : MovesTogether rw o) (h₂ : ∀ r, MovesTogether r (f r)) :
    MovesTogether rw (o.andThen f) := by
  unfold Outcome.andThen
  cases ht : o.thrown with
  | some e => exact h₁
  | none =>
    have h := h₂ o.rw
    simp only [MovesTogether] at h₁ h ⊢
    omega

theorem movesTogether_ite {rw : ILRewriter} {c : Prop} [Decidable c] {o₁ o₂ : Outcome}
    (h₁ : MovesTogether rw o₁) (h₂ : MovesTogether rw o₂) :
    MovesTogether rw (if c then o₁ else o₂) := by
  split
  · exact h₁
  · exact h₂

theorem movesTogether_loadArgumentsLoop : ∀ (n i : Nat) (rw : ILRewriter),
    MovesTogether rw (ILRewriter.loadArgumentsLoop n i rw)
  | 0, _, rw => movesTogether_leaf rw none
  | n + 1, i, rw => by
    unfold ILRewriter.loadArgumentsLoop
    cases rw.methodInfo.argTypes.get? i with
    | none => exact movesTogether_leaf _ _
    | some t =>
      exact movesTogether_andThen
        (movesTogether_andThen (movesTogether_emit _ _) fun _ =>
          movesTogether_andThen
            (movesTogether_ite (movesTogether_emit _ _) (movesTogether_leaf _ _)) fun _ =>
            movesTogether_emit _ _)
        fun r => movesTogether_loadArgumentsLoop n (i + 1) r

theorem movesTogether_EmitLoadArguments (metaEmit : Option MetaDataEmit) (rw : ILRewriter) :
    MovesTogether rw (ILRewriter.EmitLoadArguments metaEmit rw) := by
  unfold ILRewriter.EmitLoadArguments
  cases metaEmit with
  | none => exact movesTogether_leaf _ _
  | some me =>
    refine movesTogether_ite (movesTogether_leaf _ _) ?_
    refine movesTogether_andThen (movesTogether_emit _ _) fun rw1 => ?_
    refine movesTogether_ite (movesTogether_leaf _ _) ?_
    refine movesTogether_ite (movesTogether_leaf _ _) ?_
    refine movesTogether_ite (movesTogether_leaf _ _) ?_
    refine movesTogether_andThen (movesTogether_emit _ _) fun rw2 => ?_
    refine movesTogether_andThen (movesTogether_emit _ _) fun rw3 => ?_
    refine movesTogether_andThen ?_ fun rw4 => movesTogether_loadArgumentsLoop _ _ _
    refine movesTogether_ite ?_ (movesTogether_leaf _ _)
    exact movesTogether_andThen (movesTogether_emit _ _) fun _ =>
      movesTogether_andThen
        (movesTogether_ite (movesTogether_emit _ _) (movesTogether_leaf _ _)) fun _ =>
        movesTogether_emit _ _

theorem movesTogether_EmitCallToManagedBridge (metaEmit : Option MetaDataEmit)
    (rw : ILRewriter) : MovesTogether rw (ILRewriter.EmitCallToManagedBridge metaEmit rw) := by
  unfold ILRewriter.EmitCallToManagedBridge
  cases metaEmit with
  | none => exact movesTogether_leaf _ _
  | some me =>
    refine movesTogether_ite (movesTogether_leaf _ _) ?_
    refine movesTogether_ite (movesTogether_leaf _ _) ?_
    refine movesTogether_ite (movesTogether_leaf _ _) ?_
    refine movesTogether_ite (movesTogether_leaf _ _) ?_
    exact movesTogether_andThen (movesTogether_emit _ _) fun _ =>
      movesTogether_andThen (movesTogether_emit _ _) fun _ => movesTogether_emit _ _

theorem movesTogether_InsertProlog (metaEmit : MetaDataEmit) (rw : ILRewriter) :
    MovesTogether rw.pushLocalVarSig (ILRewriter.InsertProlog metaEmit rw) := by
  unfold ILRewriter.InsertProlog
  refine movesTogether_ite (movesTogether_leaf _ _) ?_
  exact movesTogether_andThen (movesTogether_EmitIL _ _) fun _ =>
    movesTogether_andThen (movesTogether_EmitIL _ _) fun _ =>
      movesTogether_andThen (movesTogether_EmitLoadArguments _ _) fun _ =>
        movesTogether_EmitCallToManagedBridge _ _

theorem movesTogether_CopyOriginalIL (rw : ILRewriter) :
    MovesTogether rw ⟨none, ILRewriter.CopyOriginalIL rw⟩ := by
  simp only [MovesTogether, ILRewriter.CopyOriginalIL, ILRewriter.memcpy]
  omega

/-- What `Rewrite` does to the write pointer, the cursor and the local-variable signature
when the metadata interface is obtained: the cursor restarts at zero, the write pointer goes
on from where it was, and four more bytes are appended to the signature. -/
theorem Rewrite_pointer_and_signature (profilerInfo : ProfilerInfo) (rw : ILRewriter)
    (hg : FAILED (profilerInfo.GetModuleMetaData rw.methodInfo.moduleId).1 = false) :
    (ILRewriter.Rewrite profilerInfo rw).rw.newIL =
      rw.newIL + (ILRewriter.Rewrite profilerInfo rw).rw.currentILOffset ∧
    (ILRewriter.Rewrite profilerInfo rw).rw.localVarSig =
      rw.localVarSig ++
        [IMAGE_CEE_CS_CALLCONV_LOCAL_SIG, 1, ELEMENT_TYPE_SZARRAY, ELEMENT_TYPE_OBJECT] ∧
    (ILRewriter.Rewrite profilerInfo rw).rw.methodInfo = rw.methodInfo := by
  have hm := movesTogether_InsertProlog (profilerInfo.GetModuleMetaData rw.methodInfo.moduleId).2
    { rw with currentILOffset := 0 }
  obtain ⟨pm, -, ps, -, -⟩ := preserves_InsertProlog
    (profilerInfo.GetModuleMetaData rw.methodInfo.moduleId).2 { rw with currentILOffset := 0 }
  cases ht : (ILRewriter.InsertProlog (profilerInfo.GetModuleMetaData rw.methodInfo.moduleId).2
      { rw with currentILOffset := 0 }).thrown with
  | some e =>
    rw [Rewrite_of_thrown hg ht]
    simp only [MovesTogether, ILRewriter.pushLocalVarSig] at hm
    refine ⟨by simp only; omega, ?_, ?_⟩
    · simp only [ps, ILRewriter.pushLocalVarSig]
    · simp only [pm, ILRewriter.pushLocalVarSig]
  | none =>
    obtain ⟨hrw, -, -⟩ := Rewrite_of_none hg ht
    rw [hrw]
    have hc := movesTogether_CopyOriginalIL (ILRewriter.InsertProlog
      (profilerInfo.GetModuleMetaData rw.methodInfo.moduleId).2
      { rw with currentILOffset := 0 }).rw
    simp only [MovesTogether, ILRewriter.pushLocalVarSig] at hm hc
    refine ⟨by omega, ?_, ?_⟩
    · simp only [ILRewriter.CopyOriginalIL, ILRewriter.memcpy, ps, ILRewriter.pushLocalVarSig]
    · simp only [ILRewriter.CopyOriginalIL, ILRewriter.memcpy, pm, ILRewriter.pushLocalVarSig]

/-! ## What a completed `EmitLoadArguments` wrote -/

/-- When `EmitLoadArguments` completes, called with the write pointer at the cursor, the bytes
it wrote from the cursor on are the encoding of `loadArgumentsReference`. -/
theorem EmitLoadArguments_written (metaEmit : MetaDataEmit) (rw : ILRewriter)
    (hpos : rw.newIL = rw.currentILOffset)
    (hdone : (ILRewriter.EmitLoadArguments (some metaEmit) rw).thrown = none) :
    rw.methodInfo.argCount ≤ 1024 ∧
    rw.methodInfo.argCount ≤ rw.methodInfo.argTypes.length ∧
    ((ILRewriter.EmitLoadArguments (some metaEmit) rw).rw.ilBuffer.drop
      rw.currentILOffset).take
        (encodeAll (loadArgumentsReference (objectTypeRef metaEmit rw.isNetCore)
          rw.methodInfo)).length =
      encodeAll (loadArgumentsReference (objectTypeRef metaEmit rw.isNetCore)
        rw.methodInfo) := by
  obtain ⟨h1, h2, h3, h4, h5, h6⟩ := EmitLoadArguments_none hdone
  have he := emits_EmitLoadArguments metaEmit rw h1 h2 h4 h5 h6 h3
  generalize encodeAll (loadArgumentsReference (objectTypeRef metaEmit rw.isNetCore)
    rw.methodInfo) = il at he ⊢
  have hfit : rw.currentILOffset + il.length ≤ rw.ilBuffer.length := by
    by_contra hc
    have := he.2 (Nat.lt_of_not_le hc)
    rw [this] at hdone
    exact absurd hdone (by simp)
  refine ⟨h1, h2, ?_⟩
  rw [he.1 hfit]
  have hbuf : (rw.appended il).ilBuffer =
      rw.ilBuffer.take rw.currentILOffset ++ (il ++
        rw.ilBuffer.drop (rw.currentILOffset + il.length)) := by
    simp only [ILRewriter.appended, hpos]
    rw [writeBytes_eq _ _ _ hfit]
    simp
  have hl : (rw.ilBuffer.take rw.currentILOffset).length = rw.currentILOffset := by
    simp only [List.length_take]
    omega
  simp only [hbuf]
  rw [List.drop_left' hl, List.take_left]

theorem encodeAll_loadArgumentsReference_instance (t : Nat) (m : MethodInfo)
    (hinst : m.isStatic = false) :
    encodeAll (loadArgumentsReference t m) =
      encodeAll [.LoadConstantI4 m.argCount, .NewArray t, .StoreLocal 0] ++
        (encodeAll (slotStaging 0 m.isValueType m.typeToken) ++
          encodeAll (argumentStaging false 0 (m.argTypes.take m.argCount))) := by
  rw [loadArgumentsReference, encodeAll_append, stagingReference, hinst]
  simp only [Bool.false_eq_true, if_false, encodeAll_append]

theorem take_drop_of_prefix (buf a b c : List Nat) (k : Nat)
    (h : (buf.drop k).take (a ++ (b ++ c)).length = a ++ (b ++ c)) :
    (buf.drop (k + a.length)).take b.length = b := by
  have h1 : buf.drop k = (a ++ (b ++ c)) ++ (buf.drop k).drop (a ++ (b ++ c)).length := by
    conv_lhs => rw [← List.take_append_drop (a ++ (b ++ c)).length (buf.drop k), h]
  rw [← List.drop_drop, h1, List.append_assoc, List.drop_left, List.append_assoc, List.take_left]

/-! ## The runtime flag -/

theorem isNetCoreCache_foldl (ms : List MethodInfo) : ∀ cache : RuntimeCache,
    cache.isNetCoreCache = false →
    (ms.foldl (fun cache m => (ILRewriter.construct cache m).2) cache).isNetCoreCache =
      false := by
  induction ms with
  | nil => intro cache h; exact h
  | cons m ms ih =>
    intro cache h
    apply ih
    simp only [ILRewriter.construct, ILRewriter.DetectRuntimeStatic]
    split <;> exact h

theorem isNetCoreCache_staticsAfter (ms : List MethodInfo) :
    (staticsAfter ms).isNetCoreCache = false :=
  isNetCoreCache_foldl ms _ rfl

theorem construct_isNetCore (cache : RuntimeCache) (m : MethodInfo) :
    (ILRewriter.construct cache m).1.isNetCore = cache.isNetCoreCache := by
  simp only [ILRewriter.construct, ILRewriter.DetectRuntimeStatic]
  split <;> rfl

/-! ## The offsets the signature parser reads -/

theorem readParameterTypes_value_type (metaData : MetaDataImport) (sigBlob : List Nat)
    (len remaining : Nat) (s : SigParse) (h : s.offset < len)
    (hv : MethodInfo.sigByte sigBlob s.offset = ELEMENT_TYPE_VALUETYPE) :
    MethodInfo.readParameterTypes metaData sigBlob len (remaining + 1) s =
      MethodInfo.readParameterTypes metaData sigBlob len remaining
        { offset := s.offset + 1 + 4
          argTypes := s.argTypes ++
            [⟨MethodInfo.sigByte sigBlob (s.offset + 1) +
                256 * MethodInfo.sigByte sigBlob (s.offset + 1 + 1) +
                65536 * MethodInfo.sigByte sigBlob (s.offset + 1 + 2) +
                16777216 * MethodInfo.sigByte sigBlob (s.offset + 1 + 3), true,
              (metaData.GetTypeDefProps (MethodInfo.sigByte sigBlob (s.offset + 1) +
                256 * MethodInfo.sigByte sigBlob (s.offset + 1 + 1) +
                65536 * MethodInfo.sigByte sigBlob (s.offset + 1 + 2) +
                16777216 * MethodInfo.sigByte sigBlob (s.offset + 1 + 3))).2.1⟩]
          reads := s.reads ++
            [s.offset, s.offset + 1, s.offset + 1 + 1, s.offset + 1 + 2, s.offset + 1 + 3] } := by
  rw [MethodInfo.readParameterTypes]
  simp only [h, if_true, hv]

theorem reads_readParameterTypes (metaData : MetaDataImport) (sigBlob : List Nat)
    (len : Nat) : ∀ (remaining : Nat) (s : SigParse) (i : Nat), i ∈ s.reads →
    i ∈ (MethodInfo.readParameterTypes metaData sigBlob len remaining s).reads := by
  intro remaining
  induction remaining with
  | zero => intro s i hi; exact hi
  | succ n ih =>
    intro s i hi
    rw [MethodInfo.readParameterTypes]
    by_cases h : s.offset < len
    · by_cases hv : MethodInfo.sigByte sigBlob s.offset = ELEMENT_TYPE_VALUETYPE
      · simp only [h, if_true, hv]
        exact ih _ i (List.mem_append_left _ hi)
      · simp only [h, if_true, hv, if_false]
        exact ih _ i (List.mem_append_left _ hi)
    · simp only [h, if_false]
      exact hi

/-- The return-type loop stops on the first byte `ELEMENT_TYPE_END`. -/
theorem skipReturnType_stops_at (sigBlob : List Nat) (len z : Nat) (hz : z < len)
    (hzero : MethodInfo.sigByte sigBlob z = ELEMENT_TYPE_END) :
    ∀ (fuel : Nat) (s : SigParse), s.offset ≤ z → z < s.offset + fuel →
    (∀ i, i < z → s.offset ≤ i → MethodInfo.sigByte sigBlob i ≠ ELEMENT_TYPE_END) →
    (MethodInfo.skipReturnType sigBlob len fuel s).offset = z := by
  intro fuel
  induction fuel with
  | zero => intro s h1 h2 _; omega
  | succ n ih =>
    intro s h1 h2 hne
    rw [MethodInfo.skipReturnType]
    have hlt : s.offset < len := by omega
    by_cases he : s.offset = z
    · rw [if_pos hlt, he, hzero]
      simp only [ne_eq, not_true_eq_false, if_false]
    · have hb := hne s.offset (by omega) (Nat.le_refl _)
      rw [if_pos hlt, if_pos hb]
      apply ih
      · show s.offset + 1 ≤ z
        omega
      · show z < s.offset + 1 + n
        omega
      · intro i hi hle
        exact hne i hi (by
          have : s.offset + 1 ≤ i := hle
          omega)

theorem FromFunctionInfo_isValueType (info : ICorProfilerInfo4) (functionId : Nat)
    (h1 : FAILED (info.GetFunctionInfo functionId).1 = false)
    (h2 : FAILED (info.GetModuleMetaData (info.GetFunctionInfo functionId).2.1).1 = false)
    (h3 : SUCCEEDED ((info.GetModuleMetaData (info.GetFunctionInfo functionId).2.1).2.GetMethodProps
        (info.GetFunctionInfo functionId).2.2).1 = true)
    (h4 : SUCCEEDED ((info.GetModuleMetaData (info.GetFunctionInfo functionId).2.1).2.GetTypeDefProps
        ((info.GetModuleMetaData (info.GetFunctionInfo functionId).2.1).2.GetMethodProps
          (info.GetFunctionInfo functionId).2.2).2.typeDef).1 = true) :
    (MethodInfo.FromFunctionInfo info functionId).isValueType =
      decide (((info.GetModuleMetaData (info.GetFunctionInfo functionId).2.1).2.GetTypeDefProps
        ((info.GetModuleMetaData (info.GetFunctionInfo functionId).2.1).2.GetMethodProps
          (info.GetFunctionInfo functionId).2.2).2.typeDef).2.2 &&& tdClass = 0) ∧
    (MethodInfo.FromFunctionInfo info functionId).typeToken =
      ((info.GetModuleMetaData (info.GetFunctionInfo functionId).2.1).2.GetMethodProps
        (info.GetFunctionInfo functionId).2.2).2.typeDef ∧
    (MethodInfo.FromFunctionInfo info functionId).isStatic =
      decide (((info.GetModuleMetaData (info.GetFunctionInfo functionId).2.1).2.GetMethodProps
        (info.GetFunctionInfo functionId).2.2).2.methodAttr &&& mdStatic ≠ 0) := by
  unfold MethodInfo.FromFunctionInfo
  simp only [h1, h2, h3, h4, Bool.false_eq_true, if_false, if_true]
  refine ⟨?_, ?_, ?_⟩ <;> split <;> split <;> split <;> rfl

/-! ## The staged slots are what the helpers encode -/

theorem LoadArg_natCast (i : Nat) :
    ILInstructions.LoadArg (i : Int) =
      if i ≤ 3 then [0x02 + i] else [0x09, 0xFE, i % 256, i / 256 % 256] := by
  by_cases hi : i ≤ 3
  · have hb : toBYTE ((CEE_LDARG_0 : Int) + (i : Int)) = 0x02 + i := by
      unfold toBYTE CEE_LDARG_0
      omega
    have hle : (i : Int) ≤ 3 := by omega
    simp only [ILInstructions.LoadArg, hle, if_true, hb, hi]
  · have hgt : ¬ ((i : Int) ≤ 3) := by omega
    have h0 : byteOf CEE_LDARG 0 = 0x09 := by decide
    have h8 : byteOf CEE_LDARG 8 = 0xFE := by decide
    simp only [ILInstructions.LoadArg, hgt, if_false, h0, h8, byteOfInt_natCast, hi]
    norm_num

theorem Box_bytes (t : Nat) :
    ILInstructions.Box t =
      [0x8C, t % 256, t / 256 % 256, t / 65536 % 256, t / 16777216 % 256] := by
  simp [ILInstructions.Box, byteOf_eq, CEE_BOX]

theorem NewArray_bytes (t : Nat) :
    ILInstructions.NewArray t =
      [0x8D, t % 256, t / 256 % 256, t / 65536 % 256, t / 16777216 % 256] := by
  simp [ILInstructions.NewArray, byteOf_eq, CEE_NEWARR]

theorem LoadConstantI4_natCast (n : Nat) :
    ILInstructions.LoadConstantI4 (n : Int) =
      if n ≤ 8 then [0x16 + n]
      else [0x20, n % 256, n / 256 % 256, n / 65536 % 256, n / 16777216 % 256] := by
  by_cases hn : n ≤ 8
  · have hb : toBYTE ((CEE_LDC_I4_0 : Int) + (n : Int)) = 0x16 + n := by
      unfold toBYTE CEE_LDC_I4_0
      omega
    have hle : 0 ≤ (n : Int) ∧ (n : Int) ≤ 8 := by omega
    simp only [ILInstructions.LoadConstantI4, hle, and_self, if_true, hb, hn]
  · have hgt : ¬ (0 ≤ (n : Int) ∧ (n : Int) ≤ 8) := by omega
    simp only [ILInstructions.LoadConstantI4, hgt, if_false, byteOfInt_natCast, hn, CEE_LDC_I4]
    norm_num

theorem encodeAll_slotStaging_bytes (i : Nat) (vt : Bool) (t : Nat) :
    encodeAll (slotStaging i vt t) = slotBytes i vt t := by
  cases vt <;>
    simp [slotStaging, encodeAll, Instr.encode, slotBytes, LoadArg_natCast, Box_bytes,
      ILInstructions.StoreElementRef, CEE_STELEM_REF]

theorem encodeAll_argumentStaging_bytes (isStatic : Bool) :
    ∀ (ts : List TypeInfo) (i : Nat),
      encodeAll (argumentStaging isStatic i ts) = (argumentSlots isStatic i ts).flatten
  | [], _ => by simp [argumentStaging, argumentSlots, encodeAll]
  | t :: ts, i => by
    rw [argumentStaging, encodeAll_append, encodeAll_argumentStaging_bytes isStatic ts (i + 1),
      argumentSlots, List.flatten_cons]
    congr 1
    cases isStatic
    · exact encodeAll_slotStaging_bytes (i + 1) t.isValueType t.typeToken
    · exact encodeAll_slotStaging_bytes i t.isValueType t.typeToken

theorem encodeAll_stagingReference_bytes (m : MethodInfo) :
    encodeAll (stagingReference m) = (stagedSlots m).flatten := by
  rw [stagingReference, encodeAll_append, encodeAll_argumentStaging_bytes, stagedSlots,
    List.flatten_append]
  congr 1
  cases m.isStatic
  · simp [encodeAll_slotStaging_bytes]
  · simp [encodeAll]

theorem encodeAll_arrayCreation_bytes (n t : Nat) :
    encodeAll [.LoadConstantI4 (n : Int), .NewArray t, .StoreLocal 0] =
      arrayCreationBytes n t := by
  simp only [encodeAll, Instr.encode, LoadConstantI4_natCast, NewArray_bytes, arrayCreationBytes,
    List.append_nil, List.append_assoc]
  congr 2

theorem length_argumentSlots (isStatic : Bool) :
    ∀ (ts : List TypeInfo) (i : Nat), (argumentSlots isStatic i ts).length = ts.length
  | [], _ => rfl
  | t :: ts, i => by
    rw [argumentSlots, List.length_cons, length_argumentSlots isStatic ts (i + 1),
      List.length_cons]

theorem getElem?_argumentSlots (isStatic : Bool) :
    ∀ (ts : List TypeInfo) (i k : Nat) (t : TypeInfo), ts[k]? = some t →
      (argumentSlots isStatic i ts)[k]? =
        some (slotBytes (if isStatic then i + k else i + k + 1) t.isValueType t.typeToken)
  | [], _, k, t, h => by simp at h
  | x :: xs, i, 0, t, h => by
    simp only [List.getElem?_cons_zero, Option.some.injEq] at h
    subst h
    simp [argumentSlots]
  | x :: xs, i, k + 1, t, h => by
    simp only [List.getElem?_cons_succ] at h
    rw [argumentSlots, List.getElem?_cons_succ, getElem?_argumentSlots isStatic xs (i + 1) k t h]
    congr 2
    cases isStatic <;> simp <;> omega

section ActivationFailures

open AikidoProfiler

/-! ## When the activation fails -/

theorem issue_failed_iff (f : Nat → Nat → HRESULT) (l : List (Nat × Nat)) :
    FAILED (issue f l).toResult.hr = true ↔ ∃ r ∈ l, FAILED (f r.1 r.2) = true := by
  induction l with
  | nil => simp [issue, Scan.toResult, FAILED_S_OK]
  | cons r rs ih =>
    by_cases h : FAILED (f r.1 r.2) = true
    · simp only [issue, h, if_true, Scan.toResult, List.mem_cons, true_iff]
      exact ⟨r, Or.inl rfl, h⟩
    · have hs : (Scan.andThen ⟨[r], none⟩ (issue f rs)).toResult.hr =
          (issue f rs).toResult.hr := by
        rcases issue f rs with ⟨xs, _ | hr⟩ <;> rfl
      simp only [issue, h, Bool.false_eq_true, if_false, hs, ih, List.mem_cons]
      constructor
      · rintro ⟨x, hx, hf⟩
        exact ⟨x, Or.inr hx, hf⟩
      · rintro ⟨x, hx | hx, hf⟩
        · rw [hx] at hf
          exact absurd hf h
        · exact ⟨x, hx, hf⟩

/-- The value `RequestReJITForModule` returns when the metadata or the scope name of the
module cannot be obtained: the `HRESULT` of the lookup that failed, with no request made. -/
theorem RequestReJITForModule_eq_of_failed (info : ICorProfilerInfo4) (moduleId : Nat)
    (a q : String)
    (h : FAILED (info.GetModuleMetaData moduleId).1 = true ∨
      FAILED (info.GetModuleMetaData moduleId).2.GetScopeProps.1 = true) :
    RequestReJITForModule info moduleId a q =
      ⟨if FAILED (info.GetModuleMetaData moduleId).1 = true then
          (info.GetModuleMetaData moduleId).1
        else (info.GetModuleMetaData moduleId).2.GetScopeProps.1, []⟩ := by
  unfold RequestReJITForModule
  by_cases hg : FAILED (info.GetModuleMetaData moduleId).1 = true
  · simp [hg]
  · rcases h with h | h
    · exact absurd h hg
    · simp [hg, h]

theorem RequestReJITForModule_failed_iff (info : ICorProfilerInfo4) (moduleId : Nat)
    (a q : String) :
    FAILED (RequestReJITForModule info moduleId a q).hr = true ↔
      FAILED (info.GetModuleMetaData moduleId).1 = true ∨
      FAILED (info.GetModuleMetaData moduleId).2.GetScopeProps.1 = true ∨
      ∃ r ∈ moduleRequests info a q moduleId, FAILED (info.RequestReJIT r.1 r.2) = true := by
  by_cases hg : FAILED (info.GetModuleMetaData moduleId).1 = true
  · simp [(RequestReJITForModule_of_failed info moduleId a q (Or.inl hg)).1, hg]
  · by_cases hs : FAILED (info.GetModuleMetaData moduleId).2.GetScopeProps.1 = true
    · simp [(RequestReJITForModule_of_failed info moduleId a q (Or.inr hs)).1, hs]
    · rw [RequestReJITForModule_eq info moduleId a q (by simpa using hg) (by simpa using hs),
        issue_failed_iff]
      simp [hg, hs]

theorem moduleLoop_failed_iff (info : ICorProfilerInfo4) (a q : String) (modules : List Nat) :
    FAILED (moduleLoop info a q modules).hr = true ↔
      ∃ moduleId ∈ modules, FAILED (RequestReJITForModule info moduleId a q).hr = true := by
  induction modules with
  | nil => simp [moduleLoop, FAILED_S_OK]
  | cons m ms ih =>
    by_cases h : FAILED (RequestReJITForModule info m a q).hr = true
    · simp only [moduleLoop, h, if_true, List.mem_cons, true_iff]
      exact ⟨m, Or.inl rfl, h⟩
    · simp only [moduleLoop, h, Bool.false_eq_true, if_false, ih, List.mem_cons]
      constructor
      · rintro ⟨x, hx, hf⟩
        exact ⟨x, Or.inr hx, hf⟩
      · rintro ⟨x, hx | hx, hf⟩
        · rw [hx] at hf
          exact absurd hf h
        · exact ⟨x, hx, hf⟩

/-- The module loop over a list whose front part is scanned without a failure: the value
returned is that of the rest, after the requests of the front part. -/
theorem moduleLoop_append_of_ok (info : ICorProfilerInfo4) (a q : String) (rest : List Nat) :
    ∀ pre : List Nat, FAILED (moduleLoop info a q pre).hr = false →
      moduleLoop info a q (pre ++ rest) =
        ⟨(moduleLoop info a q rest).hr,
          (moduleLoop info a q pre).requests ++ (moduleLoop info a q rest).requests⟩ := by
  intro pre
  induction pre with
  | nil => intro _; simp [moduleLoop]
  | cons m ms ih =>
    intro h
    by_cases hf : FAILED (RequestReJITForModule info m a q).hr = true
    · simp only [moduleLoop, hf, if_true] at h
      exact absurd h (by simp)
    · simp only [moduleLoop, hf, Bool.false_eq_true, if_false] at h
      have e := ih h
      simp only [List.cons_append, moduleLoop, hf, Bool.false_eq_true, if_false,
        List.append_assoc, List.append_eq]
      rw [e]

theorem RequestReJIT_eq_moduleLoop (info : ICorProfilerInfo4) (reg : Registry) (a q : String)
    (he : FAILED info.EnumModules.1 = false) :
    RequestReJIT (some info) reg a q =
      ⟨(moduleLoop info a q (collectModules info.EnumModules.2)).hr,
        AddMethodToInstrument reg a q,
        (moduleLoop info a q (collectModules info.EnumModules.2)).requests⟩ := by
  unfold RequestReJIT
  simp only [he, Bool.false_eq_true, if_false]

theorem RequestReJIT_of_failed_enumeration (info : ICorProfilerInfo4) (reg : Registry)
    (a q : String) (he : FAILED info.EnumModules.1 = true) :
    RequestReJIT (some info) reg a q =
      ⟨info.EnumModules.1, AddMethodToInstrument reg a q, []⟩ := by
  unfold RequestReJIT
  simp only [he, if_true]

end ActivationFailures

/-! ## When `Rewrite` submits a body -/

theorem Rewrite_submitted_eq_none_iff (profilerInfo : ProfilerInfo) (rw : ILRewriter) :
    (ILRewriter.Rewrite profilerInfo rw).submitted = none ↔
      FAILED (profilerInfo.GetModuleMetaData rw.methodInfo.moduleId).1 = true ∨
      (ILRewriter.InsertProlog (profilerInfo.GetModuleMetaData rw.methodInfo.moduleId).2
        { rw with currentILOffset := 0 }).thrown ≠ none := by
  by_cases hg : FAILED (profilerInfo.GetModuleMetaData rw.methodInfo.moduleId).1 = true
  · rw [Rewrite_of_failed hg]
    simp [hg]
  · have hg2 : FAILED (profilerInfo.GetModuleMetaData rw.methodInfo.moduleId).1 = false := by
      simpa using hg
    cases ht : (ILRewriter.InsertProlog
        (profilerInfo.GetModuleMetaData rw.methodInfo.moduleId).2
        { rw with currentILOffset := 0 }).thrown with
    | some e =>
      rw [Rewrite_of_thrown hg2 ht]
      simp
    | none =>
      obtain ⟨-, hs, -, -⟩ := Rewrite_of_none hg2 ht
      rw [hs]
      simp [hg]

/-! ## The claims -/

/-- C1 (the code does otherwise): `Rewrite` never succeeds. For every descriptor `m` whose
original body `m.ilCode` has `codeSize` bytes and every host, when `Rewrite` on the freshly
constructed rewriter submits a body, `InsertProlog` has completed with a prolog `P` (the bytes
in front of the cursor), the memory submitted to `SetILFunctionBody` is `P` followed by the
original body, unmodified and once, followed only by the zero bytes the buffer was created
with, and the final cursor is `|P| + codeSize`, which is at least 23: so far the rewrite is
what the claim says of a successful one. But when the host accepts that body the call does not
return: `finalBuffer` is the null pointer and `MemoryCopy` is asked to copy `|P| + codeSize`
bytes to it. When the host rejects the body, `Rewrite` returns the rejection. So no call of
`Rewrite`, on any rewriter, returns a value that is not a failure.
The submitted memory is what the pointer `ilBuffer.data()` designates: when the final cursor
is inside the buffer it is the content of the vector `ilBuffer` and nothing was written out of
bounds; where the copy of the body runs past the end of the vector (C7) it includes the bytes
written behind it. -/
theorem C1_submitted_body_and_no_successful_return (profilerInfo : ProfilerInfo)
    (cache : RuntimeCache) (m : MethodInfo) (hB : m.ilCode.length = m.codeSize)
    (hsub : (ILRewriter.Rewrite profilerInfo (ILRewriter.construct cache m).1).submitted ≠
      none) :
    (∃ (P : List Nat) (padding : Nat),
      (ILRewriter.InsertProlog (profilerInfo.GetModuleMetaData m.moduleId).2
        (ILRewriter.construct cache m).1).thrown = none ∧
      P = (ILRewriter.InsertProlog (profilerInfo.GetModuleMetaData m.moduleId).2
        (ILRewriter.construct cache m).1).rw.ilBuffer.take
          (ILRewriter.InsertProlog (profilerInfo.GetModuleMetaData m.moduleId).2
            (ILRewriter.construct cache m).1).rw.currentILOffset ∧
      P.length = (ILRewriter.InsertProlog (profilerInfo.GetModuleMetaData m.moduleId).2
        (ILRewriter.construct cache m).1).rw.currentILOffset ∧
      (ILRewriter.Rewrite profilerInfo (ILRewriter.construct cache m).1).submitted =
        some (m.moduleId, m.methodToken, P ++ m.ilCode ++ List.replicate padding 0) ∧
      (ILRewriter.Rewrite profilerInfo (ILRewriter.construct cache m).1).rw.currentILOffset =
        P.length + m.codeSize ∧
      23 ≤ P.length + m.codeSize ∧
      ((ILRewriter.Rewrite profilerInfo (ILRewriter.construct cache m).1).rw.currentILOffset ≤
          (ILRewriter.Rewrite profilerInfo (ILRewriter.construct cache m).1).rw.ilBuffer.length →
        (ILRewriter.Rewrite profilerInfo (ILRewriter.construct cache m).1).rw.outOfBounds = [] ∧
        (ILRewriter.Rewrite profilerInfo (ILRewriter.construct cache m).1).rw.ilBuffer =
          P ++ m.ilCode ++ List.replicate padding 0) ∧
      (FAILED (profilerInfo.SetILFunctionBody m.moduleId m.methodToken
          (P ++ m.ilCode ++ List.replicate padding 0)) = false →
        (ILRewriter.Rewrite profilerInfo (ILRewriter.construct cache m).1).hr = none ∧
        (ILRewriter.Rewrite profilerInfo (ILRewriter.construct cache m).1).copiedToNull =
          some (P.length + m.codeSize)) ∧
      (FAILED (profilerInfo.SetILFunctionBody m.moduleId m.methodToken
          (P ++ m.ilCode ++ List.replicate padding 0)) = true →
        (ILRewriter.Rewrite profilerInfo (ILRewriter.construct cache m).1).hr =
          some (profilerInfo.SetILFunctionBody m.moduleId m.methodToken
            (P ++ m.ilCode ++ List.replicate padding 0)) ∧
        (ILRewriter.Rewrite profilerInfo (ILRewriter.construct cache m).1).copiedToNull =
          none)) ∧
    ∀ (rw : ILRewriter) (hr : HRESULT),
      (ILRewriter.Rewrite profilerInfo rw).hr = some hr → FAILED hr = true := by
  refine ⟨?_, fun rw hr h => Rewrite_never_succeeds profilerInfo rw hr h⟩
  have hmi : (ILRewriter.construct cache m).1.methodInfo = m := construct_methodInfo cache m
  have hreset : ({ (ILRewriter.construct cache m).1 with currentILOffset := 0 } : ILRewriter) =
      (ILRewriter.construct cache m).1 := reset_cursor_eq (construct_currentILOffset cache m)
  have hnone := (not_congr (Rewrite_submitted_eq_none_iff profilerInfo
    (ILRewriter.construct cache m).1)).mp hsub
  have hg : FAILED (profilerInfo.GetModuleMetaData
      (ILRewriter.construct cache m).1.methodInfo.moduleId).1 = false := by
    by_contra hc
    exact hnone (Or.inl (by simpa using hc))
  have ht : (ILRewriter.InsertProlog (profilerInfo.GetModuleMetaData
      (ILRewriter.construct cache m).1.methodInfo.moduleId).2
      { (ILRewriter.construct cache m).1 with currentILOffset := 0 }).thrown = none := by
    by_contra hc
    exact hnone (Or.inr hc)
  have hcur23 := Rewrite_cursor_of_submitted profilerInfo (ILRewriter.construct cache m).1 hg
    hsub
  obtain ⟨hhr, hcopy⟩ := Rewrite_hr_of_submitted profilerInfo (ILRewriter.construct cache m).1
    hsub
  obtain ⟨hrw, hsubeq, -, -⟩ := Rewrite_of_none hg ht
  rw [hreset, hmi] at ht hrw
  obtain ⟨pm, -, -, -, pw⟩ := preserves_InsertProlog (profilerInfo.GetModuleMetaData m.moduleId).2
    (ILRewriter.construct cache m).1
  have hw := pw ht (wellPositioned_pushLocalVarSig (wellPositioned_construct cache m))
  have pm' : (ILRewriter.InsertProlog (profilerInfo.GetModuleMetaData m.moduleId).2
      (ILRewriter.construct cache m).1).rw.methodInfo = m := pm.trans hmi
  generalize (ILRewriter.InsertProlog (profilerInfo.GetModuleMetaData m.moduleId).2
      (ILRewriter.construct cache m).1) = o at ht hrw hw pm' ⊢
  generalize ILRewriter.Rewrite profilerInfo (ILRewriter.construct cache m).1 = r
    at hrw hsubeq hhr hcopy hcur23 ⊢
  have hlen : (o.rw.ilBuffer.take o.rw.currentILOffset).length = o.rw.currentILOffset := by
    have := hw.2.1
    simp
    omega
  have himg := memoryImage_CopyOriginalIL hw (by rw [pm']; exact hB)
  rw [pm'] at himg
  have hcur : (ILRewriter.CopyOriginalIL o.rw).currentILOffset =
      o.rw.currentILOffset + m.codeSize := by
    simp [ILRewriter.CopyOriginalIL, ILRewriter.memcpy, pm']
  have hbuflen : (ILRewriter.CopyOriginalIL o.rw).ilBuffer.length = o.rw.ilBuffer.length := by
    simp [ILRewriter.CopyOriginalIL, ILRewriter.memcpy, length_writeBytes]
  have hmeth : r.rw.methodInfo = m := by
    rw [hrw]
    simp [ILRewriter.CopyOriginalIL, ILRewriter.memcpy, pm']
  have hcursor : r.rw.currentILOffset =
      (o.rw.ilBuffer.take o.rw.currentILOffset).length + m.codeSize := by
    rw [hrw, hlen, hcur]
  have himage : memoryImage r.rw = o.rw.ilBuffer.take o.rw.currentILOffset ++ m.ilCode ++
      List.replicate (o.rw.ilBuffer.length - o.rw.currentILOffset - m.codeSize) 0 := by
    rw [hrw, himg]
  rw [hmeth, himage] at hhr
  rw [hmeth, himage, hcursor] at hcopy
  rw [hcursor] at hcur23
  refine ⟨_, o.rw.ilBuffer.length - o.rw.currentILOffset - m.codeSize, ht, rfl, hlen, ?_,
    hcursor, hcur23, ?_, ?_, ?_⟩
  · rw [hsubeq, hmeth, himage]
  · rw [hrw, hcur, hbuflen]
    intro hfit
    have h := CopyOriginalIL_of_fits hw (by rw [pm']; exact hB) (by rw [pm']; exact hfit)
    rw [pm'] at h
    exact h
  · intro hf
    rw [hhr, hcopy, if_neg (by rw [hf]; simp), if_neg (by rw [hf]; simp)]
    exact ⟨rfl, rfl⟩
  · intro hf
    rw [hhr, hcopy, if_pos hf, if_pos hf]
    exact ⟨rfl, rfl⟩

set_option maxRecDepth 100000 in
/-- Witness of C1: the rewrite of the static one-argument method `A!C.M` with body `ret` on a
host that accepts the new body: the body is submitted and the call does not return. -/
theorem C1_submitted_body_and_no_successful_return_witness :
    staticOneReferenceArg.ilCode.length = staticOneReferenceArg.codeSize ∧
    (ILRewriter.Rewrite sampleHost
      (ILRewriter.construct .initial staticOneReferenceArg).1).submitted ≠ none ∧
    (ILRewriter.Rewrite sampleHost
      (ILRewriter.construct .initial staticOneReferenceArg).1).hr = none ∧
    (ILRewriter.Rewrite sampleHost
      (ILRewriter.construct .initial staticOneReferenceArg).1).copiedToNull = some 26 ∧
    ((∃ (P : List Nat) (padding : Nat),
      (ILRewriter.InsertProlog (sampleHost.GetModuleMetaData staticOneReferenceArg.moduleId).2
        (ILRewriter.construct .initial staticOneReferenceArg).1).thrown = none ∧
      P = (ILRewriter.InsertProlog
        (sampleHost.GetModuleMetaData staticOneReferenceArg.moduleId).2
        (ILRewriter.construct .initial staticOneReferenceArg).1).rw.ilBuffer.take
          (ILRewriter.InsertProlog
            (sampleHost.GetModuleMetaData staticOneReferenceArg.moduleId).2
            (ILRewriter.construct .initial staticOneReferenceArg).1).rw.currentILOffset ∧
      P.length = (ILRewriter.InsertProlog
        (sampleHost.GetModuleMetaData staticOneReferenceArg.moduleId).2
        (ILRewriter.construct .initial staticOneReferenceArg).1).rw.currentILOffset ∧
      (ILRewriter.Rewrite sampleHost
        (ILRewriter.construct .initial staticOneReferenceArg).1).submitted =
        some (staticOneReferenceArg.moduleId, staticOneReferenceArg.methodToken,
          P ++ staticOneReferenceArg.ilCode ++ List.replicate padding 0) ∧
      (ILRewriter.Rewrite sampleHost
        (ILRewriter.construct .initial staticOneReferenceArg).1).rw.currentILOffset =
        P.length + staticOneReferenceArg.codeSize ∧
      23 ≤ P.length + staticOneReferenceArg.codeSize ∧
      ((ILRewriter.Rewrite sampleHost
          (ILRewriter.construct .initial staticOneReferenceArg).1).rw.currentILOffset ≤
          (ILRewriter.Rewrite sampleHost
            (ILRewriter.construct .initial staticOneReferenceArg).1).rw.ilBuffer.length →
        (ILRewriter.Rewrite sampleHost
          (ILRewriter.construct .initial staticOneReferenceArg).1).rw.outOfBounds = [] ∧
        (ILRewriter.Rewrite sampleHost
          (ILRewriter.construct .initial staticOneReferenceArg).1).rw.ilBuffer =
          P ++ staticOneReferenceArg.ilCode ++ List.replicate padding 0) ∧
      (FAILED (sampleHost.SetILFunctionBody staticOneReferenceArg.moduleId
          staticOneReferenceArg.methodToken
          (P ++ staticOneReferenceArg.ilCode ++ List.replicate padding 0)) = false →
        (ILRewriter.Rewrite sampleHost
          (ILRewriter.construct .initial staticOneReferenceArg).1).hr = none ∧
        (ILRewriter.Rewrite sampleHost
          (ILRewriter.construct .initial staticOneReferenceArg).1).copiedToNull =
          some (P.length + staticOneReferenceArg.codeSize)) ∧
      (FAILED (sampleHost.SetILFunctionBody staticOneReferenceArg.moduleId
          staticOneReferenceArg.methodToken
          (P ++ staticOneReferenceArg.ilCode ++ List.replicate padding 0)) = true →
        (ILRewriter.Rewrite sampleHost
          (ILRewriter.construct .initial staticOneReferenceArg).1).hr =
          some (sampleHost.SetILFunctionBody staticOneReferenceArg.moduleId
            staticOneReferenceArg.methodToken
            (P ++ staticOneReferenceArg.ilCode ++ List.replicate padding 0)) ∧
        (ILRewriter.Rewrite sampleHost
          (ILRewriter.construct .initial staticOneReferenceArg).1).copiedToNull = none)) ∧
    ∀ (rw : ILRewriter) (hr : HRESULT),
      (ILRewriter.Rewrite sampleHost rw).hr = some hr → FAILED hr = true) :=
  ⟨rfl, by decide, by decide, by decide,
    C1_submitted_body_and_no_successful_return sampleHost .initial staticOneReferenceArg rfl
      (by decide)⟩

/-- C2: rewriting is all-or-nothing. For every host and every rewriter, if a step before the
submission fails, `Rewrite` returns a failed `HRESULT` and `SetILFunctionBody` is not called.
The failing step may be any of: the module metadata is unavailable; a token, reference or
signature is not resolved by the metadata interface; the argument count exceeds 1024; an
argument-type entry is missing; the prolog does not fit the buffer; or, generally, any
exception thrown inside `InsertProlog`. -/
theorem C2_rewrite_all_or_nothing (profilerInfo : ProfilerInfo) (rw : ILRewriter)
    (hfail :
      FAILED (profilerInfo.GetModuleMetaData rw.methodInfo.moduleId).1 = true ∨
      ¬ CollaboratorSucceeds (profilerInfo.GetModuleMetaData rw.methodInfo.moduleId).2 rw ∨
      1024 < rw.methodInfo.argCount ∨
      rw.methodInfo.argTypes.length < rw.methodInfo.argCount ∨
      rw.ilBuffer.length < (prologBytes
        (localVarSigToken (profilerInfo.GetModuleMetaData rw.methodInfo.moduleId).2
          rw.pushLocalVarSig.localVarSig)
        (objectTypeRef (profilerInfo.GetModuleMetaData rw.methodInfo.moduleId).2 rw.isNetCore)
        (bridgeMethodRef (profilerInfo.GetModuleMetaData rw.methodInfo.moduleId).2)
        rw.methodInfo).length ∨
      (ILRewriter.InsertProlog (profilerInfo.GetModuleMetaData rw.methodInfo.moduleId).2
        { rw with currentILOffset := 0 }).thrown ≠ none) :
    (∃ hr : HRESULT, (ILRewriter.Rewrite profilerInfo rw).hr = some hr ∧ FAILED hr = true) ∧
    (ILRewriter.Rewrite profilerInfo rw).submitted = none := by
  by_cases hg : FAILED (profilerInfo.GetModuleMetaData rw.methodInfo.moduleId).1 = true
  · rw [Rewrite_of_failed hg]
    exact ⟨⟨_, rfl, hg⟩, rfl⟩
  have hthrown : (ILRewriter.InsertProlog
      (profilerInfo.GetModuleMetaData rw.methodInfo.moduleId).2
      { rw with currentILOffset := 0 }).thrown ≠ none := by
    intro hn
    obtain ⟨hc, h1, h2, -⟩ := InsertProlog_none hn
    have h3 := (InsertProlog_eq_of_none hn).2
    rcases hfail with h | h | h | h | h | h
    · exact hg h
    · exact h hc
    · exact absurd h1 (by simp only; omega)
    · exact absurd h2 (by simp only; omega)
    · simp only [Nat.zero_add] at h3
      exact absurd h3 (Nat.not_le.mpr h)
    · exact h hn
  cases ht : (ILRewriter.InsertProlog (profilerInfo.GetModuleMetaData rw.methodInfo.moduleId).2
      { rw with currentILOffset := 0 }).thrown with
  | none => exact absurd ht hthrown
  | some e =>
    rw [Rewrite_of_thrown (by simpa using hg) ht]
    exact ⟨⟨_, rfl, FAILED_E_FAIL⟩, rfl⟩

/-- Witness of C2: a method with 1025 arguments. -/
theorem C2_rewrite_all_or_nothing_witness :
    1024 < (ILRewriter.construct .initial
      (sampleMethod true false 1025 false [0x2A])).1.methodInfo.argCount ∧
    (∃ hr : HRESULT, (ILRewriter.Rewrite sampleHost
      (ILRewriter.construct .initial (sampleMethod true false 1025 false [0x2A])).1).hr =
        some hr ∧ FAILED hr = true) ∧
    (ILRewriter.Rewrite sampleHost
      (ILRewriter.construct .initial
        (sampleMethod true false 1025 false [0x2A])).1).submitted = none :=
  ⟨by decide, C2_rewrite_all_or_nothing sampleHost
    (ILRewriter.construct .initial (sampleMethod true false 1025 false [0x2A])).1
    (Or.inr (Or.inr (Or.inl (by decide))))⟩

/-- C3: for every descriptor with `argCount = N` and at least `N` argument-type entries, when
`EmitLoadArguments` completes (called with the write pointer at the cursor, as in `Rewrite`),
the bytes it wrote are the array creation (length literal, `newarr`, `stloc.0`) followed by the
staged slots and nothing else: for an instance method the receiver slot, loaded from index 0,
then for `i = 0 .. N-1` the slot of argument `i`, loaded from index `i` if the method is static
and from `i + 1` otherwise. There are exactly `N + (0 if static, 1 if instance)` slots, and the
bytes of each are the load of the argument, then the five bytes of `box` with the slot's type
token exactly when the slot is declared a value type, then the byte `0xA2` of `stelem.ref`.
The load of an argument is the one `LoadArg` returns: one byte `0x02 + index` up to index 3 and
the four bytes `09 FE lo hi` from index 4 on (the byte order of that form is the subject of
C24). -/
theorem C3_argument_staging_matches_reference (metaEmit : MetaDataEmit) (rw : ILRewriter)
    (hN : rw.methodInfo.argCount ≤ rw.methodInfo.argTypes.length)
    (hpos : rw.newIL = rw.currentILOffset)
    (hdone : (ILRewriter.EmitLoadArguments (some metaEmit) rw).thrown = none) :
    ((ILRewriter.EmitLoadArguments (some metaEmit) rw).rw.ilBuffer.drop
      rw.currentILOffset).take
        (arrayCreationBytes rw.methodInfo.argCount
          (objectTypeRef metaEmit rw.isNetCore)).length =
      arrayCreationBytes rw.methodInfo.argCount (objectTypeRef metaEmit rw.isNetCore) ∧
    ((ILRewriter.EmitLoadArguments (some metaEmit) rw).rw.ilBuffer.drop
      (rw.currentILOffset + (arrayCreationBytes rw.methodInfo.argCount
        (objectTypeRef metaEmit rw.isNetCore)).length)).take
        (stagedSlots rw.methodInfo).flatten.length =
      (stagedSlots rw.methodInfo).flatten ∧
    (ILRewriter.EmitLoadArguments (some metaEmit) rw).rw.currentILOffset =
      rw.currentILOffset + (arrayCreationBytes rw.methodInfo.argCount
        (objectTypeRef metaEmit rw.isNetCore)).length +
        (stagedSlots rw.methodInfo).flatten.length ∧
    (stagedSlots rw.methodInfo).length =
      rw.methodInfo.argCount + (if rw.methodInfo.isStatic = true then 0 else 1) ∧
    (rw.methodInfo.isStatic = false →
      (stagedSlots rw.methodInfo)[0]? =
        some ([0x02] ++
          (if rw.methodInfo.isValueType = true then
            [0x8C, rw.methodInfo.typeToken % 256, rw.methodInfo.typeToken / 256 % 256,
              rw.methodInfo.typeToken / 65536 % 256, rw.methodInfo.typeToken / 16777216 % 256]
            else []) ++ [0xA2])) ∧
    ∀ (i : Nat) (t : TypeInfo), i < rw.methodInfo.argCount →
      rw.methodInfo.argTypes[i]? = some t →
      (stagedSlots rw.methodInfo)[(if rw.methodInfo.isStatic = true then 0 else 1) + i]? =
        some ((if (if rw.methodInfo.isStatic = true then i else i + 1) ≤ 3 then
            [0x02 + (if rw.methodInfo.isStatic = true then i else i + 1)]
            else [0x09, 0xFE, (if rw.methodInfo.isStatic = true then i else i + 1) % 256,
              (if rw.methodInfo.isStatic = true then i else i + 1) / 256 % 256]) ++
          (if t.isValueType = true then
            [0x8C, t.typeToken % 256, t.typeToken / 256 % 256, t.typeToken / 65536 % 256,
              t.typeToken / 16777216 % 256]
            else []) ++ [0xA2]) := by
  obtain ⟨h1, -, h3, h4, h5, h6⟩ := EmitLoadArguments_none hdone
  have he := emits_EmitLoadArguments metaEmit rw h1 hN h4 h5 h6 h3
  have hsplit : encodeAll (loadArgumentsReference (objectTypeRef metaEmit rw.isNetCore)
      rw.methodInfo) =
      arrayCreationBytes rw.methodInfo.argCount (objectTypeRef metaEmit rw.isNetCore) ++
        (stagedSlots rw.methodInfo).flatten := by
    rw [loadArgumentsReference, encodeAll_append, encodeAll_arrayCreation_bytes,
      encodeAll_stagingReference_bytes]
  rw [hsplit] at he
  have hlenSlots : (stagedSlots rw.methodInfo).length =
      rw.methodInfo.argCount + (if rw.methodInfo.isStatic = true then 0 else 1) := by
    rw [stagedSlots, List.length_append, length_argumentSlots, List.length_take,
      Nat.min_eq_left hN]
    cases rw.methodInfo.isStatic
    · simp
      omega
    · simp
  have hrecv : rw.methodInfo.isStatic = false →
      (stagedSlots rw.methodInfo)[0]? =
        some (slotBytes 0 rw.methodInfo.isValueType rw.methodInfo.typeToken) := by
    intro hs
    simp [stagedSlots, hs]
  have hslot : ∀ (i : Nat) (t : TypeInfo), i < rw.methodInfo.argCount →
      rw.methodInfo.argTypes[i]? = some t →
      (stagedSlots rw.methodInfo)[(if rw.methodInfo.isStatic = true then 0 else 1) + i]? =
        some (slotBytes (if rw.methodInfo.isStatic = true then i else i + 1)
          t.isValueType t.typeToken) := by
    intro i t hi ht
    have htake : (rw.methodInfo.argTypes.take rw.methodInfo.argCount)[i]? = some t := by
      rw [List.getElem?_take_of_lt hi, ht]
    have hget := getElem?_argumentSlots rw.methodInfo.isStatic
      (rw.methodInfo.argTypes.take rw.methodInfo.argCount) 0 i t htake
    simp only [Nat.zero_add] at hget
    cases hs : rw.methodInfo.isStatic
    · rw [hs] at hget
      simp only [stagedSlots, hs, Bool.false_eq_true, if_false]
      rw [List.getElem?_append_right (by simp)]
      simpa using hget
    · rw [hs] at hget
      simp only [stagedSlots, hs, if_true, List.nil_append, Nat.zero_add]
      simpa using hget
  generalize arrayCreationBytes rw.methodInfo.argCount (objectTypeRef metaEmit rw.isNetCore) =
    head at he ⊢
  generalize (stagedSlots rw.methodInfo).flatten = staging at he ⊢
  have hfit : rw.currentILOffset + (head ++ staging).length ≤ rw.ilBuffer.length := by
    by_contra hc
    have := he.2 (Nat.lt_of_not_le hc)
    rw [this] at hdone
    exact absurd hdone (by simp)
  rw [he.1 hfit]
  have hbuf : (rw.appended (head ++ staging)).ilBuffer =
      (rw.ilBuffer.take rw.currentILOffset ++ head) ++ (staging ++
        rw.ilBuffer.drop (rw.currentILOffset + (head ++ staging).length)) := by
    simp only [ILRewriter.appended, hpos]
    rw [writeBytes_eq _ _ _ hfit]
    simp
  have hbuf2 : (rw.appended (head ++ staging)).ilBuffer =
      rw.ilBuffer.take rw.currentILOffset ++ (head ++ (staging ++
        rw.ilBuffer.drop (rw.currentILOffset + (head ++ staging).length))) := by
    rw [hbuf, List.append_assoc]
  have hl0 : (rw.ilBuffer.take rw.currentILOffset).length = rw.currentILOffset := by
    simp only [List.length_append, List.length_take] at hfit ⊢
    omega
  have hl : (rw.ilBuffer.take rw.currentILOffset ++ head).length =
      rw.currentILOffset + head.length := by
    rw [List.length_append, hl0]
  refine ⟨?_, ?_, ?_, hlenSlots, ?_, ?_⟩
  · rw [hbuf2, List.drop_left' hl0, List.take_left]
  · rw [hbuf, List.drop_left' hl, List.take_left]
  · simp [Nat.add_assoc]
  · intro hs
    rw [hrecv hs]
    simp [slotBytes]
  · intro i t hi ht
    rw [hslot i t hi ht]
    simp [slotBytes]

set_option maxRecDepth 100000 in
/-- Witness of C3: an instance method of a reference type with five arguments, the first,
third and fifth of value types. -/
theorem C3_argument_staging_matches_reference_witness :
    ((freshRewriter instanceFiveMixedArgs).methodInfo.argCount ≤
      (freshRewriter instanceFiveMixedArgs).methodInfo.argTypes.length) ∧
    (freshRewriter instanceFiveMixedArgs).newIL =
      (freshRewriter instanceFiveMixedArgs).currentILOffset ∧
    (ILRewriter.EmitLoadArguments (some sampleEmit)
      (freshRewriter instanceFiveMixedArgs)).thrown = none ∧
    (ILRewriter.EmitLoadArguments (some sampleEmit)
      (freshRewriter instanceFiveMixedArgs)).rw.ilBuffer.take 46 =
      [0x1B, 0x8D, 0x02, 0x00, 0x00, 0x01, 0x0A,
        0x02, 0xA2,
        0x03, 0x8C, 0x05, 0x00, 0x00, 0x02, 0xA2,
        0x04, 0xA2,
        0x05, 0x8C, 0x07, 0x00, 0x00, 0x02, 0xA2,
        0x09, 0xFE, 0x04, 0x00, 0xA2,
        0x09, 0xFE, 0x05, 0x00, 0x8C, 0x09, 0x00, 0x00, 0x02, 0xA2,
        0, 0, 0, 0, 0, 0] ∧
    (stagedSlots instanceFiveMixedArgs).flatten.length = 33 ∧
    (((ILRewriter.EmitLoadArguments (some sampleEmit)
        (freshRewriter instanceFiveMixedArgs)).rw.ilBuffer.drop
      (freshRewriter instanceFiveMixedArgs).currentILOffset).take
        (arrayCreationBytes (freshRewriter instanceFiveMixedArgs).methodInfo.argCount
          (objectTypeRef sampleEmit (freshRewriter instanceFiveMixedArgs).isNetCore)).length =
      arrayCreationBytes (freshRewriter instanceFiveMixedArgs).methodInfo.argCount
        (objectTypeRef sampleEmit (freshRewriter instanceFiveMixedArgs).isNetCore) ∧
    ((ILRewriter.EmitLoadArguments (some sampleEmit)
        (freshRewriter instanceFiveMixedArgs)).rw.ilBuffer.drop
      ((freshRewriter instanceFiveMixedArgs).currentILOffset +
        (arrayCreationBytes (freshRewriter instanceFiveMixedArgs).methodInfo.argCount
          (objectTypeRef sampleEmit (freshRewriter instanceFiveMixedArgs).isNetCore)).length)).take
        (stagedSlots (freshRewriter instanceFiveMixedArgs).methodInfo).flatten.length =
      (stagedSlots (freshRewriter instanceFiveMixedArgs).methodInfo).flatten ∧
    (ILRewriter.EmitLoadArguments (some sampleEmit)
        (freshRewriter instanceFiveMixedArgs)).rw.currentILOffset =
      (freshRewriter instanceFiveMixedArgs).currentILOffset +
        (arrayCreationBytes (freshRewriter instanceFiveMixedArgs).methodInfo.argCount
          (objectTypeRef sampleEmit (freshRewriter instanceFiveMixedArgs).isNetCore)).length +
        (stagedSlots (freshRewriter instanceFiveMixedArgs).methodInfo).flatten.length ∧
    (stagedSlots (freshRewriter instanceFiveMixedArgs).methodInfo).length =
      (freshRewriter instanceFiveMixedArgs).methodInfo.argCount +
        (if (freshRewriter instanceFiveMixedArgs).methodInfo.isStatic = true then 0 else 1) ∧
    ((freshRewriter instanceFiveMixedArgs).methodInfo.isStatic = false →
      (stagedSlots (freshRewriter instanceFiveMixedArgs).methodInfo)[0]? =
        some ([0x02] ++
          (if (freshRewriter instanceFiveMixedArgs).methodInfo.isValueType = true then
            [0x8C, (freshRewriter instanceFiveMixedArgs).methodInfo.typeToken % 256,
              (freshRewriter instanceFiveMixedArgs).methodInfo.typeToken / 256 % 256,
              (freshRewriter instanceFiveMixedArgs).methodInfo.typeToken / 65536 % 256,
              (freshRewriter instanceFiveMixedArgs).methodInfo.typeToken / 16777216 % 256]
            else []) ++ [0xA2])) ∧
    ∀ (i : Nat) (t : TypeInfo), i < (freshRewriter instanceFiveMixedArgs).methodInfo.argCount →
      (freshRewriter instanceFiveMixedArgs).methodInfo.argTypes[i]? = some t →
      (stagedSlots (freshRewriter instanceFiveMixedArgs).methodInfo)[
          (if (freshRewriter instanceFiveMixedArgs).methodInfo.isStatic = true then 0 else 1) +
            i]? =
        some ((if (if (freshRewriter instanceFiveMixedArgs).methodInfo.isStatic = true then i
              else i + 1) ≤ 3 then
            [0x02 + (if (freshRewriter instanceFiveMixedArgs).methodInfo.isStatic = true then i
              else i + 1)]
            else [0x09, 0xFE,
              (if (freshRewriter instanceFiveMixedArgs).methodInfo.isStatic = true then i
                else i + 1) % 256,
              (if (freshRewriter instanceFiveMixedArgs).methodInfo.isStatic = true then i
                else i + 1) / 256 % 256]) ++
          (if t.isValueType = true then
            [0x8C, t.typeToken % 256, t.typeToken / 256 % 256, t.typeToken / 65536 % 256,
              t.typeToken / 16777216 % 256]
            else []) ++ [0xA2])) :=
  ⟨by decide, rfl, by decide, by decide, by decide,
    C3_argument_staging_matches_reference sampleEmit (freshRewriter instanceFiveMixedArgs)
      (by decide) rfl (by decide)⟩

set_option maxRecDepth 100000 in
/-- C4 (the code misses what the claim states): for the static method with one
reference-type argument, `EmitLoadArguments` writes `ldc.i4.1; newarr <System.Object>;
stloc.0; ldarg.0; stelem.ref`. Between the store of the array into local 0 and the element
store only the argument is loaded: neither the staged array (`ldloc.0`, `CEE_LDLOC_0`) nor
the slot index is pushed as an operand of `stelem.ref`. -/
theorem C4_element_store_without_array_and_index :
    (ILRewriter.EmitLoadArguments (some sampleEmit)
      (freshRewriter staticOneReferenceArg)).thrown = none ∧
    (ILRewriter.EmitLoadArguments (some sampleEmit)
      (freshRewriter staticOneReferenceArg)).rw.ilBuffer.take
        (ILRewriter.EmitLoadArguments (some sampleEmit)
          (freshRewriter staticOneReferenceArg)).rw.currentILOffset =
      [0x17, CEE_NEWARR, 0x02, 0x00, 0x00, 0x01, CEE_STLOC_0, CEE_LDARG_0, CEE_STELEM_REF] ∧
    stagingReference staticOneReferenceArg = [.LoadArg 0, .StoreElementRef] := by
  decide

set_option maxRecDepth 100000 in
/-- C5 (the code misses what the claim states): for the static method with one
reference-type argument the whole prolog is `locals <sig>; ldc.i4.1; newarr; stloc.0;
ldarg.0; stelem.ref; ldstr 0; ldarg.0; call <OnMethodEnter>`. The instruction between the
load-string and the call is `ldarg.0` (`CEE_LDARG_0 = 0x02`), emitted by `LoadArg(0)`, and
not a load of local 0 (`CEE_LDLOC_0 = 0x06`). -/
theorem C5_bridge_call_loads_argument_zero :
    (ILRewriter.InsertProlog sampleEmit (freshRewriter staticOneReferenceArg)).thrown = none ∧
    (ILRewriter.InsertProlog sampleEmit (freshRewriter staticOneReferenceArg)).rw.ilBuffer.take
        (ILRewriter.InsertProlog sampleEmit
          (freshRewriter staticOneReferenceArg)).rw.currentILOffset =
      [CEE_LOCALS, 0x01, 0x00, 0x00, 0x11,
        0x17, CEE_NEWARR, 0x02, 0x00, 0x00, 0x01, CEE_STLOC_0, CEE_LDARG_0, CEE_STELEM_REF,
        CEE_LDSTR, 0, 0, 0, 0, CEE_LDARG_0, CEE_CALL, 0x03, 0x00, 0x00, 0x0A] ∧
    CEE_LDARG_0 = 0x02 ∧ CEE_LDLOC_0 = 0x06 := by
  decide

set_option maxRecDepth 100000 in
/-- C6 (the code misses what the claim states): `LoadString` ignores its argument and writes
the constant operand `00 00 00 00` for every string, and `EmitCallToManagedBridge` resolves no
string token: for the method with full name `A!C.M` it emits `ldstr` with operand zero. -/
theorem C6_load_string_operand_is_zero :
    (∀ str : String, ILInstructions.LoadString str = [CEE_LDSTR, 0, 0, 0, 0]) ∧
    staticOneReferenceArg.GetFullName = "A!C.M" ∧
    (ILRewriter.EmitCallToManagedBridge (some sampleEmit)
      (freshRewriter staticOneReferenceArg)).rw.ilBuffer.take
        (ILRewriter.EmitCallToManagedBridge (some sampleEmit)
          (freshRewriter staticOneReferenceArg)).rw.currentILOffset =
      [CEE_LDSTR, 0, 0, 0, 0, CEE_LDARG_0, CEE_CALL, 0x03, 0x00, 0x00, 0x0A] :=
  ⟨fun _ => rfl, by decide, by decide⟩

set_option maxRecDepth 1000000 in
/-- C7 (the code misses what the claim states). (a) `CopyOriginalIL` copies without any
capacity check: for the static method with 50 value-type arguments and a four-byte body the
buffer has 516 bytes, the prolog takes 515 of them, no exception is thrown and the body is
submitted to the host, the final cursor is 519 and three bytes of the body were written at
offsets 516, 517 and 518, past the end of the buffer. (b) The emission steps (`memcpy`, then `AdvanceIL`) copy first and check afterwards:
for the instance method with 49 value-type arguments and a one-byte body the buffer has 513
bytes and the prolog needs 515; the last instruction, `call`, is copied to offsets 510 to 514,
two bytes of it past the end of the buffer, before `AdvanceIL` throws and `Rewrite` returns
`E_FAIL`. -/
theorem C7_writes_past_the_buffer :
    ((ILRewriter.Rewrite sampleHost (freshRewriter static50ValueArgs)).submitted ≠ none ∧
      (ILRewriter.Rewrite sampleHost (freshRewriter static50ValueArgs)).rw.ilBuffer.length =
        516 ∧
      (ILRewriter.Rewrite sampleHost (freshRewriter static50ValueArgs)).rw.currentILOffset =
        519 ∧
      (ILRewriter.Rewrite sampleHost (freshRewriter static50ValueArgs)).rw.outOfBounds =
        [(516, 0), (517, 0), (518, 0x2A)]) ∧
    ((freshRewriter instance49ValueArgs).ilBuffer.length = 513 ∧
      (ILRewriter.Rewrite sampleHost (freshRewriter instance49ValueArgs)).hr = some E_FAIL ∧
      (ILRewriter.Rewrite sampleHost (freshRewriter instance49ValueArgs)).rw.outOfBounds =
        [(513, 0), (514, 10)]) := by
  have hlenP : (prologBytes 0x11000001 0x01000002 0x0A000003 static50ValueArgs).length = 515 := by
    decide
  obtain ⟨-, -, r1, r2, r3, -, r4⟩ := Rewrite_sample_of_fits static50ValueArgs (by decide)
    (by decide) (by decide) (by rw [hlenP]; decide)
  rw [hlenP] at r1 r3
  refine ⟨⟨r4, r2, r1, by rw [r3]; decide⟩, ?_⟩
  obtain ⟨hw, h0, hmi, hlen, hnc, hsigv⟩ := freshRewriter_facts instance49ValueArgs
  have hlen513 : (freshRewriter instance49ValueArgs).ilBuffer.length = 513 := by
    rw [hlen]; decide
  have hQlen : ([CEE_LOCALS] ++ (storedBytes32 0x11000001 ++
      (encodeAll (loadArgumentsReference 0x01000002 instance49ValueArgs) ++
      (ILInstructions.LoadString instance49ValueArgs.GetFullName ++
        ILInstructions.LoadArg 0)))).length = 510 := by decide
  have hP := InsertProlog_overflow_in_call sampleEmit (freshRewriter instance49ValueArgs)
    ([CEE_LOCALS] ++ (storedBytes32 0x11000001 ++
      (encodeAll (loadArgumentsReference 0x01000002 instance49ValueArgs) ++
      (ILInstructions.LoadString instance49ValueArgs.GetFullName ++
        ILInstructions.LoadArg 0))))
    (collaboratorSucceeds_sampleEmit _) (by rw [hmi]; decide) (by rw [hmi]; decide) hw
    (by rw [hmi, hnc]; rfl) (by rw [h0, hlen513, hQlen]; decide)
    (by rw [h0, hlen513, hQlen]; decide)
  generalize freshRewriter instance49ValueArgs = rw0 at hw h0 hmi hlen513 hP ⊢
  generalize ([CEE_LOCALS] ++ (storedBytes32 0x11000001 ++
      (encodeAll (loadArgumentsReference 0x01000002 instance49ValueArgs) ++
      (ILInstructions.LoadString instance49ValueArgs.GetFullName ++
        ILInstructions.LoadArg 0)))) = Q at hQlen hP
  have hreset : ({ rw0 with currentILOffset := 0 } : ILRewriter) = rw0 := reset_cursor_eq h0
  have hr := @Rewrite_of_thrown sampleHost rw0 (.runtime_error "IL buffer overflow") rfl
    (by rw [hreset]; show (ILRewriter.InsertProlog sampleEmit rw0).thrown = _; rw [hP])
  rw [hreset] at hr
  have hr' : ILRewriter.Rewrite sampleHost rw0 =
      ⟨some E_FAIL, (ILRewriter.InsertProlog sampleEmit rw0).rw, none, none⟩ := hr
  rw [hr', hP]
  have hwQ := @wellPositioned_appended rw0.pushLocalVarSig Q
    (wellPositioned_pushLocalVarSig hw)
    (show rw0.currentILOffset + Q.length ≤ rw0.ilBuffer.length by
      rw [h0, hlen513, hQlen]; decide)
  obtain ⟨w1, -, w3, -⟩ := hwQ
  refine ⟨hlen513, rfl, ?_⟩
  simp only [ILRewriter.memcpy]
  rw [w3, List.nil_append, ILRewriter.appended_length, w1, ILRewriter.appended_currentILOffset]
  show overflowBytes rw0.ilBuffer.length (rw0.currentILOffset + Q.length)
    (ILInstructions.CallMethod (bridgeMethodRef sampleEmit)) = _
  rw [hlen513, h0, hQlen]
  decide

set_option maxRecDepth 1000000 in
/-- C8, counterexample: the instance method of a value type with 49 value-type arguments
(`argCount ≤ 1024`) and a three-byte body: `InsertProlog` completes and the prolog is 515
bytes long, more than `DEFAULT_IL_BUFFER_PADDING = 512`. -/
theorem C8_counterexample :
    instance49ValueArgsBody3.argCount ≤ 1024 ∧
    (ILRewriter.InsertProlog sampleEmit (freshRewriter instance49ValueArgsBody3)).thrown = none ∧
    (ILRewriter.InsertProlog sampleEmit
      (freshRewriter instance49ValueArgsBody3)).rw.currentILOffset = 515 ∧
    ¬ (515 ≤ DEFAULT_IL_BUFFER_PADDING) := by
  have hlenP : (prologBytes 0x11000001 0x01000002 0x0A000003
      instance49ValueArgsBody3).length = 515 := by decide
  obtain ⟨r1, r2, -⟩ := Rewrite_sample_of_fits instance49ValueArgsBody3 (by decide)
    (by decide) (by decide) (by rw [hlenP]; decide)
  rw [hlenP] at r2
  exact ⟨by decide, r1, r2, by decide⟩

/-- C8, as amended: the fixed padding is sufficient for the prolog of every method with at
most 48 arguments. For every descriptor with `argCount ≤ 48` (any mix of static or instance,
value-type or reference arguments) and every metadata interface, when `InsertProlog`
completes, the bytes it emitted number at most `DEFAULT_IL_BUFFER_PADDING = 512`. -/
theorem C8_prolog_fits_padding_up_to_48_arguments (metaEmit : MetaDataEmit) (rw : ILRewriter)
    (hN : rw.methodInfo.argCount ≤ 48)
    (hdone : (ILRewriter.InsertProlog metaEmit rw).thrown = none) :
    (ILRewriter.InsertProlog metaEmit rw).rw.currentILOffset ≤
      rw.currentILOffset + DEFAULT_IL_BUFFER_PADDING := by
  obtain ⟨heq, -⟩ := InsertProlog_eq_of_none hdone
  rw [heq, ILRewriter.appended_currentILOffset]
  have hb := length_prologBytes_le_512
    (localVarSigToken metaEmit rw.pushLocalVarSig.localVarSig)
    (objectTypeRef metaEmit rw.isNetCore) (bridgeMethodRef metaEmit) rw.methodInfo hN
  have hcur : rw.pushLocalVarSig.currentILOffset = rw.currentILOffset := rfl
  rw [hcur]
  exact Nat.add_le_add_left hb _

set_option maxRecDepth 100000 in
/-- Witness of C8 as amended: the instance method with two value-type arguments. -/
theorem C8_prolog_fits_padding_up_to_48_arguments_witness :
    (freshRewriter instanceTwoValueArgs).methodInfo.argCount ≤ 48 ∧
    (ILRewriter.InsertProlog sampleEmit (freshRewriter instanceTwoValueArgs)).thrown = none ∧
    (ILRewriter.InsertProlog sampleEmit (freshRewriter instanceTwoValueArgs)).rw.currentILOffset ≤
      (freshRewriter instanceTwoValueArgs).currentILOffset + DEFAULT_IL_BUFFER_PADDING :=
  ⟨by decide, by decide,
    C8_prolog_fits_padding_up_to_48_arguments sampleEmit (freshRewriter instanceTwoValueArgs)
      (by decide) (by decide)⟩

/-- C10: for every registry state, assembly name `a` and qualified name `q`, after
`AddMethodToInstrument(a, q)` the query `ShouldInstrumentMethod` answers true for every
descriptor whose `assemblyName` is `a` and whose `className + "." + methodName` is `q`. -/
theorem C10_add_then_should_instrument (methodsToInstrument : Registry) (a q : String)
    (methodInfo : MethodInfo) (ha : methodInfo.assemblyName = a)
    (hq : methodInfo.className ++ "." ++ methodInfo.methodName = q) :
    AikidoProfiler.ShouldInstrumentMethod
      (AikidoProfiler.AddMethodToInstrument methodsToInstrument a q) methodInfo = true := by
  subst ha hq
  simp [AikidoProfiler.ShouldInstrumentMethod, AikidoProfiler.AddMethodToInstrument]

/-- Witness of C10: registering `C.M` of assembly `A` in the empty registry. -/
theorem C10_add_then_should_instrument_witness :
    staticOneReferenceArg.assemblyName = "A" ∧
    staticOneReferenceArg.className ++ "." ++ staticOneReferenceArg.methodName = "C.M" ∧
    AikidoProfiler.ShouldInstrumentMethod
      (AikidoProfiler.AddMethodToInstrument ∅ "A" "C.M") staticOneReferenceArg = true :=
  ⟨rfl, by decide, C10_add_then_should_instrument ∅ "A" "C.M" staticOneReferenceArg rfl
    (by decide)⟩

/-- C11: for every registry state, assembly name `a`, qualified name `m` and descriptor, after
`RemoveMethodToInstrument(a, m)` the query `ShouldInstrumentMethod` answers false when the
descriptor has `assemblyName = a` and `className + "." + methodName = m`, and for every other
descriptor it answers what it answered before the removal. -/
theorem C11_remove_then_should_instrument (methodsToInstrument : Registry) (a m : String)
    (methodInfo : MethodInfo) :
    AikidoProfiler.ShouldInstrumentMethod
        (AikidoProfiler.RemoveMethodToInstrument methodsToInstrument a m) methodInfo =
      if methodInfo.assemblyName = a ∧
          methodInfo.className ++ "." ++ methodInfo.methodName = m then false
      else AikidoProfiler.ShouldInstrumentMethod methodsToInstrument methodInfo :=
  ShouldInstrumentMethod_Remove methodsToInstrument a m methodInfo

/-- C12: in the registry reached from the empty one by any finite sequence of
`AddMethodToInstrument` and `RemoveMethodToInstrument` calls, no assembly entry has an empty
method set. -/
theorem C12_no_empty_assembly_entry (calls : List AikidoProfiler.RegistryCall)
    (assemblyName : String) (methods : Finset String)
    (h : (⟨assemblyName, methods⟩ : Sigma fun _ : String => Finset String) ∈
      (AikidoProfiler.runRegistryCalls ∅ calls).entries) :
    methods ≠ ∅ := by
  intro hm
  subst hm
  exact no_empty_entry_run calls ∅ (by simp) assemblyName (AList.mem_lookup_iff.mpr h)

theorem C12_no_empty_assembly_entry_witness :
    (⟨"A", {"C.N"}⟩ : Sigma fun _ : String => Finset String) ∈
      (AikidoProfiler.runRegistryCalls ∅
        [.add "A" "C.M", .add "A" "C.N", .remove "A" "C.M", .add "B" "D.M",
          .remove "B" "D.M"]).entries ∧
    ({"C.N"} : Finset String) ≠ ∅ :=
  ⟨by decide, C12_no_empty_assembly_entry
    [.add "A" "C.M", .add "A" "C.N", .remove "A" "C.M", .add "B" "D.M", .remove "B" "D.M"]
    "A" {"C.N"} (by decide)⟩

/-- C13: for every registry state and descriptor, `ShouldInstrumentMethod` answers true if and
only if the registry has an entry whose key is exactly the descriptor's `assemblyName` and
whose set contains exactly the string `className + "." + methodName`; in particular after one
registration `(a, q)` in the empty registry a descriptor is eligible only if its assembly name
is `a` and its qualified name is `q` itself, so a `q` that is a prefix, a suffix or a pattern
of the qualified name does not make it eligible. -/
theorem C13_eligibility_is_exact_match (methodsToInstrument : Registry)
    (methodInfo : MethodInfo) :
    (AikidoProfiler.ShouldInstrumentMethod methodsToInstrument methodInfo = true ↔
      AikidoProfiler.ExactlyRegistered methodsToInstrument methodInfo.assemblyName
        (methodInfo.className ++ "." ++ methodInfo.methodName)) ∧
    ∀ a q : String,
      AikidoProfiler.ShouldInstrumentMethod
          (AikidoProfiler.AddMethodToInstrument ∅ a q) methodInfo =
        decide (methodInfo.assemblyName = a ∧
          methodInfo.className ++ "." ++ methodInfo.methodName = q) := by
  refine ⟨?_, ?_⟩
  · rw [ShouldInstrumentMethod_iff, exactlyRegistered_iff]
  · intro a q
    rw [ShouldInstrumentMethod_Add, ShouldInstrumentMethod_empty, Bool.or_false]

/-- C14 (the code does otherwise): the compile-time path never consults
`InstrumentationFilter::ShouldInstrumentMethod`. For every registry state and every registered
descriptor whose method name is ".ctor" or ".cctor", on a host that hands out the upgraded
interface, `InstrumentMethod` constructs the rewriter and runs `Rewrite` on it, although the
filter answers false for that descriptor, and it ends as that call of `Rewrite` ends. The
rewriter submits a new body to `SetILFunctionBody` unless the module metadata is unavailable or
`InsertProlog` throws, exactly as for any other method: the name of the method plays no part. -/
theorem C14_registered_constructor_is_rewritten (profilerInfo : ICorProfilerInfo4)
    (info7 : ProfilerInfo) (methodsToInstrument : Registry) (cache : RuntimeCache)
    (methodInfo : MethodInfo)
    (hname : methodInfo.methodName = ".ctor" ∨ methodInfo.methodName = ".cctor")
    (hreg : AikidoProfiler.ShouldInstrumentMethod methodsToInstrument methodInfo = true)
    (hq : FAILED profilerInfo.QueryInterface_ICorProfilerInfo7.1 = false)
    (h7 : profilerInfo.QueryInterface_ICorProfilerInfo7.2 = some info7) :
    InstrumentationFilter.ShouldInstrumentMethod methodInfo = false ∧
    (AikidoProfiler.InstrumentMethod profilerInfo methodsToInstrument cache methodInfo).rewrite =
      some (ILRewriter.Rewrite info7 (ILRewriter.construct cache methodInfo).1) ∧
    (AikidoProfiler.InstrumentMethod profilerInfo methodsToInstrument cache methodInfo).hr =
      (ILRewriter.Rewrite info7 (ILRewriter.construct cache methodInfo).1).hr ∧
    ((ILRewriter.Rewrite info7 (ILRewriter.construct cache methodInfo).1).submitted = none ↔
      FAILED (info7.GetModuleMetaData methodInfo.moduleId).1 = true ∨
      (ILRewriter.InsertProlog (info7.GetModuleMetaData methodInfo.moduleId).2
        (ILRewriter.construct cache methodInfo).1).thrown ≠ none) := by
  refine ⟨?_, ?_, ?_, ?_⟩
  · rcases hname with h | h <;> rw [InstrumentationFilter.ShouldInstrumentMethod, h] <;> decide
  · unfold AikidoProfiler.InstrumentMethod
    simp only [hreg, hq, h7, Bool.not_true, Bool.false_eq_true, if_false]
  · unfold AikidoProfiler.InstrumentMethod
    simp only [hreg, hq, h7, Bool.not_true, Bool.false_eq_true, if_false]
  · have h := Rewrite_submitted_eq_none_iff info7 (ILRewriter.construct cache methodInfo).1
    rw [reset_cursor_eq (construct_currentILOffset cache methodInfo),
      construct_methodInfo cache methodInfo] at h
    exact h

set_option maxRecDepth 100000 in
/-- Witness of C14: the registered instance constructor `A!C..ctor` on a host whose calls
succeed: the filter answers false, the rewriter runs and a new body is submitted. -/
theorem C14_registered_constructor_is_rewritten_witness :
    (sampleConstructor.methodName = ".ctor" ∨ sampleConstructor.methodName = ".cctor") ∧
    AikidoProfiler.ShouldInstrumentMethod
      (AikidoProfiler.AddMethodToInstrument ∅ "A" "C..ctor") sampleConstructor = true ∧
    FAILED (sampleInfo4 [1, 2] none).QueryInterface_ICorProfilerInfo7.1 = false ∧
    (sampleInfo4 [1, 2] none).QueryInterface_ICorProfilerInfo7.2 = some sampleHost ∧
    (ILRewriter.Rewrite sampleHost
      (ILRewriter.construct RuntimeCache.initial sampleConstructor).1).submitted ≠ none ∧
    (InstrumentationFilter.ShouldInstrumentMethod sampleConstructor = false ∧
    (AikidoProfiler.InstrumentMethod (sampleInfo4 [1, 2] none)
        (AikidoProfiler.AddMethodToInstrument ∅ "A" "C..ctor") RuntimeCache.initial
        sampleConstructor).rewrite =
      some (ILRewriter.Rewrite sampleHost
        (ILRewriter.construct RuntimeCache.initial sampleConstructor).1) ∧
    (AikidoProfiler.InstrumentMethod (sampleInfo4 [1, 2] none)
        (AikidoProfiler.AddMethodToInstrument ∅ "A" "C..ctor") RuntimeCache.initial
        sampleConstructor).hr =
      (ILRewriter.Rewrite sampleHost
        (ILRewriter.construct RuntimeCache.initial sampleConstructor).1).hr ∧
    ((ILRewriter.Rewrite sampleHost
        (ILRewriter.construct RuntimeCache.initial sampleConstructor).1).submitted = none ↔
      FAILED (sampleHost.GetModuleMetaData sampleConstructor.moduleId).1 = true ∨
      (ILRewriter.InsertProlog (sampleHost.GetModuleMetaData sampleConstructor.moduleId).2
        (ILRewriter.construct RuntimeCache.initial sampleConstructor).1).thrown ≠ none)) :=
  ⟨by decide, by decide, rfl, rfl, by decide,
    C14_registered_constructor_is_rewritten (sampleInfo4 [1, 2] none) sampleHost
      (AikidoProfiler.AddMethodToInstrument ∅ "A" "C..ctor") RuntimeCache.initial
      sampleConstructor (by decide) (by decide) rfl rfl⟩

/-- C16 (counterexample): module 1 is named `MyApp.Orders` and declares a type `OrderService`
with two methods `Place`, module 2 is named `MyApp.Billing`, every host call succeeds. The
activation `RequestReJIT("MyApp.Orders", "MyApp.Orders!OrderService.Place")` issues no
recompilation request at all, and returns `S_OK`. -/
theorem C16_counterexample :
    EnumerationsSucceed (sampleInfo4 [1, 2] none) ∧
    (placeMethods (sampleInfo4 [1, 2] none)).map DeclaredMethod.request =
      [(1, 0x06000001), (1, 0x06000002)] ∧
    (AikidoProfiler.RequestReJIT (some (sampleInfo4 [1, 2] none)) ∅ "MyApp.Orders"
      "MyApp.Orders!OrderService.Place").requests = [] ∧
    (AikidoProfiler.RequestReJIT (some (sampleInfo4 [1, 2] none)) ∅ "MyApp.Orders"
      "MyApp.Orders!OrderService.Place").hr = S_OK := by
  decide

/-- C16 (amended): the method string is compared with `typeName + "." + methodName`, without
the assembly prefix. For every host whose enumerations succeed and that accepts every
recompilation request, `RequestReJIT("MyApp.Orders", "OrderService.Place")` issues exactly one
request for each method `Place` of a type `OrderService` declared in a module named
`MyApp.Orders` and no other request, while
`RequestReJIT("MyApp.Orders", "MyApp.Orders!OrderService.Place")` issues requests only for
methods whose `typeName + "." + methodName` is that whole string, none of them a method
`Place` of a type `OrderService`. -/
theorem C16_activation_matches_unprefixed_name (profilerInfo : ICorProfilerInfo4)
    (methodsToInstrument : Registry) (h : EnumerationsSucceed profilerInfo)
    (hacc : ∀ moduleId methodDef, FAILED (profilerInfo.RequestReJIT moduleId methodDef) = false) :
    (AikidoProfiler.RequestReJIT (some profilerInfo) methodsToInstrument "MyApp.Orders"
      "OrderService.Place").requests = (placeMethods profilerInfo).map DeclaredMethod.request ∧
    (AikidoProfiler.RequestReJIT (some profilerInfo) methodsToInstrument "MyApp.Orders"
      "MyApp.Orders!OrderService.Place").requests =
      ((declaredMethods profilerInfo).filter fun d =>
        decide (d.scopeName = "MyApp.Orders" ∧
          d.typeName ++ "." ++ d.methodName = "MyApp.Orders!OrderService.Place" ∧
          ¬ (d.typeName = "OrderService" ∧ d.methodName = "Place"))).map
        DeclaredMethod.request := by
  constructor
  · rw [((RequestReJIT_of_enumerated profilerInfo methodsToInstrument "MyApp.Orders"
      "OrderService.Place" h).2.2 (fun d _ => hacc _ _)).1]
    unfold matchingMethods placeMethods
    congr 1
    apply List.filter_congr
    intro d _
    apply decide_eq_decide.mpr
    rw [orderService_place_iff]
  · rw [((RequestReJIT_of_enumerated profilerInfo methodsToInstrument "MyApp.Orders"
      "MyApp.Orders!OrderService.Place" h).2.2 (fun d _ => hacc _ _)).1]
    unfold matchingMethods
    congr 1
    apply List.filter_congr
    intro d _
    have hne : d.typeName = "OrderService" ∧ d.methodName = "Place" →
        d.typeName ++ "." ++ d.methodName ≠ "MyApp.Orders!OrderService.Place" := by
      rintro ⟨h1, h2⟩
      rw [h1, h2]
      decide
    by_cases hf : d.typeName ++ "." ++ d.methodName = "MyApp.Orders!OrderService.Place"
    · have : ¬ (d.typeName = "OrderService" ∧ d.methodName = "Place") := fun hc => hne hc hf
      simp [hf, this]
    · simp [hf]

theorem C16_activation_matches_unprefixed_name_witness :
    EnumerationsSucceed (sampleInfo4 [1, 2] none) ∧
    (∀ moduleId methodDef,
      FAILED ((sampleInfo4 [1, 2] none).RequestReJIT moduleId methodDef) = false) ∧
    (AikidoProfiler.RequestReJIT (some (sampleInfo4 [1, 2] none)) ∅ "MyApp.Orders"
      "OrderService.Place").requests =
        (placeMethods (sampleInfo4 [1, 2] none)).map DeclaredMethod.request ∧
    (AikidoProfiler.RequestReJIT (some (sampleInfo4 [1, 2] none)) ∅ "MyApp.Orders"
      "MyApp.Orders!OrderService.Place").requests =
      ((declaredMethods (sampleInfo4 [1, 2] none)).filter fun d =>
        decide (d.scopeName = "MyApp.Orders" ∧
          d.typeName ++ "." ++ d.methodName = "MyApp.Orders!OrderService.Place" ∧
          ¬ (d.typeName = "OrderService" ∧ d.methodName = "Place"))).map
        DeclaredMethod.request :=
  ⟨by decide, fun _ _ => rfl,
    C16_activation_matches_unprefixed_name (sampleInfo4 [1, 2] none) ∅ (by decide)
      (fun _ _ => rfl)⟩

/-- C17 (counterexample): the host enumerates module 3, whose metadata cannot be obtained,
and then module 1, named `MyApp.Orders`, which declares two matching methods; the host accepts
every recompilation request. `RequestReJIT` returns the failure of the metadata lookup and has
issued no request, although no recompilation request failed; with module 1 alone it issues
both requests. -/
theorem C17_counterexample :
    FAILED ((sampleInfo4 [3, 1] none).GetModuleMetaData 3).1 = true ∧
    (∀ moduleId methodDef,
      FAILED ((sampleInfo4 [3, 1] none).RequestReJIT moduleId methodDef) = false) ∧
    (AikidoProfiler.RequestReJIT (some (sampleInfo4 [3, 1] none)) ∅ "MyApp.Orders"
      "OrderService.Place").hr = E_FAIL ∧
    (AikidoProfiler.RequestReJIT (some (sampleInfo4 [3, 1] none)) ∅ "MyApp.Orders"
      "OrderService.Place").requests = [] ∧
    (AikidoProfiler.RequestReJIT (some (sampleInfo4 [1] none)) ∅ "MyApp.Orders"
      "OrderService.Place").requests = [(1, 0x06000001), (1, 0x06000002)] :=
  ⟨by decide, fun _ _ => rfl, by decide, by decide, by decide⟩

/-- C17 (amended): a module whose metadata or scope name cannot be obtained aborts the
activation. For every host whose module enumeration yields the modules
`pre ++ moduleId :: post`, if `GetModuleMetaData` or `GetScopeProps` fails for `moduleId`, then
`RequestReJIT` returns a failure and every recompilation request it has issued is for a module
of `pre`: no module of `post` is scanned. When the modules of `pre` are scanned without a
failure (their metadata and scope names are obtained and the host accepts the requests for
their matching methods), the value returned is the `HRESULT` of the failed lookup and the
requests issued are exactly those for the matching methods of the modules of `pre`.
Generally, on every host whose `EnumModules` succeeds, `RequestReJIT` returns a failure exactly
when, for some enumerated module, the metadata lookup fails, the scope-name lookup fails, or
the host rejects the request for one of its matching methods (a type or a method whose name
lookup fails is not among them and is no cause of failure); when `EnumModules` fails it returns
that `HRESULT`, and when the profiler interface is null it returns `E_FAIL`, in both cases
without a request. -/
theorem C17_lookup_failure_aborts_activation (profilerInfo : ICorProfilerInfo4)
    (methodsToInstrument : Registry) (a q : String) (pre : List Nat) (moduleId : Nat)
    (post : List Nat)
    (he : FAILED profilerInfo.EnumModules.1 = false)
    (hmods : AikidoProfiler.collectModules profilerInfo.EnumModules.2 = pre ++ moduleId :: post)
    (hfail : FAILED (profilerInfo.GetModuleMetaData moduleId).1 = true ∨
      FAILED (profilerInfo.GetModuleMetaData moduleId).2.GetScopeProps.1 = true) :
    FAILED (AikidoProfiler.RequestReJIT (some profilerInfo) methodsToInstrument a q).hr = true ∧
    (∀ r ∈ (AikidoProfiler.RequestReJIT (some profilerInfo) methodsToInstrument a q).requests,
      r.1 ∈ pre) ∧
    ((∀ m ∈ pre,
        FAILED (profilerInfo.GetModuleMetaData m).1 = false ∧
        FAILED (profilerInfo.GetModuleMetaData m).2.GetScopeProps.1 = false ∧
        ∀ r ∈ moduleRequests profilerInfo a q m,
          FAILED (profilerInfo.RequestReJIT r.1 r.2) = false) →
      (AikidoProfiler.RequestReJIT (some profilerInfo) methodsToInstrument a q).hr =
        (if FAILED (profilerInfo.GetModuleMetaData moduleId).1 = true then
          (profilerInfo.GetModuleMetaData moduleId).1
        else (profilerInfo.GetModuleMetaData moduleId).2.GetScopeProps.1) ∧
      (AikidoProfiler.RequestReJIT (some profilerInfo) methodsToInstrument a q).requests =
        pre.flatMap (moduleRequests profilerInfo a q)) ∧
    (∀ (info : ICorProfilerInfo4) (reg : Registry) (a q : String),
      FAILED info.EnumModules.1 = false →
      (FAILED (AikidoProfiler.RequestReJIT (some info) reg a q).hr = true ↔
        ∃ m ∈ AikidoProfiler.collectModules info.EnumModules.2,
          FAILED (info.GetModuleMetaData m).1 = true ∨
          FAILED (info.GetModuleMetaData m).2.GetScopeProps.1 = true ∨
          ∃ r ∈ moduleRequests info a q m, FAILED (info.RequestReJIT r.1 r.2) = true)) ∧
    (∀ (info : ICorProfilerInfo4) (reg : Registry) (a q : String),
      FAILED info.EnumModules.1 = true →
      (AikidoProfiler.RequestReJIT (some info) reg a q).hr = info.EnumModules.1 ∧
      (AikidoProfiler.RequestReJIT (some info) reg a q).requests = []) ∧
    ∀ (reg : Registry) (a q : String),
      (AikidoProfiler.RequestReJIT none reg a q).hr = E_FAIL ∧
      (AikidoProfiler.RequestReJIT none reg a q).requests = [] := by
  obtain ⟨c1, c2⟩ := RequestReJIT_of_failed_module profilerInfo methodsToInstrument a q pre
    moduleId post he hmods hfail
  refine ⟨c1, c2, ?_, ?_, ?_, ?_⟩
  · intro hpre
    have hlook : ∀ m ∈ pre, FAILED (profilerInfo.GetModuleMetaData m).1 = false ∧
        FAILED (profilerInfo.GetModuleMetaData m).2.GetScopeProps.1 = false :=
      fun m hm => ⟨(hpre m hm).1, (hpre m hm).2.1⟩
    have hacc : ∀ r ∈ pre.flatMap (moduleRequests profilerInfo a q),
        FAILED (profilerInfo.RequestReJIT r.1 r.2) = false := by
      intro r hr
      obtain ⟨m, hm, hrm⟩ := List.mem_flatMap.mp hr
      exact (hpre m hm).2.2 r hrm
    have hloop : AikidoProfiler.moduleLoop profilerInfo a q pre =
        ⟨S_OK, pre.flatMap (moduleRequests profilerInfo a q)⟩ := by
      rw [moduleLoop_eq profilerInfo a q pre hlook, issue_of_accepted _ _ hacc]
      rfl
    have hok : FAILED (AikidoProfiler.moduleLoop profilerInfo a q pre).hr = false := by
      rw [hloop]
      exact FAILED_S_OK
    have hrest : AikidoProfiler.moduleLoop profilerInfo a q (moduleId :: post) =
        AikidoProfiler.RequestReJITForModule profilerInfo moduleId a q := by
      simp only [AikidoProfiler.moduleLoop,
        (RequestReJITForModule_of_failed profilerInfo moduleId a q hfail).1, if_true]
    rw [RequestReJIT_eq_moduleLoop profilerInfo methodsToInstrument a q he, hmods,
      moduleLoop_append_of_ok profilerInfo a q (moduleId :: post) pre hok, hrest,
      RequestReJITForModule_eq_of_failed profilerInfo moduleId a q hfail, hloop]
    exact ⟨rfl, by simp⟩
  · intro info reg a q he2
    rw [RequestReJIT_eq_moduleLoop info reg a q he2, moduleLoop_failed_iff]
    constructor
    · rintro ⟨m, hm, hf⟩
      exact ⟨m, hm, (RequestReJITForModule_failed_iff info m a q).mp hf⟩
    · rintro ⟨m, hm, hf⟩
      exact ⟨m, hm, (RequestReJITForModule_failed_iff info m a q).mpr hf⟩
  · intro info reg a q he2
    rw [RequestReJIT_of_failed_enumeration info reg a q he2]
    exact ⟨rfl, rfl⟩
  · intro reg a q
    exact ⟨rfl, rfl⟩

/-- Witness of C17 as amended: the host enumerates module 2 (`MyApp.Billing`), module 3, whose
metadata cannot be obtained, and module 1 (`MyApp.Orders`): the activation of
`MyApp.Orders`, `OrderService.Place` returns `E_FAIL` without a request. On the host where the
name lookups of one type and of one method fail, the activation goes on, issues the request
for the method `Place` that follows them and returns `S_OK`. -/
theorem C17_lookup_failure_aborts_activation_witness :
    FAILED (sampleInfo4 [2, 3, 1] none).EnumModules.1 = false ∧
    AikidoProfiler.collectModules (sampleInfo4 [2, 3, 1] none).EnumModules.2 = [2] ++ 3 :: [1] ∧
    (FAILED ((sampleInfo4 [2, 3, 1] none).GetModuleMetaData 3).1 = true ∨
      FAILED ((sampleInfo4 [2, 3, 1] none).GetModuleMetaData 3).2.GetScopeProps.1 = true) ∧
    (AikidoProfiler.RequestReJIT (some (sampleInfo4 [2, 3, 1] none)) ∅ "MyApp.Orders"
      "OrderService.Place").hr = E_FAIL ∧
    (AikidoProfiler.RequestReJIT (some (sampleInfo4 [2, 3, 1] none)) ∅ "MyApp.Orders"
      "OrderService.Place").requests = [] ∧
    (AikidoProfiler.RequestReJIT (some unnamedInfo4) ∅ "MyApp.Orders"
      "OrderService.Place").hr = S_OK ∧
    (AikidoProfiler.RequestReJIT (some unnamedInfo4) ∅ "MyApp.Orders"
      "OrderService.Place").requests = [(1, 0x06000002)] ∧
    (FAILED (AikidoProfiler.RequestReJIT (some (sampleInfo4 [2, 3, 1] none)) ∅
        "MyApp.Orders" "OrderService.Place").hr = true ∧
    (∀ r ∈ (AikidoProfiler.RequestReJIT (some (sampleInfo4 [2, 3, 1] none)) ∅
        "MyApp.Orders" "OrderService.Place").requests,
      r.1 ∈ [2]) ∧
    ((∀ m ∈ [2],
        FAILED ((sampleInfo4 [2, 3, 1] none).GetModuleMetaData m).1 = false ∧
        FAILED ((sampleInfo4 [2, 3, 1] none).GetModuleMetaData m).2.GetScopeProps.1 = false ∧
        ∀ r ∈ moduleRequests (sampleInfo4 [2, 3, 1] none) "MyApp.Orders" "OrderService.Place" m,
          FAILED ((sampleInfo4 [2, 3, 1] none).RequestReJIT r.1 r.2) = false) →
      (AikidoProfiler.RequestReJIT (some (sampleInfo4 [2, 3, 1] none)) ∅
        "MyApp.Orders" "OrderService.Place").hr =
        (if FAILED ((sampleInfo4 [2, 3, 1] none).GetModuleMetaData 3).1 = true then
          ((sampleInfo4 [2, 3, 1] none).GetModuleMetaData 3).1
        else ((sampleInfo4 [2, 3, 1] none).GetModuleMetaData 3).2.GetScopeProps.1) ∧
      (AikidoProfiler.RequestReJIT (some (sampleInfo4 [2, 3, 1] none)) ∅
        "MyApp.Orders" "OrderService.Place").requests =
        [2].flatMap
          (moduleRequests (sampleInfo4 [2, 3, 1] none) "MyApp.Orders" "OrderService.Place")) ∧
    (∀ (info : ICorProfilerInfo4) (reg : Registry) (a q : String),
      FAILED info.EnumModules.1 = false →
      (FAILED (AikidoProfiler.RequestReJIT (some info) reg a q).hr = true ↔
        ∃ m ∈ AikidoProfiler.collectModules info.EnumModules.2,
          FAILED (info.GetModuleMetaData m).1 = true ∨
          FAILED (info.GetModuleMetaData m).2.GetScopeProps.1 = true ∨
          ∃ r ∈ moduleRequests info a q m, FAILED (info.RequestReJIT r.1 r.2) = true)) ∧
    (∀ (info : ICorProfilerInfo4) (reg : Registry) (a q : String),
      FAILED info.EnumModules.1 = true →
      (AikidoProfiler.RequestReJIT (some info) reg a q).hr = info.EnumModules.1 ∧
      (AikidoProfiler.RequestReJIT (some info) reg a q).requests = []) ∧
    ∀ (reg : Registry) (a q : String),
      (AikidoProfiler.RequestReJIT none reg a q).hr = E_FAIL ∧
      (AikidoProfiler.RequestReJIT none reg a q).requests = []) :=
  ⟨by decide, by decide, by decide, by decide, by decide, by decide, by decide,
    C17_lookup_failure_aborts_activation (sampleInfo4 [2, 3, 1] none) ∅ "MyApp.Orders"
      "OrderService.Place" [2] 3 [1] (by decide) (by decide) (by decide)⟩

/-- C18 (the code does otherwise): the flag `isShuttingDown` is set by `Shutdown` and read by
nothing. For every state of the profiler, `Shutdown` sets `isShuttingDown`, releases the host
interface (`profilerInfo` becomes null) and clears `isInitialized`, and the flag then stays set
through every later sequence of `Initialize` and `Shutdown` calls. But `Initialize` looks at
`isInitialized` alone: an `Initialize` call after `Shutdown` whose `QueryInterface` and
`SetEventMask` succeed is not rejected, it returns `S_OK`, stores the interface it was given
and sets `isInitialized`, so the profiler is initialised again while `isShuttingDown` is still
set. Only an `Initialize` call made while `isInitialized` is set is rejected with `E_FAIL`. -/
theorem C18_initialize_after_shutdown_succeeds (s : Lifecycle) (pICorProfilerInfoUnk : IUnknown)
    (hq : FAILED pICorProfilerInfoUnk.QueryInterface_ICorProfilerInfo4.1 = false)
    (hm : FAILED pICorProfilerInfoUnk.QueryInterface_ICorProfilerInfo4.2.SetEventMask = false) :
    ((AikidoProfiler.Shutdown s).2.isShuttingDown = true ∧
      (AikidoProfiler.Shutdown s).2.profilerInfo = none ∧
      (AikidoProfiler.Shutdown s).2.isInitialized = false) ∧
    (AikidoProfiler.Initialize pICorProfilerInfoUnk (AikidoProfiler.Shutdown s).2).1 = S_OK ∧
    (AikidoProfiler.Initialize pICorProfilerInfoUnk
      (AikidoProfiler.Shutdown s).2).2.isInitialized = true ∧
    (AikidoProfiler.Initialize pICorProfilerInfoUnk
      (AikidoProfiler.Shutdown s).2).2.isShuttingDown = true ∧
    (AikidoProfiler.Initialize pICorProfilerInfoUnk
      (AikidoProfiler.Shutdown s).2).2.profilerInfo =
        some pICorProfilerInfoUnk.QueryInterface_ICorProfilerInfo4.2 ∧
    (∀ calls : List AikidoProfiler.LifecycleCall,
      (AikidoProfiler.runLifecycleCalls (AikidoProfiler.Shutdown s).2 calls).isShuttingDown =
        true) ∧
    (AikidoProfiler.Initialize pICorProfilerInfoUnk
      (AikidoProfiler.Initialize pICorProfilerInfoUnk (AikidoProfiler.Shutdown s).2).2).1 =
        E_FAIL := by
  have h1 : AikidoProfiler.Initialize pICorProfilerInfoUnk (AikidoProfiler.Shutdown s).2 =
      (S_OK, ⟨some pICorProfilerInfoUnk.QueryInterface_ICorProfilerInfo4.2, true, true⟩) := by
    simp [AikidoProfiler.Initialize, AikidoProfiler.Shutdown, hq, hm]
  refine ⟨⟨rfl, rfl, rfl⟩, by rw [h1], by rw [h1], by rw [h1], by rw [h1],
    fun calls => isShuttingDown_run calls _ rfl, ?_⟩
  rw [h1]
  rfl

/-- Witness of C18: `Initialize`, `Shutdown`, `Initialize` from the constructed profiler on a
host whose calls succeed: the second `Initialize` returns `S_OK` and the profiler is
initialised again with `isShuttingDown` still set. -/
theorem C18_initialize_after_shutdown_succeeds_witness :
    FAILED sampleUnknown.QueryInterface_ICorProfilerInfo4.1 = false ∧
    FAILED sampleUnknown.QueryInterface_ICorProfilerInfo4.2.SetEventMask = false ∧
    (AikidoProfiler.runLifecycleCalls AikidoProfiler.construct
      [.Initialize sampleUnknown, .Shutdown, .Initialize sampleUnknown]).isInitialized = true ∧
    (AikidoProfiler.runLifecycleCalls AikidoProfiler.construct
      [.Initialize sampleUnknown, .Shutdown, .Initialize sampleUnknown]).isShuttingDown = true ∧
    (AikidoProfiler.runLifecycleCalls AikidoProfiler.construct
      [.Initialize sampleUnknown, .Shutdown, .Initialize sampleUnknown]).profilerInfo =
        some sampleUnknown.QueryInterface_ICorProfilerInfo4.2 ∧
    (((AikidoProfiler.Shutdown
        (AikidoProfiler.Initialize sampleUnknown AikidoProfiler.construct).2).2.isShuttingDown =
          true ∧
      (AikidoProfiler.Shutdown
        (AikidoProfiler.Initialize sampleUnknown
          AikidoProfiler.construct).2).2.profilerInfo = none ∧
      (AikidoProfiler.Shutdown
        (AikidoProfiler.Initialize sampleUnknown AikidoProfiler.construct).2).2.isInitialized =
          false) ∧
    (AikidoProfiler.Initialize sampleUnknown (AikidoProfiler.Shutdown
      (AikidoProfiler.Initialize sampleUnknown AikidoProfiler.construct).2).2).1 = S_OK ∧
    (AikidoProfiler.Initialize sampleUnknown (AikidoProfiler.Shutdown
      (AikidoProfiler.Initialize sampleUnknown AikidoProfiler.construct).2).2).2.isInitialized =
        true ∧
    (AikidoProfiler.Initialize sampleUnknown (AikidoProfiler.Shutdown
      (AikidoProfiler.Initialize sampleUnknown AikidoProfiler.construct).2).2).2.isShuttingDown =
        true ∧
    (AikidoProfiler.Initialize sampleUnknown (AikidoProfiler.Shutdown
      (AikidoProfiler.Initialize sampleUnknown
        AikidoProfiler.construct).2).2).2.profilerInfo =
          some sampleUnknown.QueryInterface_ICorProfilerInfo4.2 ∧
    (∀ calls : List AikidoProfiler.LifecycleCall,
      (AikidoProfiler.runLifecycleCalls (AikidoProfiler.Shutdown
        (AikidoProfiler.Initialize sampleUnknown AikidoProfiler.construct).2).2
          calls).isShuttingDown = true) ∧
    (AikidoProfiler.Initialize sampleUnknown
      (AikidoProfiler.Initialize sampleUnknown (AikidoProfiler.Shutdown
        (AikidoProfiler.Initialize sampleUnknown AikidoProfiler.construct).2).2).2).1 =
          E_FAIL) :=
  ⟨rfl, rfl, rfl, rfl, rfl,
    C18_initialize_after_shutdown_succeeds
      (AikidoProfiler.Initialize sampleUnknown AikidoProfiler.construct).2 sampleUnknown
      rfl rfl⟩

/-- C19 (the code does otherwise): the return type is skipped by scanning for a byte
`ELEMENT_TYPE_END` (0x00), which the encoding of a return type does not contain. For every
host whose lookups succeed and every signature blob without a zero byte from offset 2 on (its
length being the blob's), `FromFunctionInfo` sets `argCount` to the parameter-count byte of the
blob and leaves `argTypes` empty: no parameter type is read. -/
theorem C19_parameter_types_lost_without_terminator (profilerInfo : ICorProfilerInfo4)
    (functionId : Nat) (sigBlob : List Nat)
    (h1 : FAILED (profilerInfo.GetFunctionInfo functionId).1 = false)
    (h2 : FAILED (profilerInfo.GetModuleMetaData
      (profilerInfo.GetFunctionInfo functionId).2.1).1 = false)
    (h3 : SUCCEEDED ((profilerInfo.GetModuleMetaData
      (profilerInfo.GetFunctionInfo functionId).2.1).2.GetMethodProps
        (profilerInfo.GetFunctionInfo functionId).2.2).1 = true)
    (h4 : ((profilerInfo.GetModuleMetaData
      (profilerInfo.GetFunctionInfo functionId).2.1).2.GetMethodProps
        (profilerInfo.GetFunctionInfo functionId).2.2).2.sigBlob = some sigBlob)
    (h5 : ((profilerInfo.GetModuleMetaData
      (profilerInfo.GetFunctionInfo functionId).2.1).2.GetMethodProps
        (profilerInfo.GetFunctionInfo functionId).2.2).2.sigBlobLength = sigBlob.length)
    (hz : ∀ i, i < sigBlob.length → 2 ≤ i → sigBlob.getD i 0 ≠ ELEMENT_TYPE_END) :
    (MethodInfo.FromFunctionInfo profilerInfo functionId).argCount = sigBlob.getD 1 0 ∧
    (MethodInfo.FromFunctionInfo profilerInfo functionId).argTypes = [] := by
  obtain ⟨hc, ht⟩ := FromFunctionInfo_signature profilerInfo functionId sigBlob h1 h2 h3 h4
  rw [h5] at hc ht
  obtain ⟨pc, pt⟩ := parseSignature_no_terminator (profilerInfo.GetModuleMetaData
    (profilerInfo.GetFunctionInfo functionId).2.1).2 sigBlob sigBlob.length hz
  exact ⟨hc.trans pc, ht.trans pt⟩

theorem C19_parameter_types_lost_without_terminator_witness :
    FAILED ((sampleInfo4 [1, 2] none).GetFunctionInfo 0).1 = false ∧
    FAILED ((sampleInfo4 [1, 2] none).GetModuleMetaData
      ((sampleInfo4 [1, 2] none).GetFunctionInfo 0).2.1).1 = false ∧
    SUCCEEDED (((sampleInfo4 [1, 2] none).GetModuleMetaData
      ((sampleInfo4 [1, 2] none).GetFunctionInfo 0).2.1).2.GetMethodProps
        ((sampleInfo4 [1, 2] none).GetFunctionInfo 0).2.2).1 = true ∧
    (((sampleInfo4 [1, 2] none).GetModuleMetaData
      ((sampleInfo4 [1, 2] none).GetFunctionInfo 0).2.1).2.GetMethodProps
        ((sampleInfo4 [1, 2] none).GetFunctionInfo 0).2.2).2.sigBlob =
          some staticVoidOfInt32 ∧
    (((sampleInfo4 [1, 2] none).GetModuleMetaData
      ((sampleInfo4 [1, 2] none).GetFunctionInfo 0).2.1).2.GetMethodProps
        ((sampleInfo4 [1, 2] none).GetFunctionInfo 0).2.2).2.sigBlobLength =
          staticVoidOfInt32.length ∧
    (∀ i, i < staticVoidOfInt32.length → 2 ≤ i →
      staticVoidOfInt32.getD i 0 ≠ ELEMENT_TYPE_END) ∧
    (MethodInfo.FromFunctionInfo (sampleInfo4 [1, 2] none) 0).argCount =
      staticVoidOfInt32.getD 1 0 ∧
    (MethodInfo.FromFunctionInfo (sampleInfo4 [1, 2] none) 0).argTypes = [] :=
  ⟨rfl, rfl, rfl, rfl, rfl, by decide,
    C19_parameter_types_lost_without_terminator (sampleInfo4 [1, 2] none) 0 staticVoidOfInt32
      rfl rfl rfl rfl rfl (by decide)⟩

/-- C20 (counterexample): `GetFunctionInfo` fails, so `FromFunctionInfo` returns the
zero-valued descriptor, whose qualified name `className + "." + methodName` is the string
".". In the registry reached by `AddMethodToInstrument("", ".")` that descriptor is eligible. -/
theorem C20_counterexample :
    MethodInfo.FromFunctionInfo unknownFunctionInfo4 0 = MethodInfo.construct ∧
    AikidoProfiler.ShouldInstrumentMethod
      (AikidoProfiler.runRegistryCalls ∅ [.add "" "."])
      (MethodInfo.FromFunctionInfo unknownFunctionInfo4 0) = true := by
  decide

/-- C20 (amended): when `GetFunctionInfo`, `GetModuleMetaData` or `GetMethodProps` fails,
`FromFunctionInfo` returns a descriptor with empty `assemblyName`, `className` and
`methodName`, and `ShouldInstrumentMethod` answers false for it in every registry state reached
from the empty registry by `AddMethodToInstrument` / `RemoveMethodToInstrument` calls none of
which is `AddMethodToInstrument("", ".")`. -/
theorem C20_failed_lookup_descriptor_not_eligible (profilerInfo : ICorProfilerInfo4)
    (functionId : Nat) (calls : List AikidoProfiler.RegistryCall)
    (hfail : FAILED (profilerInfo.GetFunctionInfo functionId).1 = true ∨
      FAILED (profilerInfo.GetModuleMetaData
        (profilerInfo.GetFunctionInfo functionId).2.1).1 = true ∨
      SUCCEEDED ((profilerInfo.GetModuleMetaData
        (profilerInfo.GetFunctionInfo functionId).2.1).2.GetMethodProps
          (profilerInfo.GetFunctionInfo functionId).2.2).1 = false)
    (hcalls : AikidoProfiler.RegistryCall.add "" "." ∉ calls) :
    (MethodInfo.FromFunctionInfo profilerInfo functionId).assemblyName = "" ∧
    (MethodInfo.FromFunctionInfo profilerInfo functionId).className = "" ∧
    (MethodInfo.FromFunctionInfo profilerInfo functionId).methodName = "" ∧
    AikidoProfiler.ShouldInstrumentMethod (AikidoProfiler.runRegistryCalls ∅ calls)
      (MethodInfo.FromFunctionInfo profilerInfo functionId) = false := by
  obtain ⟨ha, hc, hm⟩ := FromFunctionInfo_names_of_failed profilerInfo functionId hfail
  refine ⟨ha, hc, hm, ?_⟩
  apply not_eligible_run _ calls ∅ (ShouldInstrumentMethod_empty _)
  rw [ha, hc, hm]
  exact hcalls

theorem C20_failed_lookup_descriptor_not_eligible_witness :
    (FAILED (unknownFunctionInfo4.GetFunctionInfo 0).1 = true ∨
      FAILED (unknownFunctionInfo4.GetModuleMetaData
        (unknownFunctionInfo4.GetFunctionInfo 0).2.1).1 = true ∨
      SUCCEEDED ((unknownFunctionInfo4.GetModuleMetaData
        (unknownFunctionInfo4.GetFunctionInfo 0).2.1).2.GetMethodProps
          (unknownFunctionInfo4.GetFunctionInfo 0).2.2).1 = false) ∧
    AikidoProfiler.RegistryCall.add "" "." ∉
      [AikidoProfiler.RegistryCall.add "A" "C.M", .add "" "M", .remove "" "."] ∧
    (MethodInfo.FromFunctionInfo unknownFunctionInfo4 0).assemblyName = "" ∧
    (MethodInfo.FromFunctionInfo unknownFunctionInfo4 0).className = "" ∧
    (MethodInfo.FromFunctionInfo unknownFunctionInfo4 0).methodName = "" ∧
    AikidoProfiler.ShouldInstrumentMethod
      (AikidoProfiler.runRegistryCalls ∅
        [AikidoProfiler.RegistryCall.add "A" "C.M", .add "" "M", .remove "" "."])
      (MethodInfo.FromFunctionInfo unknownFunctionInfo4 0) = false :=
  ⟨by decide, by decide,
    C20_failed_lookup_descriptor_not_eligible unknownFunctionInfo4 0
      [AikidoProfiler.RegistryCall.add "A" "C.M", .add "" "M", .remove "" "."]
      (by decide) (by decide)⟩

/-- C21 (the code does otherwise): the runtime flag is never set. `DetectRuntime`, which scans
the assembly references of the module for `System.Runtime`, is called nowhere; the constructor
takes the flag from `DetectRuntimeStatic`, whose cache starts false and is never assigned. For
every rewriter constructed since program start, whatever `DetectRuntime` would answer for its
module, `isNetCore` is false (so the flag agrees with the scan only when the scan finds no
such reference), and when `InsertProlog` completes the `System.Object` reference in the prolog
is the one defined against the assembly reference `mscorlib`. -/
theorem C21_runtime_flag_is_never_set
    (GetModuleMetaData : Nat → HRESULT × MetaDataAssemblyImport) (ms : List MethodInfo)
    (m : MethodInfo) (metaEmit : MetaDataEmit)
    (hdone : (ILRewriter.InsertProlog metaEmit
      (ILRewriter.construct (staticsAfter ms) m).1).thrown = none) :
    (ILRewriter.construct (staticsAfter ms) m).1.isNetCore = false ∧
    ((ILRewriter.construct (staticsAfter ms) m).1.isNetCore =
        ILRewriter.DetectRuntime GetModuleMetaData (ILRewriter.construct (staticsAfter ms) m).1 ↔
      ILRewriter.DetectRuntime GetModuleMetaData
        (ILRewriter.construct (staticsAfter ms) m).1 = false) ∧
    ILRewriter.InsertProlog metaEmit (ILRewriter.construct (staticsAfter ms) m).1 =
      ⟨none, (ILRewriter.construct (staticsAfter ms) m).1.pushLocalVarSig.appended
        (prologBytes
          (localVarSigToken metaEmit
            (ILRewriter.construct (staticsAfter ms) m).1.pushLocalVarSig.localVarSig)
          (metaEmit.DefineTypeRefByName (metaEmit.DefineAssemblyRef "mscorlib").2
            "System.Object").2
          (bridgeMethodRef metaEmit) m)⟩ := by
  have hflag : (ILRewriter.construct (staticsAfter ms) m).1.isNetCore = false := by
    rw [construct_isNetCore, isNetCoreCache_staticsAfter]
  have hmi := construct_methodInfo (staticsAfter ms) m
  obtain ⟨hP, -⟩ := InsertProlog_eq_of_none hdone
  generalize (ILRewriter.construct (staticsAfter ms) m).1 = rw at hflag hmi hP ⊢
  refine ⟨hflag, ?_, ?_⟩
  · rw [hflag]
    constructor
    · intro h; exact h.symm
    · intro h; exact h.symm
  · rw [hP, hflag, hmi]
    rfl

set_option maxRecDepth 100000 in
theorem C21_runtime_flag_is_never_set_witness :
    (ILRewriter.InsertProlog netCoreEmit
      (ILRewriter.construct (staticsAfter [instanceTwoValueArgs]) staticOneReferenceArg).1).thrown
        = none ∧
    ILRewriter.DetectRuntime (fun _ => (S_OK, netCoreAssemblyImport))
      (ILRewriter.construct (staticsAfter [instanceTwoValueArgs]) staticOneReferenceArg).1 =
        true ∧
    (netCoreEmit.DefineTypeRefByName (netCoreEmit.DefineAssemblyRef "System.Runtime").2
      "System.Object").2 = 0x01000001 ∧
    (netCoreEmit.DefineTypeRefByName (netCoreEmit.DefineAssemblyRef "mscorlib").2
      "System.Object").2 = 0x01000002 ∧
    ((ILRewriter.construct (staticsAfter [instanceTwoValueArgs])
        staticOneReferenceArg).1.isNetCore = false ∧
      ((ILRewriter.construct (staticsAfter [instanceTwoValueArgs])
          staticOneReferenceArg).1.isNetCore =
          ILRewriter.DetectRuntime (fun _ => (S_OK, netCoreAssemblyImport))
            (ILRewriter.construct (staticsAfter [instanceTwoValueArgs])
              staticOneReferenceArg).1 ↔
        ILRewriter.DetectRuntime (fun _ => (S_OK, netCoreAssemblyImport))
          (ILRewriter.construct (staticsAfter [instanceTwoValueArgs])
            staticOneReferenceArg).1 = false) ∧
      ILRewriter.InsertProlog netCoreEmit
          (ILRewriter.construct (staticsAfter [instanceTwoValueArgs])
            staticOneReferenceArg).1 =
        ⟨none, (ILRewriter.construct (staticsAfter [instanceTwoValueArgs])
            staticOneReferenceArg).1.pushLocalVarSig.appended
          (prologBytes
            (localVarSigToken netCoreEmit
              (ILRewriter.construct (staticsAfter [instanceTwoValueArgs])
                staticOneReferenceArg).1.pushLocalVarSig.localVarSig)
            (netCoreEmit.DefineTypeRefByName (netCoreEmit.DefineAssemblyRef "mscorlib").2
              "System.Object").2
            (bridgeMethodRef netCoreEmit) staticOneReferenceArg)⟩) :=
  ⟨by decide, by decide, by decide, by decide,
    C21_runtime_flag_is_never_set (fun _ => (S_OK, netCoreAssemblyImport))
      [instanceTwoValueArgs] staticOneReferenceArg netCoreEmit (by decide)⟩

/-- C22: for every 32-bit token `t`, each of `Box(t)`, `NewArray(t)` and `CallMethod(t)`
returns exactly five bytes, its opcode (`0x8C`, `0x8D`, `0x28`) followed by the four bytes of
`t`, least significant first, and reading bytes 1 to 4 as a little-endian 32-bit integer gives
`t` back. -/
theorem C22_token_operands_little_endian (t : Nat) (h : t < 2 ^ 32) :
    ILInstructions.Box t =
      [0x8C, t % 256, t / 256 % 256, t / 65536 % 256, t / 16777216 % 256] ∧
    ILInstructions.NewArray t =
      [0x8D, t % 256, t / 256 % 256, t / 65536 % 256, t / 16777216 % 256] ∧
    ILInstructions.CallMethod t =
      [0x28, t % 256, t / 256 % 256, t / 65536 % 256, t / 16777216 % 256] ∧
    (ILInstructions.Box t).length = 5 ∧ (ILInstructions.NewArray t).length = 5 ∧
    (ILInstructions.CallMethod t).length = 5 ∧
    readLittleEndian32 ((ILInstructions.Box t).drop 1) = t ∧
    readLittleEndian32 ((ILInstructions.NewArray t).drop 1) = t ∧
    readLittleEndian32 ((ILInstructions.CallMethod t).drop 1) = t := by
  have hb := readLittleEndian32_bytes t h
  refine ⟨?_, ?_, ?_, rfl, rfl, rfl, hb, hb, hb⟩ <;>
    simp [ILInstructions.Box, ILInstructions.NewArray, ILInstructions.CallMethod, byteOf_eq,
      CEE_BOX, CEE_NEWARR, CEE_CALL]

theorem C22_token_operands_little_endian_witness :
    0x0A000003 < 2 ^ 32 ∧
    ILInstructions.Box 0x0A000003 =
      [0x8C, 0x0A000003 % 256, 0x0A000003 / 256 % 256, 0x0A000003 / 65536 % 256,
        0x0A000003 / 16777216 % 256] ∧
    ILInstructions.NewArray 0x0A000003 =
      [0x8D, 0x0A000003 % 256, 0x0A000003 / 256 % 256, 0x0A000003 / 65536 % 256,
        0x0A000003 / 16777216 % 256] ∧
    ILInstructions.CallMethod 0x0A000003 =
      [0x28, 0x0A000003 % 256, 0x0A000003 / 256 % 256, 0x0A000003 / 65536 % 256,
        0x0A000003 / 16777216 % 256] ∧
    (ILInstructions.Box 0x0A000003).length = 5 ∧ (ILInstructions.NewArray 0x0A000003).length = 5 ∧
    (ILInstructions.CallMethod 0x0A000003).length = 5 ∧
    readLittleEndian32 ((ILInstructions.Box 0x0A000003).drop 1) = 0x0A000003 ∧
    readLittleEndian32 ((ILInstructions.NewArray 0x0A000003).drop 1) = 0x0A000003 ∧
    readLittleEndian32 ((ILInstructions.CallMethod 0x0A000003).drop 1) = 0x0A000003 :=
  ⟨by decide, C22_token_operands_little_endian 0x0A000003 (by decide)⟩

/-- C23: for every 32-bit signed integer `v`, `LoadConstantI4(v)` is the single byte
`0x16 + v` when `0 <= v <= 8` and otherwise the five bytes `0x20` followed by the
twos-complement bytes of `v`, least significant first; the decoder recovers `v` from what
`LoadConstantI4(v)` returns, and it also recovers `v` from the general form of `v`, for every
`v`, so that for `0 <= v <= 8` the compact and the general form denote the same literal. -/
theorem C23_load_constant_decodable (v : Int) (h1 : -2 ^ 31 ≤ v) (h2 : v < 2 ^ 31) :
    (0 ≤ v ∧ v ≤ 8 → ILInstructions.LoadConstantI4 v = [0x16 + v.toNat]) ∧
    (¬ (0 ≤ v ∧ v ≤ 8) → ILInstructions.LoadConstantI4 v =
      [0x20, (v % 256).toNat, (v / 256 % 256).toNat, (v / 65536 % 256).toNat,
        (v / 16777216 % 256).toNat]) ∧
    decodeLoadConstantI4 (ILInstructions.LoadConstantI4 v) = some v ∧
    decodeLoadConstantI4
      [CEE_LDC_I4, byteOfInt v 0, byteOfInt v 8, byteOfInt v 16, byteOfInt v 24] = some v := by
  refine ⟨LoadConstantI4_compact v, ?_, decode_LoadConstantI4 v h1 h2,
    decode_general_form v h1 h2⟩
  intro hv
  simp only [ILInstructions.LoadConstantI4, hv, if_false, byteOfInt, Int.shiftRight_eq_div_pow,
    CEE_LDC_I4]
  norm_num

theorem C23_load_constant_decodable_witness :
    (-2 ^ 31 : Int) ≤ -2 ∧ (-2 : Int) < 2 ^ 31 ∧
    (0 ≤ (-2 : Int) ∧ (-2 : Int) ≤ 8 →
      ILInstructions.LoadConstantI4 (-2) = [0x16 + (-2 : Int).toNat]) ∧
    (¬ (0 ≤ (-2 : Int) ∧ (-2 : Int) ≤ 8) → ILInstructions.LoadConstantI4 (-2) =
      [0x20, ((-2 : Int) % 256).toNat, ((-2 : Int) / 256 % 256).toNat,
        ((-2 : Int) / 65536 % 256).toNat, ((-2 : Int) / 16777216 % 256).toNat]) ∧
    decodeLoadConstantI4 (ILInstructions.LoadConstantI4 (-2)) = some (-2) ∧
    decodeLoadConstantI4
      [CEE_LDC_I4, byteOfInt (-2) 0, byteOfInt (-2) 8, byteOfInt (-2) 16, byteOfInt (-2) 24] =
        some (-2) :=
  ⟨by decide, by decide, C23_load_constant_decodable (-2) (by decide) (by decide)⟩

/-- C24 (the code does otherwise): for every argument index `i` with `4 <= i <= 65535`,
`LoadArg(i)` returns the four bytes `09 FE lo hi`: the two bytes of `CEE_LDARG = 0xFE09` are
pushed low byte first, so the byte `0x09` comes first and the prefix byte `0xFE` second,
followed by `i` as a two-byte little-endian index. For `0 <= i <= 3` it returns the single
byte `0x02 + i`. -/
theorem C24_general_form_low_byte_first (i : Nat) (h : i ≤ 65535) :
    (i ≤ 3 → ILInstructions.LoadArg i = [0x02 + i]) ∧
    (4 ≤ i → ILInstructions.LoadArg i = [0x09, 0xFE, i % 256, i / 256]) := by
  constructor
  · intro hi
    have hb : toBYTE ((CEE_LDARG_0 : Int) + (i : Int)) = 0x02 + i := by
      unfold toBYTE CEE_LDARG_0
      omega
    have hle : (i : Int) ≤ 3 := by omega
    simp only [ILInstructions.LoadArg, hle, if_true, hb]
  · intro hi
    have hgt : ¬ ((i : Int) ≤ 3) := by omega
    have h0 : byteOf CEE_LDARG 0 = 0x09 := by decide
    have h8 : byteOf CEE_LDARG 8 = 0xFE := by decide
    have hhi : i / 2 ^ 8 % 256 = i / 256 := by
      norm_num
      omega
    simp only [ILInstructions.LoadArg, hgt, if_false, h0, h8, byteOfInt_natCast, hhi]
    norm_num

theorem C24_general_form_low_byte_first_witness :
    4 ≤ 65535 ∧
    ((4 : Nat) ≤ 3 → ILInstructions.LoadArg (4 : Nat) = [0x02 + 4]) ∧
    (4 ≤ 4 → ILInstructions.LoadArg (4 : Nat) = [0x09, 0xFE, 4 % 256, 4 / 256]) :=
  ⟨by decide, C24_general_form_low_byte_first 4 (by decide)⟩

/-- C25 (the code does otherwise): for every instance method on whose descriptor
`EmitLoadArguments` completes (called with the write pointer at the cursor, as in `Rewrite`),
the bytes written are the array-length literal `LoadConstantI4(argCount)`, which denotes
`argCount`, the new-array instruction, the store to local 0, and then the staging sequence,
which has `argCount + 1` element stores: one more than the length of the array. -/
theorem C25_instance_array_is_one_slot_short (metaEmit : MetaDataEmit) (rw : ILRewriter)
    (hinst : rw.methodInfo.isStatic = false)
    (hpos : rw.newIL = rw.currentILOffset)
    (hdone : (ILRewriter.EmitLoadArguments (some metaEmit) rw).thrown = none) :
    ((ILRewriter.EmitLoadArguments (some metaEmit) rw).rw.ilBuffer.drop
      rw.currentILOffset).take
        (encodeAll ([.LoadConstantI4 rw.methodInfo.argCount,
          .NewArray (objectTypeRef metaEmit rw.isNetCore), .StoreLocal 0] ++
            stagingReference rw.methodInfo)).length =
      encodeAll ([.LoadConstantI4 rw.methodInfo.argCount,
        .NewArray (objectTypeRef metaEmit rw.isNetCore), .StoreLocal 0] ++
          stagingReference rw.methodInfo) ∧
    decodeLoadConstantI4 (ILInstructions.LoadConstantI4 rw.methodInfo.argCount) =
      some (rw.methodInfo.argCount : Int) ∧
    (stagingReference rw.methodInfo).countP Instr.isStoreElementRef =
      rw.methodInfo.argCount + 1 := by
  obtain ⟨h1, h2, hw⟩ := EmitLoadArguments_written metaEmit rw hpos hdone
  refine ⟨hw, decode_LoadConstantI4 _ (by omega) (by omega), ?_⟩
  have hcount := countP_argumentStaging rw.methodInfo.isStatic
    (rw.methodInfo.argTypes.take rw.methodInfo.argCount) 0
  have htake : (rw.methodInfo.argTypes.take rw.methodInfo.argCount).length =
      rw.methodInfo.argCount := by
    simp only [List.length_take]
    omega
  have hrecv := countP_slotStaging 0 rw.methodInfo.isValueType rw.methodInfo.typeToken
  rw [stagingReference, List.countP_append, hcount.1, htake, hinst]
  simp only [Bool.false_eq_true, if_false, hrecv.1]
  omega

set_option maxRecDepth 100000 in
theorem C25_instance_array_is_one_slot_short_witness :
    (freshRewriter instanceTwoValueArgs).methodInfo.isStatic = false ∧
    (freshRewriter instanceTwoValueArgs).newIL =
      (freshRewriter instanceTwoValueArgs).currentILOffset ∧
    (ILRewriter.EmitLoadArguments (some sampleEmit)
      (freshRewriter instanceTwoValueArgs)).thrown = none ∧
    (((ILRewriter.EmitLoadArguments (some sampleEmit)
        (freshRewriter instanceTwoValueArgs)).rw.ilBuffer.drop
      (freshRewriter instanceTwoValueArgs).currentILOffset).take
        (encodeAll ([.LoadConstantI4 (freshRewriter instanceTwoValueArgs).methodInfo.argCount,
          .NewArray (objectTypeRef sampleEmit (freshRewriter instanceTwoValueArgs).isNetCore),
          .StoreLocal 0] ++
            stagingReference (freshRewriter instanceTwoValueArgs).methodInfo)).length =
      encodeAll ([.LoadConstantI4 (freshRewriter instanceTwoValueArgs).methodInfo.argCount,
        .NewArray (objectTypeRef sampleEmit (freshRewriter instanceTwoValueArgs).isNetCore),
        .StoreLocal 0] ++
          stagingReference (freshRewriter instanceTwoValueArgs).methodInfo) ∧
    decodeLoadConstantI4 (ILInstructions.LoadConstantI4
        (freshRewriter instanceTwoValueArgs).methodInfo.argCount) =
      some ((freshRewriter instanceTwoValueArgs).methodInfo.argCount : Int) ∧
    (stagingReference (freshRewriter instanceTwoValueArgs).methodInfo).countP
        Instr.isStoreElementRef =
      (freshRewriter instanceTwoValueArgs).methodInfo.argCount + 1) :=
  ⟨by decide, rfl, by decide,
    C25_instance_array_is_one_slot_short sampleEmit (freshRewriter instanceTwoValueArgs)
      (by decide) rfl (by decide)⟩

/-- C26 (the code does otherwise): the four-byte read of the type token after a value-type
marker is not bounds-checked. For every blob in which the first zero byte from offset 2 on is
at offset `z`, the byte after it is `ELEMENT_TYPE_VALUETYPE`, the parameter count is at least
one and fewer than four bytes follow the marker, the parser reads the byte at offset `z + 5`,
which is not less than the length of the blob. -/
theorem C26_token_read_past_the_blob (metaData : MetaDataImport) (sigBlob : List Nat) (z : Nat)
    (hz : 2 ≤ z) (hlen : z + 1 < sigBlob.length)
    (hret : ∀ i, i < z → 2 ≤ i → sigBlob.getD i 0 ≠ ELEMENT_TYPE_END)
    (hend : sigBlob.getD z 0 = ELEMENT_TYPE_END)
    (hmark : sigBlob.getD (z + 1) 0 = ELEMENT_TYPE_VALUETYPE)
    (hcount : 1 ≤ sigBlob.getD 1 0)
    (hshort : sigBlob.length ≤ z + 5) :
    ∃ i ∈ (MethodInfo.parseSignature metaData sigBlob sigBlob.length).2.reads,
      sigBlob.length ≤ i := by
  refine ⟨z + 5, ?_, hshort⟩
  unfold MethodInfo.parseSignature
  simp only
  have hoff : (MethodInfo.skipReturnType sigBlob sigBlob.length sigBlob.length
      ⟨2, [], [0, 1]⟩).offset = z :=
    skipReturnType_stops_at sigBlob sigBlob.length z (by omega) hend sigBlob.length
      ⟨2, [], [0, 1]⟩ hz (by show z < 2 + sigBlob.length; omega) hret
  obtain ⟨n, hn⟩ : ∃ n, MethodInfo.sigByte sigBlob 1 = n + 1 :=
    ⟨MethodInfo.sigByte sigBlob 1 - 1, by
      have : 1 ≤ MethodInfo.sigByte sigBlob 1 := hcount
      omega⟩
  rw [hn, readParameterTypes_value_type _ _ _ _ _ (by rw [hoff]; exact hlen)
    (by rw [hoff]; exact hmark)]
  apply reads_readParameterTypes
  simp only [hoff, List.mem_append, List.mem_cons]
  right
  right; right; right; right
  left
  trivial

theorem C26_token_read_past_the_blob_witness :
    2 ≤ 5 ∧ 5 + 1 < staticVoidOfClassAndValueType.length ∧
    (∀ i, i < 5 → 2 ≤ i → staticVoidOfClassAndValueType.getD i 0 ≠ ELEMENT_TYPE_END) ∧
    staticVoidOfClassAndValueType.getD 5 0 = ELEMENT_TYPE_END ∧
    staticVoidOfClassAndValueType.getD (5 + 1) 0 = ELEMENT_TYPE_VALUETYPE ∧
    1 ≤ staticVoidOfClassAndValueType.getD 1 0 ∧
    staticVoidOfClassAndValueType.length ≤ 5 + 5 ∧
    (MethodInfo.parseSignature (sampleMetaData "MyApp.Orders") staticVoidOfClassAndValueType
      staticVoidOfClassAndValueType.length).2.reads = [0, 1, 2, 3, 4, 5, 6, 7, 8, 9, 10] ∧
    staticVoidOfClassAndValueType.length = 8 ∧
    ∃ i ∈ (MethodInfo.parseSignature (sampleMetaData "MyApp.Orders")
        staticVoidOfClassAndValueType staticVoidOfClassAndValueType.length).2.reads,
      staticVoidOfClassAndValueType.length ≤ i :=
  ⟨by decide, by decide, by decide, by decide, by decide, by decide, by decide, by decide,
    by decide,
    C26_token_read_past_the_blob (sampleMetaData "MyApp.Orders") staticVoidOfClassAndValueType 5
      (by decide) (by decide) (by decide) (by decide) (by decide) (by decide) (by decide)⟩

/-- C28: whenever the lookups of the function, of its module, of the method and of the owning
type succeed, `FromFunctionInfo` sets `isValueType` to `(typeDefFlags & tdClass) == 0`; since
`tdClass` is the zero mask that test holds for every flags value, so `isValueType` is true
whatever the owning type is. Consequently, for an instance method, when `EmitLoadArguments`
completes on a rewriter of that descriptor (write pointer at the cursor, as in `Rewrite`),
the bytes that follow the array creation are `LoadArg(0)`, `Box(typeToken)` and
`StoreElementRef`: the receiver is boxed. -/
theorem C28_receiver_is_always_boxed (info : ICorProfilerInfo4) (functionId : Nat)
    (metaEmit : MetaDataEmit) (rw : ILRewriter)
    (h1 : FAILED (info.GetFunctionInfo functionId).1 = false)
    (h2 : FAILED (info.GetModuleMetaData (info.GetFunctionInfo functionId).2.1).1 = false)
    (h3 : SUCCEEDED ((info.GetModuleMetaData (info.GetFunctionInfo functionId).2.1).2.GetMethodProps
        (info.GetFunctionInfo functionId).2.2).1 = true)
    (h4 : SUCCEEDED ((info.GetModuleMetaData (info.GetFunctionInfo functionId).2.1).2.GetTypeDefProps
        ((info.GetModuleMetaData (info.GetFunctionInfo functionId).2.1).2.GetMethodProps
          (info.GetFunctionInfo functionId).2.2).2.typeDef).1 = true)
    (hinst : (MethodInfo.FromFunctionInfo info functionId).isStatic = false)
    (hm : rw.methodInfo = MethodInfo.FromFunctionInfo info functionId)
    (hpos : rw.newIL = rw.currentILOffset)
    (hdone : (ILRewriter.EmitLoadArguments (some metaEmit) rw).thrown = none) :
    (MethodInfo.FromFunctionInfo info functionId).isValueType =
      decide (((info.GetModuleMetaData (info.GetFunctionInfo functionId).2.1).2.GetTypeDefProps
        ((info.GetModuleMetaData (info.GetFunctionInfo functionId).2.1).2.GetMethodProps
          (info.GetFunctionInfo functionId).2.2).2.typeDef).2.2 &&& tdClass = 0) ∧
    (∀ typeDefFlags : Nat, decide (typeDefFlags &&& tdClass = 0) = true) ∧
    (MethodInfo.FromFunctionInfo info functionId).isValueType = true ∧
    ((ILRewriter.EmitLoadArguments (some metaEmit) rw).rw.ilBuffer.drop
        (rw.currentILOffset + (ILInstructions.LoadConstantI4 rw.methodInfo.argCount ++
          ILInstructions.NewArray (objectTypeRef metaEmit rw.isNetCore) ++
          ILInstructions.StoreLocal 0).length)).take 7 =
      ILInstructions.LoadArg 0 ++
        ILInstructions.Box (MethodInfo.FromFunctionInfo info functionId).typeToken ++
        ILInstructions.StoreElementRef := by
  obtain ⟨hv, -, -⟩ := FromFunctionInfo_isValueType info functionId h1 h2 h3 h4
  have hall : ∀ typeDefFlags : Nat, decide (typeDefFlags &&& tdClass = 0) = true := by
    intro typeDefFlags
    simp [tdClass]
  have htrue : (MethodInfo.FromFunctionInfo info functionId).isValueType = true := by
    rw [hv]; exact hall _
  refine ⟨hv, hall, htrue, ?_⟩
  obtain ⟨-, -, hw⟩ := EmitLoadArguments_written metaEmit rw hpos hdone
  rw [encodeAll_loadArgumentsReference_instance _ _ (by rw [hm]; exact hinst)] at hw
  have hp := take_drop_of_prefix _ _ _ _ _ hw
  rw [hm, htrue] at hp
  rw [hm]
  have e1 : encodeAll [Instr.LoadConstantI4
      ((MethodInfo.FromFunctionInfo info functionId).argCount : Int),
      Instr.NewArray (objectTypeRef metaEmit rw.isNetCore), Instr.StoreLocal 0] =
      ILInstructions.LoadConstantI4 (MethodInfo.FromFunctionInfo info functionId).argCount ++
        ILInstructions.NewArray (objectTypeRef metaEmit rw.isNetCore) ++
        ILInstructions.StoreLocal 0 := by
    simp [encodeAll, Instr.encode]
  have e2 : encodeAll (slotStaging 0 true (MethodInfo.FromFunctionInfo info functionId).typeToken)
      = ILInstructions.LoadArg 0 ++
        ILInstructions.Box (MethodInfo.FromFunctionInfo info functionId).typeToken ++
        ILInstructions.StoreElementRef := by
    simp [slotStaging, encodeAll, Instr.encode]
  have e3 : (ILInstructions.LoadArg 0 ++
        ILInstructions.Box (MethodInfo.FromFunctionInfo info functionId).typeToken ++
        ILInstructions.StoreElementRef).length = 7 := by
    simp [ILInstructions.LoadArg, ILInstructions.Box, ILInstructions.StoreElementRef]
  rw [e1, e2, e3] at hp
  exact hp

set_option maxRecDepth 100000 in
theorem C28_receiver_is_always_boxed_witness :
    FAILED ((instanceMethodInfo4 0x100001).GetFunctionInfo 7).1 = false ∧
    FAILED ((instanceMethodInfo4 0x100001).GetModuleMetaData 1).1 = false ∧
    SUCCEEDED (((instanceMethodInfo4 0x100001).GetModuleMetaData 1).2.GetMethodProps
      0x06000001).1 = true ∧
    ((instanceMethodInfo4 0x100001).GetModuleMetaData 1).2.GetTypeDefProps 0x02000002 =
      (S_OK, "OrderService", 0x100001) ∧
    (MethodInfo.FromFunctionInfo (instanceMethodInfo4 0x100001) 7).isStatic = false ∧
    (freshRewriter (MethodInfo.FromFunctionInfo (instanceMethodInfo4 0x100001) 7)).newIL =
      (freshRewriter
        (MethodInfo.FromFunctionInfo (instanceMethodInfo4 0x100001) 7)).currentILOffset ∧
    (ILRewriter.EmitLoadArguments (some sampleEmit) (freshRewriter
      (MethodInfo.FromFunctionInfo (instanceMethodInfo4 0x100001) 7))).thrown = none ∧
    ((MethodInfo.FromFunctionInfo (instanceMethodInfo4 0x100001) 7).isValueType =
        decide (0x100001 &&& tdClass = 0) ∧
      (∀ typeDefFlags : Nat, decide (typeDefFlags &&& tdClass = 0) = true) ∧
      (MethodInfo.FromFunctionInfo (instanceMethodInfo4 0x100001) 7).isValueType = true ∧
      ((ILRewriter.EmitLoadArguments (some sampleEmit) (freshRewriter
          (MethodInfo.FromFunctionInfo (instanceMethodInfo4 0x100001) 7))).rw.ilBuffer.drop
        (0 + (ILInstructions.LoadConstantI4 0 ++ ILInstructions.NewArray 0x01000002 ++
          ILInstructions.StoreLocal 0).length)).take 7 =
        ILInstructions.LoadArg 0 ++ ILInstructions.Box 0x02000002 ++
          ILInstructions.StoreElementRef) :=
  ⟨by decide, by decide, by decide, by decide, by decide, rfl, by decide,
    C28_receiver_is_always_boxed (instanceMethodInfo4 0x100001) 7 sampleEmit
      (freshRewriter (MethodInfo.FromFunctionInfo (instanceMethodInfo4 0x100001) 7))
      (by decide) (by decide) (by decide) (by decide) (by decide) rfl rfl (by decide)⟩

end AikidoZen
